import Mathlib

/-!
# Airhorn bot: playback scheduling, selector and audio container

A shallow embedding of `cmd/bot/bot.go` and theorems about it.

Conventions of the embedding:

* a Go `int` is a Lean `Int` kept in the 64-bit range by `wrapInt` after every addition;
* a Go pointer that may be nil is an `Option`;
* a Go function that may panic returns an `Outcome`;
* the process state that `playSound` and `enqueuePlay` touch (the registry `queues`, the
  voice transport, the clock and the generator of `math/rand`) is the record `World`,
  passed explicitly; everything the program sends to a collaborator is appended to
  `World.trace`;
* one goroutine is followed at a time; what the other goroutines do to the registry
  meanwhile is the `script` of the world, which takes effect at the points where the
  goroutine followed reads or writes `queues`;
* the recursion of `playSound` is bounded by a fuel argument, and the theorems say how much
  fuel gives a result;
* logging calls are not modelled.
-/

namespace Airhorn

/-! ## Basic types -/

/-- One byte. -/
abbrev Byte := Fin 256

/-- A Go `error` value, as far as the program distinguishes them. -/
inductive GoError where
  | EOF
  | ErrUnexpectedEOF
  | other (msg : String)
deriving DecidableEq, Repr

/-- How a Go call ends: it returns a value or it panics. -/
inductive Outcome (α : Type) where
  | returned (a : α)
  | panicked
deriving DecidableEq, Repr

/-- Wrap-around of a 64-bit signed Go `int`. -/
def wrapInt (x : Int) : Int := (x + 2 ^ 63) % 2 ^ 64 - 2 ^ 63

/-- The values of a 64-bit signed Go `int`. -/
def isInt (x : Int) : Prop := -(2 ^ 63) ≤ x ∧ x < 2 ^ 63

instance (x : Int) : Decidable (isInt x) := by unfold isInt; infer_instance

/-- `type Sound struct`. -/
structure Sound where
  Name : String
  Weight : Int
  PartDelay : Int
  buffer : List (List Byte)
deriving DecidableEq, Repr

/-- `type SoundCollection struct`; `ChainWith` is a pointer to another collection. -/
inductive SoundCollection where
  | mk (Prefix : String) (Commands : List String) (Sounds : List Sound)
      (ChainWith : Option SoundCollection) (soundRange : Int)

namespace SoundCollection

def Prefix : SoundCollection → String
  | mk p _ _ _ _ => p

def Commands : SoundCollection → List String
  | mk _ c _ _ _ => c

def Sounds : SoundCollection → List Sound
  | mk _ _ s _ _ => s

def ChainWith : SoundCollection → Option SoundCollection
  | mk _ _ _ c _ => c

def soundRange : SoundCollection → Int
  | mk _ _ _ _ r => r

end SoundCollection

/-- `func createSound(Name string, Weight int, PartDelay int) *Sound`. -/
def createSound (Name : String) (Weight : Int) (PartDelay : Int) : Sound :=
  { Name := Name, Weight := Weight, PartDelay := PartDelay, buffer := [] }

/-! ## The audio container: `Sound.Load` -/

/-- An open file: the bytes not yet read, and the error the device reports once they are
used up (`none`: a plain end of file). -/
structure File where
  data : List Byte
  fault : Option GoError
deriving DecidableEq, Repr

/-- `io.ReadFull(r, buf)` with `len(buf) = n`, which is what `binary.Read` calls: exactly `n`
bytes, or `io.EOF` when nothing could be read, or `io.ErrUnexpectedEOF` when the file ends
inside the `n` bytes, or the device error. Asking for no byte succeeds without a read. -/
def ioReadFull (f : File) (n : Nat) : Except GoError (List Byte) × File :=
  if n = 0 then (.ok [], f)
  else if n ≤ f.data.length then (.ok (f.data.take n), { f with data := f.data.drop n })
  else match f.fault with
    | some e => (.error e, { f with data := [] })
    | none => (.error (if f.data.isEmpty then .EOF else .ErrUnexpectedEOF), { f with data := [] })

/-- The value `binary.Read(file, binary.LittleEndian, &opuslen)` stores in
`var opuslen int16` from the two bytes read: little-endian, signed. -/
def int16LE (bs : List Byte) : Int :=
  let u : Nat := (bs.getD 0 0).val + 256 * (bs.getD 1 0).val
  if u < 32768 then (u : Int) else (u : Int) - 65536

/-- The `for` loop of `Sound.Load` (lines 1440-1466): the state is the file position and
`s.buffer`; the result is the final `s.buffer` and how `Load` ends. `make([]byte, opuslen)`
panics for a negative `opuslen`. -/
def Sound.Load.loop (file : File) (buffer : List (List Byte)) :
    List (List Byte) × Outcome (Option GoError) :=
  -- read opus frame length from dca file
  match h1 : ioReadFull file 2 with
  | (.error e, _) =>
    -- If this is the end of the file, just return
    if e = .EOF ∨ e = .ErrUnexpectedEOF then (buffer, .returned none)
    else (buffer, .returned (some e))
  | (.ok bs, file1) =>
    let opuslen := int16LE bs
    if opuslen < 0 then (buffer, .panicked)
    else
      -- read encoded pcm from dca file
      match h2 : ioReadFull file1 opuslen.toNat with
      | (.error e, _) => (buffer, .returned (some e))
      | (.ok InBuf, file2) => Sound.Load.loop file2 (buffer ++ [InBuf])
termination_by file.data.length
decreasing_by
  have a : file1.data.length + 2 = file.data.length := by
    unfold ioReadFull at h1
    split at h1
    · omega
    · split at h1
      · simp only [Prod.mk.injEq, Except.ok.injEq] at h1
        obtain ⟨_, rfl⟩ := h1
        simp only [List.length_drop]
        omega
      · split at h1 <;> simp at h1
  have b : file2.data.length ≤ file1.data.length := by
    unfold ioReadFull at h2
    split at h2
    · simp only [Prod.mk.injEq, Except.ok.injEq] at h2
      obtain ⟨_, rfl⟩ := h2
      exact le_refl _
    · split at h2
      · simp only [Prod.mk.injEq, Except.ok.injEq] at h2
        obtain ⟨_, rfl⟩ := h2
        simp
      · split at h2 <;> simp at h2
  omega

/-- The path `fmt.Sprintf("audio/%v_%v.dca", c.Prefix, s.Name)`. -/
def Sound.path (s : Sound) (c : SoundCollection) : String :=
  "audio/" ++ c.Prefix ++ "_" ++ s.Name ++ ".dca"

/-- `func (s *Sound) Load(c *SoundCollection) error`. `fs` is `os.Open`: the file at a path
or the error of opening it. The result is the sound after the call and the call's end. -/
def Sound.Load (fs : String → Except GoError File) (s : Sound) (c : SoundCollection) :
    Sound × Outcome (Option GoError) :=
  match fs (s.path c) with
  | .error err => (s, .returned (some err))
  | .ok file =>
    let r := Sound.Load.loop file s.buffer
    ({ s with buffer := r.1 }, r.2)

/-- The container format of the specification: one record is the payload length as
`uint16`, little-endian, followed by the payload. -/
def encodeFrame (frame : List Byte) : List Byte :=
  Fin.ofNat (frame.length % 256) :: Fin.ofNat (frame.length / 256 % 256) :: frame

/-- A container: the records of the frames, one after the other. -/
def encodeFrames : List (List Byte) → List Byte
  | [] => []
  | frame :: rest => encodeFrame frame ++ encodeFrames rest

/-! ## Plays, the registry and the world -/

/-- `type Play struct`; `Sound` and `Next` are pointers. -/
inductive Play where
  | mk (GuildID : String) (ChannelID : String) (UserID : String) (Sound : Option Sound)
      (Next : Option Play) (Forced : Bool)

namespace Play

def GuildID : Play → String
  | mk g _ _ _ _ _ => g

def ChannelID : Play → String
  | mk _ c _ _ _ _ => c

def UserID : Play → String
  | mk _ _ u _ _ _ => u

def Sound : Play → Option Airhorn.Sound
  | mk _ _ _ s _ _ => s

def Next : Play → Option Play
  | mk _ _ _ _ n _ => n

def Forced : Play → Bool
  | mk _ _ _ _ _ f => f

end Play

/-- `discordgo.User`, the field the program reads. -/
structure User where
  ID : String
deriving DecidableEq, Repr

/-- `discordgo.VoiceState`, the fields the program reads. -/
structure VoiceState where
  UserID : String
  ChannelID : String
deriving DecidableEq, Repr

/-- `discordgo.Guild`, the fields the program reads. -/
structure Guild where
  ID : String
  VoiceStates : List VoiceState
deriving DecidableEq, Repr

/-- `discordgo.Channel`, the fields the program reads. -/
structure Channel where
  ID : String
  GuildID : String
deriving DecidableEq, Repr

/-- A buffered Go channel `chan *Play`: its capacity and the plays waiting in it. -/
structure Chan where
  cap : Nat
  buf : List Play

/-- What the program asks of its collaborators, in program order. A voice connection is
named by the number of the join that opened it. -/
inductive Event where
  /-- `discord.ChannelVoiceJoin(guild, channel, false, false)` and what it answered. -/
  | ChannelVoiceJoin (GuildID : String) (ChannelID : String) (result : Except GoError Nat)
  /-- `vc.ChangeChannel(channel, false, false)`. -/
  | ChangeChannel (vc : Nat) (ChannelID : String)
  /-- `time.Sleep` of so many milliseconds. -/
  | Sleep (ms : Int)
  /-- `go trackSoundStats(play)`. -/
  | trackSoundStats (play : Play)
  /-- `vc.Speaking(b)`. -/
  | Speaking (vc : Nat) (b : Bool)
  /-- `vc.OpusSend <- buff`. -/
  | OpusSend (vc : Nat) (buff : List Byte)
  /-- `vc.Disconnect()`. -/
  | Disconnect (vc : Nat)

/-- `MAX_QUEUE_SIZE = 6`. -/
def MAX_QUEUE_SIZE : Nat := 6

/-- The process state and its surroundings.

* `queues` is the global map of guild ids to play channels; every access of the program
  goes through the map, so a channel is held by value.
* `trace` is everything asked of the collaborators so far.
* `script` is what other goroutines do meanwhile: one batch of plays per point at which
  this goroutine touches `queues`, each of them put through the registry section of
  `enqueuePlay` just before that access. `spawned` collects the plays for which such a
  goroutine took the branch that starts a worker of its own.
* `joinErr n g c` is the answer of the transport to the `n`-th join, asked for guild `g`
  and channel `c`; `joins` counts the joins; `vcChannel` is the field `ChannelID` of each
  connection.
* `channels` is `discord.State.Channel`.
* `now` are the successive readings of the clock, `ticks` counts them, and `rng` is the
  state of the generator of `math/rand`. -/
structure World where
  queues : String → Option Chan
  trace : List Event
  script : List (List Play)
  spawned : List Play
  joinErr : Nat → String → String → Option GoError
  joins : Nat
  vcChannel : Nat → String
  channels : String → Option Channel
  now : Nat → Int
  ticks : Nat
  rng : Int

/-- Append one event to the trace. -/
def World.emit (w : World) (e : Event) : World :=
  { w with trace := w.trace ++ [e] }

/-! ## The weighted selector -/

/-- The global generator of `math/rand`, as far as the program uses it: `Seed` gives the
state after `rand.Seed(seed)`, `Intn g n` the value of `rand.Intn(n)` in state `g` and the
next state; for `0 < n` the value lies in `[0, n)`. `rand.Intn(n)` panics for `n ≤ 0`. -/
structure RandLib where
  Seed : Int → Int
  Intn : Int → Int → Int × Int
  Intn_range : ∀ g n, 0 < n → 0 ≤ (Intn g n).1 ∧ (Intn g n).1 < n

/-- `func randomRange(min, max int) int`: seeds the generator from the clock, then draws. -/
def randomRange (lib : RandLib) (w : World) (min max : Int) : Outcome Int × World :=
  -- rand.Seed(time.Now().UTC().UnixNano())
  let w1 := { w with ticks := w.ticks + 1, rng := lib.Seed (w.now w.ticks) }
  -- rand.Intn(max-min) + min
  let n := wrapInt (max - min)
  if n ≤ 0 then (.panicked, w1)
  else
    let r := lib.Intn w1.rng n
    (.returned (wrapInt (r.1 + min)), { w1 with rng := r.2 })

/-- The `for` loop of `SoundCollection.Random` (lines 1413-1420) over the sounds left, with
the running sum `i`. -/
def SoundCollection.Random.walk (number : Int) : List Sound → Int → Option Sound
  | [], _ => none
  | sound :: rest, i =>
    let i := wrapInt (i + sound.Weight)
    if number < i then some sound else SoundCollection.Random.walk number rest i

/-- `func (s *SoundCollection) Random() *Sound`. -/
def SoundCollection.Random (lib : RandLib) (w : World) (s : SoundCollection) :
    Outcome (Option Sound) × World :=
  match randomRange lib w 0 s.soundRange with
  | (.returned number, w1) => (.returned (SoundCollection.Random.walk number s.Sounds 0), w1)
  | (.panicked, w1) => (.panicked, w1)

/-! ## Preparing a play -/

/-- `func getCurrentVoiceChannel(user, guild) *discordgo.Channel`. -/
def getCurrentVoiceChannel (w : World) (user : User) (guild : Guild) : Option Channel :=
  match guild.VoiceStates.find? (fun vs => decide (vs.UserID = user.ID)) with
  | some vs => w.channels vs.ChannelID
  | none => none

/-- `func createPlay(user, guild, coll, sound) *Play`. -/
def createPlay (lib : RandLib) (w : World) (user : User) (guild : Guild)
    (coll : SoundCollection) (sound : Option Sound) : Outcome (Option Play) × World :=
  -- Grab the users voice channel
  match getCurrentVoiceChannel w user guild with
  | none => (.returned none, w)
  | some channel =>
    -- If we didn't get passed a manual sound, generate a random one
    let first : Outcome (Option Sound × Bool) × World :=
      match sound with
      | some s => (.returned (some s, true), w)
      | none =>
        match coll.Random lib w with
        | (.returned r, w1) => (.returned (r, false), w1)
        | (.panicked, w1) => (.panicked, w1)
    match first with
    | (.panicked, w1) => (.panicked, w1)
    | (.returned (chosen, forced), w1) =>
      -- If the collection is a chained one, set the next sound
      match coll.ChainWith with
      | none =>
        (.returned (some (.mk guild.ID channel.ID user.ID chosen none forced)), w1)
      | some chain =>
        match chain.Random lib w1 with
        | (.panicked, w2) => (.panicked, w2)
        | (.returned r, w2) =>
          (.returned (some (.mk guild.ID channel.ID user.ID chosen
            (some (.mk guild.ID channel.ID user.ID r none forced)) forced)), w2)

/-! ## The registry and the worker -/

/-- How the registry section of `enqueuePlay` ends. -/
inductive Admission where
  /-- The play was sent to the queue of the guild. -/
  | queued
  /-- The queue was full: nothing is done with the play. -/
  | dropped
  /-- The send found the channel full and blocks. -/
  | blocked
  /-- A queue was made for the guild: the caller goes on to `playSound(play, nil)`. -/
  | start
deriving DecidableEq, Repr

/-- The registry section of `enqueuePlay` (lines 1559-1568), up to the call of `playSound`.
A send to a channel that is full blocks: the sender stays there and the world does not
change (the channels this section makes have the capacity `MAX_QUEUE_SIZE`, so the guard
of the send keeps it from blocking). -/
def enqueuePlay.registry (w : World) (guildID : String) (play : Play) : World × Admission :=
  match w.queues guildID with
  | some q =>
    if q.buf.length < MAX_QUEUE_SIZE then
      if q.buf.length < q.cap then
        let q1 : Chan := { q with buf := q.buf ++ [play] }
        ({ w with queues := Function.update w.queues guildID (some q1) }, .queued)
      else (w, .blocked)
    else (w, .dropped)
  | none =>
    ({ w with queues := Function.update w.queues guildID (some ⟨MAX_QUEUE_SIZE, []⟩) }, .start)

/-- Another goroutine runs `enqueuePlay` with the play it has created for the guild of the
play: the registry section takes effect at once, and the worker it may start is recorded. -/
def World.arrive (w : World) (play : Play) : World :=
  match enqueuePlay.registry w play.GuildID play with
  | (w1, .start) => { w1 with spawned := w1.spawned ++ [play] }
  | (w1, _) => w1

/-- The other goroutines take their turn: the next batch of the script arrives. -/
def World.interleave (w : World) : World :=
  match w.script with
  | [] => w
  | batch :: rest => batch.foldl World.arrive { w with script := rest }

/-- `discord.ChannelVoiceJoin(guild, channel, false, false)`: an error, or a new
connection on that channel. -/
def ChannelVoiceJoin (w : World) (guildID channelID : String) : World × Except GoError Nat :=
  match w.joinErr w.joins guildID channelID with
  | some err =>
    ({ w with joins := w.joins + 1,
              trace := w.trace ++ [.ChannelVoiceJoin guildID channelID (.error err)] },
     .error err)
  | none =>
    ({ w with joins := w.joins + 1,
              trace := w.trace ++ [.ChannelVoiceJoin guildID channelID (.ok w.joins)],
              vcChannel := Function.update w.vcChannel w.joins channelID },
     .ok w.joins)

/-- `func (s *Sound) Play(vc *discordgo.VoiceConnection)`, called as `play.Sound.Play(vc)`:
with a nil sound the read of `s.buffer` panics, after `vc.Speaking(true)` and before the
deferred `vc.Speaking(false)`. -/
def Sound.Play (w : World) (s : Option Sound) (vc : Nat) : World × Outcome Unit :=
  let w := w.emit (.Speaking vc true)
  match s with
  | none => (w.emit (.Speaking vc false), .panicked)
  | some s =>
    let w := s.buffer.foldl (fun w buff => w.emit (.OpusSend vc buff)) w
    (w.emit (.Speaking vc false), .returned ())

/-- The middle of `playSound` (lines 1625-1638): the move to the channel of the play if the
connection is on another one, the dispatch of the stats, the pause and the sound. -/
def playSound.stream (w : World) (play : Play) (vc : Nat) : World × Outcome Unit :=
  -- If we need to change channels, do that now
  let w :=
    if w.vcChannel vc ≠ play.ChannelID then
      let w1 : World := { w with vcChannel := Function.update w.vcChannel vc play.ChannelID }
      (w1.emit (.ChangeChannel vc play.ChannelID)).emit (.Sleep 125)
    else w
  -- Track stats for this play in redis
  let w := w.emit (.trackSoundStats play)
  -- Sleep for a specified amount of time before playing the sound
  let w := w.emit (.Sleep 32)
  -- Play the sound
  Sound.Play w play.Sound vc

/-- The end of `playSound` (lines 1652-1656), reached with an empty queue: the pause of the
sound, the removal of the queue and the disconnect. -/
def playSound.teardown (w : World) (play : Play) (sound : Sound) (vc : Nat) : World :=
  let w := w.emit (.Sleep sound.PartDelay)
  let w := w.interleave
  let w := { w with queues := Function.update w.queues play.GuildID none }
  w.emit (.Disconnect vc)

/-- The queue check that ends `playSound` (lines 1645-1656), after the play `play` with the
sound `sound`; `recur` is the recursive call `playSound(play, vc)`. -/
def playSound.drain
    (recur : World → Play → Option Nat → Option (World × Outcome (Option GoError)))
    (w : World) (play : Play) (sound : Sound) (vc : Nat) :
    Option (World × Outcome (Option GoError)) :=
  -- If there is another song in the queue, recurse and play that
  let w := w.interleave
  match w.queues play.GuildID with
  | some ⟨cap, next :: rest⟩ =>
    let w := { w with queues := Function.update w.queues play.GuildID (some ⟨cap, rest⟩) }
    match recur w next (some vc) with
    | none => none
    | some (w, .panicked) => some (w, .panicked)
    | some (w, .returned _) => some (w, .returned none)
  | _ =>
    -- If the queue is empty, delete it
    some (playSound.teardown w play sound vc, .returned none)

/-- `func playSound(play *Play, vc *discordgo.VoiceConnection) (err error)`. The recursion
of the source is bounded by `fuel`: `none` means that the fuel did not suffice. -/
def playSound : Nat → World → Play → Option Nat → Option (World × Outcome (Option GoError))
  | 0, _, _, _ => none
  | fuel + 1, w, play, vc =>
    let joined : World × Except GoError Nat :=
      match vc with
      | some c => (w, .ok c)
      | none => ChannelVoiceJoin w play.GuildID play.ChannelID
    match joined with
    | (w, .error err) =>
      -- delete(queues, play.GuildID); return err
      let w := w.interleave
      some ({ w with queues := Function.update w.queues play.GuildID none },
        .returned (some err))
    | (w, .ok vc) =>
      match playSound.stream w play vc, play.Sound with
      | (w, .returned _), some sound =>
        -- If this is chained, play the chained sound
        let chained : Option (World × Outcome (Option GoError)) :=
          match play.Next with
          | some next => playSound fuel w next (some vc)
          | none => some (w, .returned none)
        match chained with
        | none => none
        | some (w, .panicked) => some (w, .panicked)
        | some (w, .returned _) => playSound.drain (playSound fuel) w play sound vc
      | (w, _), _ => some (w, .panicked)

/-- The second half of `enqueuePlay` (lines 1559-1570), for the play that was created. -/
def enqueuePlay.dispatch (fuel : Nat) (w : World) (guild : Guild) (play : Play) :
    Option (World × Outcome Admission) :=
  match enqueuePlay.registry w guild.ID play with
  | (w1, .start) =>
    match playSound fuel w1 play none with
    | none => none
    | some (w2, .panicked) => some (w2, .panicked)
    | some (w2, .returned _) => some (w2, .returned .start)
  | (w1, a) => some (w1, .returned a)

/-- `func enqueuePlay(user, guild, coll, sound)`. The result says how the call ended and,
when it returned, which branch it took (`none`: no play was created). -/
def enqueuePlay (lib : RandLib) (fuel : Nat) (w : World) (user : User) (guild : Guild)
    (coll : SoundCollection) (sound : Option Sound) :
    Option (World × Outcome (Option Admission)) :=
  match createPlay lib w user guild coll sound with
  | (.panicked, w1) => some (w1, .panicked)
  | (.returned none, w1) => some (w1, .returned none)
  | (.returned (some play), w1) =>
    match enqueuePlay.dispatch fuel w1 guild play with
    | none => none
    | some (w2, .panicked) => some (w2, .panicked)
    | some (w2, .returned a) => some (w2, .returned (some a))

/-! ## Loading a collection -/

/-- The `for` loop of `SoundCollection.Load` (lines 1401-1404) over the sounds left, with
the running `sc.soundRange`: the sounds after their `Load` and the final `soundRange`. The
error that `sound.Load(sc)` returns is not looked at. -/
def SoundCollection.Load.loop (fs : String → Except GoError File) (sc : SoundCollection) :
    List Sound → Int → Outcome (List Sound × Int)
  | [], soundRange => .returned ([], soundRange)
  | sound :: rest, soundRange =>
    -- sc.soundRange += sound.Weight
    let soundRange := wrapInt (soundRange + sound.Weight)
    -- sound.Load(sc)
    match Sound.Load fs sound sc with
    | (_, .panicked) => .panicked
    | (sound1, .returned _) =>
      match SoundCollection.Load.loop fs sc rest soundRange with
      | .panicked => .panicked
      | .returned (rest1, r) => .returned (sound1 :: rest1, r)

/-- `func (sc *SoundCollection) Load()`: the collection after the call. -/
def SoundCollection.Load (fs : String → Except GoError File) (sc : SoundCollection) :
    Outcome SoundCollection :=
  match SoundCollection.Load.loop fs sc sc.Sounds sc.soundRange with
  | .panicked => .panicked
  | .returned (sounds, r) => .returned (.mk sc.Prefix sc.Commands sounds sc.ChainWith r)

/-! ## Observations and measures used in the statements -/

/-- The frames sent to the transport, in order, each with the connection it was sent on. -/
def framesSent : List Event → List (Nat × List Byte)
  | [] => []
  | .OpusSend vc buff :: rest => (vc, buff) :: framesSent rest
  | _ :: rest => framesSent rest

/-- The number of voice joins asked of the transport. -/
def joinCount : List Event → Nat
  | [] => 0
  | .ChannelVoiceJoin _ _ _ :: rest => joinCount rest + 1
  | _ :: rest => joinCount rest

/-- The events of the middle of `playSound` for a play with the sound `sound`, on the
connection `vc` that is on the channel `current`. -/
def streamEvents (current : String) (play : Play) (sound : Sound) (vc : Nat) : List Event :=
  (if current ≠ play.ChannelID then [.ChangeChannel vc play.ChannelID, .Sleep 125] else [])
    ++ [.trackSoundStats play, .Sleep 32, .Speaking vc true]
    ++ sound.buffer.map (.OpusSend vc)
    ++ [.Speaking vc false]

/-- The frames of the sound of a play. -/
def Play.frames (play : Play) : List (List Byte) :=
  match play.Sound with
  | some sound => sound.buffer
  | none => []

/-- A play without a chain that has a sound. -/
def Play.single (play : Play) : Prop :=
  play.Sound.isSome = true ∧ play.Next = none

/-- The number of plays in a chain. -/
def Play.size : Play → Nat
  | .mk _ _ _ _ none _ => 1
  | .mk _ _ _ _ (some next) _ => next.size + 1

/-- A play as `createPlay` makes them when the selector finds a clip: every play of the
chain has a sound and the guild of the first. -/
def Play.ok : Play → Bool
  | .mk _ _ _ s none _ => s.isSome
  | .mk g _ _ s (some next) _ => s.isSome && decide (next.GuildID = g) && next.ok

/-- The number of plays in a list of chains. -/
def playCount (plays : List Play) : Nat := (plays.map Play.size).sum

/-- The number of plays in the script of the other goroutines. -/
def scriptCount (script : List (List Play)) : Nat := (script.map playCount).sum

/-- The number of plays waiting in the queue of a guild. -/
def World.queueCount (w : World) (g : String) : Nat :=
  match w.queues g with
  | some q => playCount q.buf
  | none => 0

/-- Every play that arrives is as `createPlay` makes them. -/
def World.okScript (w : World) : Prop :=
  ∀ batch ∈ w.script, ∀ p ∈ batch, p.ok = true

/-- The plays in the queue of the guild `g` are as `createPlay` makes them, for `g`. -/
def World.okQueue (w : World) (g : String) : Prop :=
  ∀ q, w.queues g = some q → ∀ p ∈ q.buf, p.ok = true ∧ p.GuildID = g

/-- The part of the world that the selector does not touch. -/
def World.sameProcess (w1 w : World) : Prop :=
  w1.queues = w.queues ∧ w1.trace = w.trace ∧ w1.script = w.script ∧ w1.spawned = w.spawned
    ∧ w1.joinErr = w.joinErr ∧ w1.joins = w.joins ∧ w1.vcChannel = w.vcChannel
    ∧ w1.channels = w.channels ∧ w1.now = w.now

/-- The sum of the weights of the clips, as a number (no wrap-around). -/
def weightSum (sounds : List Sound) : Int := (sounds.map Sound.Weight).sum

/-- A loaded collection on which the selector is defined: non-negative weights whose sum is
`soundRange`, a positive Go `int`. -/
def SoundCollection.valid (s : SoundCollection) : Prop :=
  (∀ x ∈ s.Sounds, 0 ≤ x.Weight) ∧ weightSum s.Sounds = s.soundRange
    ∧ 0 < s.soundRange ∧ isInt s.soundRange

/-! ## Examples -/

/-- A generator for examples: its state is a counter, `Seed` sets the counter to the seed
and `Intn n` yields the counter modulo `n`. -/
def exampleRand : RandLib where
  Seed := fun seed => seed
  Intn := fun g n => (g % n, g + 1)
  Intn_range := fun g n h => ⟨Int.emod_nonneg g (by omega), Int.emod_lt_of_pos g h⟩

/-- A world for examples: no guild has a queue, nothing has happened, no other goroutine
acts, every join succeeds, the channel `id` is known as a channel of guild `"g"`, and the
clock reads `7` at each reading. -/
def exampleWorld : World where
  queues := fun _ => none
  trace := []
  script := []
  spawned := []
  joinErr := fun _ _ _ => none
  joins := 0
  vcChannel := fun _ => ""
  channels := fun id => some ⟨id, "g"⟩
  now := fun _ => 7
  ticks := 0
  rng := 0

/-- A sound for examples, with two frames. -/
def exampleSound (Name : String) : Sound :=
  { Name := Name, Weight := 1, PartDelay := 250, buffer := [[1, 2], [3]] }

/-- A play for examples: guild `"g"`, channel `"c"`, user `"u"`, no chain, not forced. -/
def examplePlay (sound : Sound) : Play :=
  .mk "g" "c" "u" (some sound) none false

/-- A guild for examples, with the user `"u"` in the voice channel `"c"`. -/
def exampleGuild : Guild := ⟨"g", [⟨"u", "c"⟩]⟩

/-- A user for examples. -/
def exampleUser : User := ⟨"u"⟩

/-- A collection for examples: one clip, no chain, loaded. -/
def exampleColl : SoundCollection :=
  .mk "airhorn" ["!airhorn"] [exampleSound "default"] none 1

/-- A world for examples in which the guild `"g"` has a full queue. -/
def exampleFullWorld : World :=
  { exampleWorld with
    queues := fun g =>
      if g = "g" then
        some ⟨6, [examplePlay (exampleSound "q1"), examplePlay (exampleSound "q2"),
          examplePlay (exampleSound "q3"), examplePlay (exampleSound "q4"),
          examplePlay (exampleSound "q5"), examplePlay (exampleSound "q6")]⟩
      else none }

/-- A partner collection for examples: two clips, loaded. -/
def exampleChain : SoundCollection :=
  .mk "airhorn" ["!airhorn"] [exampleSound "default", exampleSound "reverb"] none 2

/-- A collection for examples that chains with `exampleChain`: one clip, loaded. -/
def exampleChained : SoundCollection :=
  .mk "another" ["!anotha", "!anothaone"] [exampleSound "one"] (some exampleChain) 1

/-- A collection for examples before loading: two clips without frames. -/
def exampleUnloaded : SoundCollection :=
  .mk "x" ["!x"] [createSound "a" 1 250, createSound "b" 1 250] none 0

/-- A file system for examples: the container of the clip `a` of `exampleUnloaded` is
missing, every other path holds a container with the one frame `[1]`. -/
def exampleFiles (path : String) : Except GoError File :=
  if path = "audio/x_a.dca" then .error (.other "no such file")
  else .ok ⟨encodeFrames [[1]], none⟩

/-- The number of `vc.Disconnect()` calls in a trace. -/
def disconnectCount : List Event → Nat
  | [] => 0
  | .Disconnect _ :: rest => disconnectCount rest + 1
  | _ :: rest => disconnectCount rest

/-- The pauses of a trace, in order. -/
def sleeps : List Event → List Int
  | [] => []
  | .Sleep ms :: rest => ms :: sleeps rest
  | _ :: rest => sleeps rest

/-- The stats dispatches and the frames of a trace, in order. -/
def statsLog : List Event → List (Play ⊕ List Byte)
  | [] => []
  | .trackSoundStats play :: rest => .inl play :: statsLog rest
  | .OpusSend _ buff :: rest => .inr buff :: statsLog rest
  | _ :: rest => statsLog rest

/-- The plays of a chain, in order. -/
def Play.chain : Play → List Play
  | .mk g c u s none f => [.mk g c u s none f]
  | .mk g c u s (some next) f => .mk g c u s (some next) f :: next.chain

/-- What a worker leaves in the log for one play that it streams: the stats dispatch for
the play, then the frames of its sound. -/
def Play.block (play : Play) : List (Play ⊕ List Byte) :=
  .inl play :: play.frames.map .inr

/-- What the program does to the map `queues`, one access at a time. -/
inductive RegistryStep where
  /-- A call of `enqueuePlay` goes through its registry section (lines 1559-1568) with the
  play it has created. -/
  | enqueue (guildID : String) (play : Play)
  /-- A worker finds `len(queues[guildID]) > 0` and receives the next play (lines
  1645-1646). -/
  | dequeue (guildID : String)
  /-- A worker runs `delete(queues, guildID)`: at its end (line 1654) or after a failed join
  (line 1619). -/
  | delete (guildID : String)

/-- One access to the map. -/
def World.step (w : World) : RegistryStep → World
  | .enqueue g play => (enqueuePlay.registry w g play).1
  | .dequeue g =>
    match w.queues g with
    | some ⟨cap, _ :: rest⟩ => { w with queues := Function.update w.queues g (some ⟨cap, rest⟩) }
    | _ => w
  | .delete g => { w with queues := Function.update w.queues g none }

/-- Every queue of the registry has the capacity `MAX_QUEUE_SIZE` and holds at most that
many plays. -/
def World.bounded (w : World) : Prop :=
  ∀ g q, w.queues g = some q → q.cap = MAX_QUEUE_SIZE ∧ q.buf.length ≤ MAX_QUEUE_SIZE

/-! ## The message handler -/

/-- `discordgo.MessageCreate`, the fields the program reads. -/
structure MessageCreate where
  ID : String
  ChannelID : String
  Content : String
  Mentions : List User
  Author : User

/-- The text functions of Go and of `discordgo` that the handler calls: the bytes of a
string (`len(s)` and `s[i]` read them), `string(b)` for a byte `b`, `strings.Replace`,
`strings.ToLower`, `strings.Split`, `strings.Join` and
`m.ContentWithMentionsReplaced()`. -/
structure TextLib where
  bytes : String → List Byte
  ofByte : Byte → String
  Replace : String → String → String → Int → String
  ToLower : String → String
  Split : String → String → List String
  Join : List String → String → String
  ContentWithMentionsReplaced : MessageCreate → String

/-- The globals and the session state that the handler reads: `OWNER`, `SHARDS`,
`COLLECTIONS`, `s.State.Ready.User` and `discord.State.Guild`. -/
structure Config where
  OWNER : String
  SHARDS : List String
  COLLECTIONS : List SoundCollection
  Username : String
  ID : String
  guilds : String → Option Guild

/-- What the handler asks for, in program order. -/
inductive HandlerAction where
  /-- `s.ChannelMessageSend(channel, content)`. -/
  | ChannelMessageSend (ChannelID : String) (content : String)
  /-- `handleBotControlMessages(s, m, parts, guild)`. -/
  | handleBotControlMessages (parts : List String) (guild : Guild)
  /-- `go enqueuePlay(m.Author, guild, coll, sound)`. -/
  | goEnqueuePlay (user : User) (guild : Guild) (coll : SoundCollection) (sound : Option Sound)
  /-- `s.ChannelMessageDelete(channel, id)`. -/
  | ChannelMessageDelete (ChannelID : String) (ID : String)

/-- `func scontains(key string, options ...string) bool`. -/
def scontains (key : String) : List String → Bool
  | [] => false
  | item :: rest => if item = key then true else scontains key rest

/-- The loop of `shardContains` over the shards left. -/
def shardContains.loop (lib : TextLib) (guildid : String) : List String → Bool
  | [] => false
  | shard :: rest =>
    let b := lib.bytes guildid
    match b[b.length - 5]? with
    | some c => if 5 ≤ b.length ∧ lib.ofByte c = shard then true
      else shardContains.loop lib guildid rest
    | none => shardContains.loop lib guildid rest

/-- `func shardContains(guildid string) bool`. -/
def shardContains (cfg : Config) (lib : TextLib) (guildid : String) : Bool :=
  if cfg.SHARDS.length ≠ 0 then shardContains.loop lib guildid cfg.SHARDS else true

/-- The search for the clip named `parts[1]` (lines 1920-1924): the last clip of that name
stays in `sound`. -/
def onMessageCreate.sound (name : String) : List Sound → Option Sound → Option Sound
  | [], sound => sound
  | s :: rest, sound => onMessageCreate.sound name rest (if name = s.Name then some s else sound)

/-- The loop of `onMessageCreate` over the collections left (lines 1914-1935), for the
command `parts[0]` and the words `args` after it. -/
def onMessageCreate.loop (m : MessageCreate) (guild : Guild) (command : String)
    (args : List String) : List SoundCollection → List HandlerAction
  | [] => []
  | coll :: rest =>
    if scontains command coll.Commands then
      -- If they passed a specific sound effect, find and select that
      match args with
      | name :: _ =>
        match onMessageCreate.sound name coll.Sounds none with
        | none => []
        | some sound =>
          [.goEnqueuePlay m.Author guild coll (some sound), .ChannelMessageDelete m.ChannelID m.ID]
      | [] => [.goEnqueuePlay m.Author guild coll none, .ChannelMessageDelete m.ChannelID m.ID]
    else onMessageCreate.loop m guild command args rest

/-- The words of the message: `parts` in `onMessageCreate`. -/
def onMessageCreate.parts (cfg : Config) (lib : TextLib) (m : MessageCreate) : List String :=
  let msg := lib.Replace (lib.ContentWithMentionsReplaced m) cfg.Username "username" 1
  lib.Split (lib.ToLower msg) " "

/-- `func onMessageCreate(s *discordgo.Session, m *discordgo.MessageCreate)`: what the
handler asks for; `parts[0]` panics on an empty list of words. -/
def onMessageCreate (cfg : Config) (lib : TextLib) (w : World) (m : MessageCreate) :
    Outcome (List HandlerAction) :=
  let content := lib.bytes m.Content
  if content.length ≤ 0 ∨ (content.head? ≠ some 33 ∧ m.Mentions.length < 1) then .returned []
  else
    let parts := onMessageCreate.parts cfg lib m
    match w.channels m.ChannelID with
    | none => .returned []
    | some channel =>
      match cfg.guilds channel.GuildID with
      | none => .returned []
      | some guild =>
        -- If this is a mention, it should come from the owner
        if 0 < m.Mentions.length ∧ m.Author.ID = cfg.OWNER ∧ 0 < parts.length then
          if m.Mentions.any (fun mention => decide (mention.ID = cfg.ID)) then
            .returned [.handleBotControlMessages parts guild]
          else .returned []
        -- If it's not relevant to our shard, just exit
        else if shardContains cfg lib guild.ID = false then .returned []
        else
          match parts with
          | [] => .panicked
          | command :: args =>
            let listed : List HandlerAction :=
              if command = "!listcommands" then
                [.ChannelMessageSend m.ChannelID
                  ("Command List: "
                    ++ lib.Join (cfg.COLLECTIONS.map SoundCollection.Commands).flatten " ")]
              else []
            -- Find the collection for the command we got
            .returned (listed ++ onMessageCreate.loop m guild command args cfg.COLLECTIONS)

/-- The words of a text between the occurrences of the character `sep`; `word` holds the
letters of the current word, last first. -/
def exampleText.split (sep : Char) : List Char → List Char → List (List Char)
  | [], word => [word.reverse]
  | c :: cs, word =>
    if c = sep then word.reverse :: exampleText.split sep cs []
    else exampleText.split sep cs (c :: word)

/-- A text library for examples, for text in ASCII without mentions in which the name of
the bot does not occur, split at a separator of one character. -/
def exampleText : TextLib where
  bytes := fun s => s.data.map (fun c => Fin.ofNat c.toNat)
  ofByte := fun b => String.singleton (Char.ofNat b.val)
  Replace := fun s _ _ _ => s
  ToLower := fun s => String.mk (s.data.map Char.toLower)
  Split := fun s sep =>
    match sep.data with
    | [c] => (exampleText.split c s.data []).map String.mk
    | _ => [s]
  Join := fun xs sep => sep.intercalate xs
  ContentWithMentionsReplaced := fun m => m.Content

/-- A configuration for examples: no shards, the collections `exampleColl` and
`exampleChained`, and the guild `exampleGuild`. -/
def exampleConfig : Config where
  OWNER := "owner"
  SHARDS := []
  COLLECTIONS := [exampleColl, exampleChained]
  Username := "airhornbot"
  ID := "bot"
  guilds := fun id => if id = "g" then some exampleGuild else none

/-- A message for examples: the command of `exampleColl` with a name that no clip has. -/
def exampleMessage : MessageCreate :=
  { ID := "m", ChannelID := "t", Content := "!AIRHORN nope", Mentions := [], Author := exampleUser }

/-! ## The catalog -/

/-- The collection `AIRHORN` (lines 83-104). -/
def AIRHORN : SoundCollection :=
  .mk "airhorn" ["!airhorn"]
    [createSound "default" 1000 250, createSound "reverb" 800 250, createSound "spam" 800 0,
     createSound "tripletap" 800 250, createSound "fourtap" 800 250,
     createSound "distant" 500 250, createSound "echo" 500 250, createSound "clownfull" 250 250,
     createSound "clownshort" 250 250, createSound "clownspam" 250 0,
     createSound "highfartlong" 200 250, createSound "highfartshort" 200 250,
     createSound "midshort" 100 250, createSound "truck" 10 250]
    none 0

/-- The collection `KHALED` (lines 106-118). -/
def KHALED : SoundCollection :=
  .mk "another" ["!anotha", "!anothaone"]
    [createSound "one" 1 250, createSound "one_classic" 1 250, createSound "one_echo" 1 250]
    (some AIRHORN) 0

/-- The collection `CENA` (lines 120-134). -/
def CENA : SoundCollection :=
  .mk "jc" ["!johncena", "!cena"]
    [createSound "airhorn" 1 250, createSound "echo" 1 250, createSound "full" 1 250,
     createSound "jc" 1 250, createSound "nameis" 1 250, createSound "spam" 1 250]
    none 0

/-- The collection `ETHAN` (lines 136-157). -/
def ETHAN : SoundCollection :=
  .mk "ethan" ["!ethan", "!eb", "!ethanbradberry", "!h3h3"]
    [createSound "areyou_classic" 100 250, createSound "areyou_condensed" 100 250,
     createSound "areyou_crazy" 100 250, createSound "areyou_ethan" 100 250,
     createSound "classic" 100 250, createSound "echo" 100 250, createSound "high" 100 250,
     createSound "slowandlow" 100 250, createSound "cuts" 30 250, createSound "beat" 30 250,
     createSound "sodiepop" 1 250]
    none 0

/-- The collection `COW` (lines 159-170). -/
def COW : SoundCollection :=
  .mk "cow" ["!stan", "!stanislav"]
    [createSound "herd" 10 250, createSound "moo" 10 250, createSound "x3" 1 250]
    none 0

/-- The collection `LOWETHAN` (lines 171-179). -/
def LOWETHAN : SoundCollection :=
  .mk "custom" ["!lowethan"]
    [createSound "lowethan" 1 250]
    none 0

/-- The collection `HIGHETHAN` (lines 181-189). -/
def HIGHETHAN : SoundCollection :=
  .mk "custom" ["!highethan"]
    [createSound "highethan" 1 250]
    none 0

/-- The collection `MULTIETHAN` (lines 191-199). -/
def MULTIETHAN : SoundCollection :=
  .mk "custom" ["!multiethan"]
    [createSound "multiethan" 1 250]
    none 0

/-- The collection `CENANEW` (lines 201-209). -/
def CENANEW : SoundCollection :=
  .mk "custom" ["!truecena"]
    [createSound "cena" 1 250]
    none 0

/-- The collection `CAPTAIN` (lines 211-219). -/
def CAPTAIN : SoundCollection :=
  .mk "custom" ["!captain"]
    [createSound "captain" 1 250]
    none 0

/-- The collection `JEFF` (lines 221-229). -/
def JEFF : SoundCollection :=
  .mk "custom" ["!jeff"]
    [createSound "jeff" 1 250]
    none 0

/-- The collection `ETHANCENA` (lines 231-239). -/
def ETHANCENA : SoundCollection :=
  .mk "custom" ["!ethancena"]
    [createSound "ethancena" 1 250]
    none 0

/-- The collection `FUSRODAH` (lines 241-249). -/
def FUSRODAH : SoundCollection :=
  .mk "custom" ["!fusrodah"]
    [createSound "fusrodah" 1 250]
    none 0

/-- The collection `BASE` (lines 251-260). -/
def BASE : SoundCollection :=
  .mk "custom" ["!base", "!bass"]
    [createSound "base" 1 250]
    none 0

/-- The collection `LEEROY` (lines 262-270). -/
def LEEROY : SoundCollection :=
  .mk "custom" ["!leeroy"]
    [createSound "leeroy" 1 250]
    none 0

/-- The collection `LEEROYFULL` (lines 272-280). -/
def LEEROYFULL : SoundCollection :=
  .mk "custom" ["!leeroyfull"]
    [createSound "leeroyfull" 1 250]
    none 0

/-- The collection `AKBAR` (lines 282-291). -/
def AKBAR : SoundCollection :=
  .mk "custom" ["!akbar", "!allahuakbar"]
    [createSound "akbar" 1 250]
    none 0

/-- The collection `MAD` (lines 292-300). -/
def MAD : SoundCollection :=
  .mk "custom" ["!mad"]
    [createSound "mad" 1 250]
    none 0

/-- The collection `CODEC` (lines 302-310). -/
def CODEC : SoundCollection :=
  .mk "custom" ["!codec"]
    [createSound "codec" 1 250]
    none 0

/-- The collection `NTHOU` (lines 312-320). -/
def NTHOU : SoundCollection :=
  .mk "custom" ["!9000"]
    [createSound "9000" 1 250]
    none 0

/-- The collection `NTHOUFULL` (lines 322-330). -/
def NTHOUFULL : SoundCollection :=
  .mk "custom" ["!9000full"]
    [createSound "9000extended" 1 250]
    none 0

/-- The collection `SURPRISE` (lines 332-346). -/
def SURPRISE : SoundCollection :=
  .mk "surprise" ["!surprise"]
    [createSound "disguise" 1 250, createSound "fries" 1 250, createSound "pies" 1 250,
     createSound "rise" 1 250, createSound "size" 1 250, createSound "supplies" 1 250,
     createSound "surprise" 1 250]
    none 0

/-- The collection `WOMBO` (lines 348-357). -/
def WOMBO : SoundCollection :=
  .mk "custom" ["!wombo", "!wombocombo"]
    [createSound "wombo" 1 250]
    none 0

/-- The collection `LOSE` (lines 359-367). -/
def LOSE : SoundCollection :=
  .mk "custom" ["!lose"]
    [createSound "lose" 1 250]
    none 0

/-- The collection `SPOOKY` (lines 369-378). -/
def SPOOKY : SoundCollection :=
  .mk "custom" ["!spooky", "!spoopy"]
    [createSound "spooky" 1 250]
    none 0

/-- The collection `ERRYDAY` (lines 380-388). -/
def ERRYDAY : SoundCollection :=
  .mk "custom" ["!erryday"]
    [createSound "erryday" 1 250]
    none 0

/-- The collection `EMINEM` (lines 389-397). -/
def EMINEM : SoundCollection :=
  .mk "custom" ["!eminem"]
    [createSound "eminem" 1 250]
    none 0

/-- The collection `DARKNESS` (lines 398-406). -/
def DARKNESS : SoundCollection :=
  .mk "custom" ["!darkness"]
    [createSound "darkness" 1 250]
    none 0

/-- The collection `JOHNCENA` (lines 408-416). -/
def JOHNCENA : SoundCollection :=
  .mk "custom" ["!morecena"]
    [createSound "johncena" 1 250]
    none 0

/-- The collection `WORLD` (lines 417-426); it is not listed in `COLLECTIONS`. -/
def WORLD : SoundCollection :=
  .mk "custom" ["!zawarudo", "!world"]
    [createSound "zawarudo" 1 250]
    none 0

/-- The collection `YOULOSE` (lines 427-435). -/
def YOULOSE : SoundCollection :=
  .mk "custom" ["!youlose"]
    [createSound "youlose" 1 250]
    none 0

/-- The collection `ALLIGATOR` (lines 436-444). -/
def ALLIGATOR : SoundCollection :=
  .mk "custom" ["!alligator"]
    [createSound "alligator" 1 250]
    none 0

/-- The collection `NOTIME` (lines 445-453). -/
def NOTIME : SoundCollection :=
  .mk "custom" ["!notime"]
    [createSound "notime" 1 250]
    none 0

/-- The collection `PICCOLO` (lines 454-470). -/
def PICCOLO : SoundCollection :=
  .mk "Piccolo" ["!piccolo"]
    [createSound "gohan" 1 250, createSound "inert" 1 250, createSound "pants" 1 250,
     createSound "shit" 1 250, createSound "yes" 1 250, createSound "dende" 1 250,
     createSound "difference" 1 250, createSound "stress" 1 250, createSound "man" 1 250]
    none 0

/-- The collection `SHIA` (lines 471-486). -/
def SHIA : SoundCollection :=
  .mk "shia" ["!shia"]
    [createSound "demotivate" 1 250, createSound "doit1" 5 250, createSound "doit2" 5 250,
     createSound "doit3" 5 250, createSound "doit4" 5 250, createSound "dreams" 5 250,
     createSound "nothing" 5 250, createSound "quit" 1 250]
    none 0

/-- The collection `MARIO` (lines 488-498). -/
def MARIO : SoundCollection :=
  .mk "mario" ["!mario"]
    [createSound "cena" 1 250, createSound "eb" 1 250, createSound "jeff" 1 250]
    none 0

/-- The collection `FFFF` (lines 500-508). -/
def FFFF : SoundCollection :=
  .mk "custom" ["!ffff"]
    [createSound "ffff" 1 250]
    none 0

/-- The collection `NEUTRAL` (lines 510-518). -/
def NEUTRAL : SoundCollection :=
  .mk "custom" ["!neutral"]
    [createSound "neutral" 1 250]
    none 0

/-- The collection `UMAD` (lines 520-528). -/
def UMAD : SoundCollection :=
  .mk "custom" ["!umad"]
    [createSound "umad" 1 250]
    none 0

/-- The collection `RICK` (lines 529-540). -/
def RICK : SoundCollection :=
  .mk "rick" ["!rick"]
    [createSound "whatugot" 1 250, createSound "aids" 1 250, createSound "maballs" 1 250,
     createSound "wuba" 1 250]
    none 0

/-- The collection `FEELSBAD` (lines 541-549). -/
def FEELSBAD : SoundCollection :=
  .mk "custom" ["!feelsbad"]
    [createSound "feelsbad" 1 250]
    none 0

/-- The collection `TWISTED` (lines 550-559). -/
def TWISTED : SoundCollection :=
  .mk "custom" ["!twisted", "!twistedsister"]
    [createSound "twisted" 1 250]
    none 0

/-- The collection `NIC` (lines 560-626). -/
def NIC : SoundCollection :=
  .mk "nic" ["!nic"]
    [createSound "rodger" 1 250, createSound "jaguar" 1 250, createSound "ahole" 1 250,
     createSound "silence" 1 250, createSound "shark" 1 250, createSound "hahaa" 1 250,
     createSound "aight" 1 250, createSound "mouth" 1 250, createSound "cool" 1 250,
     createSound "asskick" 1 250, createSound "bunny" 1 250, createSound "jungle" 1 250,
     createSound "drugyou" 1 250, createSound "haggis" 1 250, createSound "littletired" 1 250,
     createSound "executioner" 1 250, createSound "zeus" 1 250, createSound "donotwant" 1 250,
     createSound "expression" 1 250, createSound "prick" 1 250, createSound "captainjack" 1 250,
     createSound "squarefootage" 1 250, createSound "killme" 1 250, createSound "pear" 1 250,
     createSound "retard" 1 250, createSound "notcool" 1 250, createSound "sidewalk" 1 250,
     createSound "pissedblood" 1 250, createSound "hand" 1 250, createSound "allgone" 1 250,
     createSound "french" 1 250, createSound "burned" 1 250, createSound "jokerswild" 1 250,
     createSound "abc" 1 250, createSound "boner" 1 250, createSound "passingthrough" 1 250,
     createSound "knowthatnow" 1 250, createSound "thereyouare" 1 250,
     createSound "gettingthrough" 1 250, createSound "pressuring" 1 250,
     createSound "weewee" 1 250, createSound "peach" 1 250, createSound "king" 1 250,
     createSound "stinky" 1 250, createSound "filthy" 1 250, createSound "switch" 1 250,
     createSound "honey" 1 250, createSound "shameonyou" 1 250, createSound "misfile" 1 250,
     createSound "hallelujah" 1 250, createSound "goesaway" 1 250, createSound "imavampire" 1 250,
     createSound "bees" 1 250, createSound "kickyourass" 1 250, createSound "bullshit" 1 250,
     createSound "fuckmexico" 1 250, createSound "fuckyou" 1 250, createSound "hiya" 1 250,
     createSound "sp1" 1 250]
    none 0

/-- The collection `ERANU` (lines 628-636). -/
def ERANU : SoundCollection :=
  .mk "custom" ["!eranu"]
    [createSound "eranu" 1 250]
    none 0

/-- The collection `FMJ` (lines 638-651). -/
def FMJ : SoundCollection :=
  .mk "fmj" ["!fmj"]
    [createSound "doyousuck" 1 250, createSound "shitdown" 1 250, createSound "sirwhat" 1 250,
     createSound "skullfuck" 1 250, createSound "tiffanycufflinks" 1 250,
     createSound "amphibianshit" 1 250]
    none 0

/-- The collection `IDEAGAY` (lines 653-661). -/
def IDEAGAY : SoundCollection :=
  .mk "custom" ["!totallygay"]
    [createSound "ideagay" 1 250]
    none 0

/-- The collection `HAHGAY` (lines 663-671). -/
def HAHGAY : SoundCollection :=
  .mk "custom" ["!hahgay"]
    [createSound "hahgay" 1 250]
    none 0

/-- The collection `SMOKE` (lines 673-681). -/
def SMOKE : SoundCollection :=
  .mk "custom" ["!smoke"]
    [createSound "smoke" 1 250]
    none 0

/-- The collection `OVERWATCH` (lines 683-692). -/
def OVERWATCH : SoundCollection :=
  .mk "overwatch" ["!ow", "!overwatch"]
    [createSound "dejavu" 1 250]
    none 0

/-- The collection `JABRONI` (lines 694-702). -/
def JABRONI : SoundCollection :=
  .mk "custom" ["!jabroni"]
    [createSound "jabroni" 1 250]
    none 0

/-- The collection `MUDA` (lines 704-712). -/
def MUDA : SoundCollection :=
  .mk "custom" ["!muda"]
    [createSound "muda" 1 250]
    none 0

/-- The collection `FEVER` (lines 714-722). -/
def FEVER : SoundCollection :=
  .mk "custom" ["!fever"]
    [createSound "fever" 1 250]
    none 0

/-- The collection `COMEWITHME` (lines 724-732). -/
def COMEWITHME : SoundCollection :=
  .mk "custom" ["!comewithme"]
    [createSound "comewithme" 1 250]
    none 0

/-- The collection `BRERBRER` (lines 734-743). -/
def BRERBRER : SoundCollection :=
  .mk "custom" ["!brerbrer", "!fag"]
    [createSound "brerbrer" 1 250]
    none 0

/-- The collection `COOKIE` (lines 745-753). -/
def COOKIE : SoundCollection :=
  .mk "custom" ["!cookie"]
    [createSound "cookie" 1 250]
    none 0

/-- The collection `PAYLOAD` (lines 755-763). -/
def PAYLOAD : SoundCollection :=
  .mk "custom" ["!payload"]
    [createSound "payload" 1 250]
    none 0

/-- The collection `REDDWARF` (lines 765-773). -/
def REDDWARF : SoundCollection :=
  .mk "reddwarf" ["!reddwarf"]
    [createSound "deaddave" 1 250]
    none 0

/-- The collection `CHOPPAH` (lines 775-783). -/
def CHOPPAH : SoundCollection :=
  .mk "custom" ["!choppah"]
    [createSound "choppah" 1 250]
    none 0

/-- The collection `SPACEMARINES` (lines 785-793). -/
def SPACEMARINES : SoundCollection :=
  .mk "custom" ["!spacemarines"]
    [createSound "spacemarines" 1 250]
    none 0

/-- The collection `DUKE` (lines 795-806). -/
def DUKE : SoundCollection :=
  .mk "duke" ["!duke"]
    [createSound "ballsballsballs" 1 250, createSound "ballsofsteel" 1 250,
     createSound "blowitout" 1 250, createSound "eatshit" 1 250]
    none 0

/-- The collection `WICKEDSICK` (lines 807-815). -/
def WICKEDSICK : SoundCollection :=
  .mk "custom" ["!wickedsick"]
    [createSound "wickedsick" 1 250]
    none 0

/-- The collection `WINNING` (lines 816-824). -/
def WINNING : SoundCollection :=
  .mk "custom" ["!winning"]
    [createSound "winning" 1 250]
    none 0

/-- The collection `FUCKED` (lines 825-833). -/
def FUCKED : SoundCollection :=
  .mk "custom" ["!yourefucked"]
    [createSound "yourefucked" 1 250]
    none 0

/-- The collection `ADULT` (lines 834-842). -/
def ADULT : SoundCollection :=
  .mk "custom" ["!adult"]
    [createSound "adult" 1 250]
    none 0

/-- The collection `AIUR` (lines 843-851). -/
def AIUR : SoundCollection :=
  .mk "custom" ["!aiur"]
    [createSound "aiur" 1 250]
    none 0

/-- The collection `BROKETHERULES` (lines 852-860). -/
def BROKETHERULES : SoundCollection :=
  .mk "custom" ["!broketherules"]
    [createSound "broketherules" 1 250]
    none 0

/-- The collection `BUTTER` (lines 861-869). -/
def BUTTER : SoundCollection :=
  .mk "custom" ["!butter"]
    [createSound "butter" 1 250]
    none 0

/-- The collection `CHANGE` (lines 870-878). -/
def CHANGE : SoundCollection :=
  .mk "custom" ["!change"]
    [createSound "change" 1 250]
    none 0

/-- The collection `CHINESEFOOD` (lines 879-887). -/
def CHINESEFOOD : SoundCollection :=
  .mk "custom" ["!chinesefood"]
    [createSound "chinesefood" 1 250]
    none 0

/-- The collection `DANGERZONE` (lines 888-896). -/
def DANGERZONE : SoundCollection :=
  .mk "custom" ["!dangerzone"]
    [createSound "dangerzone" 1 250]
    none 0

/-- The collection `DINOSAUR` (lines 897-905). -/
def DINOSAUR : SoundCollection :=
  .mk "custom" ["!dinosaur"]
    [createSound "dinosaur" 1 250]
    none 0

/-- The collection `FLUFFY` (lines 906-914). -/
def FLUFFY : SoundCollection :=
  .mk "custom" ["!fluffy"]
    [createSound "fluffy" 1 250]
    none 0

/-- The collection `GROUND` (lines 915-923). -/
def GROUND : SoundCollection :=
  .mk "custom" ["!ground"]
    [createSound "ground" 1 250]
    none 0

/-- The collection `HEDGEHOG` (lines 924-932). -/
def HEDGEHOG : SoundCollection :=
  .mk "custom" ["!hedgehog"]
    [createSound "hedgehog" 1 250]
    none 0

/-- The collection `HESAYSNO` (lines 933-941). -/
def HESAYSNO : SoundCollection :=
  .mk "custom" ["!hesaysno"]
    [createSound "hesaysno" 1 250]
    none 0

/-- The collection `ITSMINE` (lines 942-951). -/
def ITSMINE : SoundCollection :=
  .mk "custom" ["!itsmine"]
    [createSound "itsmine" 1 250, createSound "thisismine" 1 250]
    none 0

/-- The collection `JUSTHADSEX` (lines 952-960). -/
def JUSTHADSEX : SoundCollection :=
  .mk "custom" ["!justhadsex"]
    [createSound "justhadsex" 1 250]
    none 0

/-- The collection `LIKDIS` (lines 961-969). -/
def LIKDIS : SoundCollection :=
  .mk "custom" ["!likdis"]
    [createSound "likdis" 1 250]
    none 0

/-- The collection `PANCAKE` (lines 970-978). -/
def PANCAKE : SoundCollection :=
  .mk "custom" ["!pancake"]
    [createSound "pancake" 1 250]
    none 0

/-- The collection `PUDDI` (lines 979-987). -/
def PUDDI : SoundCollection :=
  .mk "custom" ["!puddi"]
    [createSound "puddi" 1 250]
    none 0

/-- The collection `CARL` (lines 988-998). -/
def CARL : SoundCollection :=
  .mk "carl" ["!carl"]
    [createSound "1" 1 250, createSound "2" 1 250, createSound "3" 1 250]
    none 0

/-- The collection `PYLONS` (lines 999-1007). -/
def PYLONS : SoundCollection :=
  .mk "custom" ["!additionalpylons"]
    [createSound "additionalpylons" 1 250]
    none 0

/-- The collection `ALWAYS` (lines 1008-1016). -/
def ALWAYS : SoundCollection :=
  .mk "custom" ["!always"]
    [createSound "always" 1 250]
    none 0

/-- The collection `ANDMYAXE` (lines 1017-1025). -/
def ANDMYAXE : SoundCollection :=
  .mk "custom" ["!andmyaxe"]
    [createSound "andmyaxe" 1 250]
    none 0

/-- The collection `CILLITBANG` (lines 1026-1034). -/
def CILLITBANG : SoundCollection :=
  .mk "custom" ["!cillitbang"]
    [createSound "cillitbang" 1 250]
    none 0

/-- The collection `COLDISTHEVOID` (lines 1035-1043). -/
def COLDISTHEVOID : SoundCollection :=
  .mk "custom" ["!coldisthevoid"]
    [createSound "coldisthevoid" 1 250]
    none 0

/-- The collection `DISPENSER` (lines 1044-1052). -/
def DISPENSER : SoundCollection :=
  .mk "custom" ["!dispenserhere"]
    [createSound "dispenserhere" 1 250]
    none 0

/-- The collection `FUCKTHEKING` (lines 1053-1061). -/
def FUCKTHEKING : SoundCollection :=
  .mk "custom" ["!fucktheking"]
    [createSound "fucktheking" 1 250]
    none 0

/-- The collection `HOSPITAL` (lines 1062-1070). -/
def HOSPITAL : SoundCollection :=
  .mk "custom" ["!hospital"]
    [createSound "hospital" 1 250]
    none 0

/-- The collection `KABOOM` (lines 1071-1079). -/
def KABOOM : SoundCollection :=
  .mk "custom" ["!kaboom"]
    [createSound "kaboom" 1 250]
    none 0

/-- The collection `LEATHERBELT` (lines 1080-1088). -/
def LEATHERBELT : SoundCollection :=
  .mk "custom" ["!leatherbelt"]
    [createSound "leatherbelt" 1 250]
    none 0

/-- The collection `MSIXTEEN` (lines 1089-1097). -/
def MSIXTEEN : SoundCollection :=
  .mk "custom" ["!m16"]
    [createSound "m16" 1 250]
    none 0

/-- The collection `OSTRICHES` (lines 1098-1106). -/
def OSTRICHES : SoundCollection :=
  .mk "custom" ["!ostriches"]
    [createSound "ostriches" 1 250]
    none 0

/-- The collection `PYTHON` (lines 1107-1115). -/
def PYTHON : SoundCollection :=
  .mk "python" ["!python"]
    [createSound "spanishinquisition" 1 250]
    none 0

/-- The collection `HPC` (lines 1116-1125). -/
def HPC : SoundCollection :=
  .mk "hpc" ["!hpc"]
    [createSound "dangerous" 1 250, createSound "hardballs" 1 250]
    none 0

/-- The collection `FOX` (lines 1126-1138). -/
def FOX : SoundCollection :=
  .mk "fox" ["!fox"]
    [createSound "ahuehahee" 1 250, createSound "awoowoowoo" 1 250, createSound "pititow" 1 250,
     createSound "tatatow" 1 250, createSound "yoyoyobito" 1 250]
    none 0

/-- The collection `CHEERS` (lines 1139-1147). -/
def CHEERS : SoundCollection :=
  .mk "custom" ["!cheers"]
    [createSound "cheerslove" 1 250]
    none 0

/-- The collection `CHEERSEARS` (lines 1149-1157). -/
def CHEERSEARS : SoundCollection :=
  .mk "custom" ["!cheersears"]
    [createSound "cheers" 1 250]
    none 0

/-- The collection `BULLETSTORM` (lines 1159-1171). -/
def BULLETSTORM : SoundCollection :=
  .mk "bulletstorm" ["!bulletstorm"]
    [createSound "heavenly" 1 250, createSound "retard" 1 250, createSound "sonofadick" 1 250,
     createSound "Whatthedick2" 1 250, createSound "Whatthedick" 1 250]
    none 0

/-- The collection `MINE` (lines 1173-1181). -/
def MINE : SoundCollection :=
  .mk "custom" ["!mine"]
    [createSound "mine" 1 250]
    none 0

/-- The collection `MOVEBITCH` (lines 1183-1191). -/
def MOVEBITCH : SoundCollection :=
  .mk "custom" ["!movebitch"]
    [createSound "movebitch" 1 250]
    none 0

/-- The collection `NYAN` (lines 1193-1201). -/
def NYAN : SoundCollection :=
  .mk "custom" ["!nyan"]
    [createSound "nyan" 1 250]
    none 0

/-- The collection `ONABOAT` (lines 1203-1214). -/
def ONABOAT : SoundCollection :=
  .mk "onaboat" ["!onaboat"]
    [createSound "1" 1 250, createSound "2" 1 250, createSound "3" 1 250, createSound "5" 1 250]
    none 0

/-- The collection `HIBERNIAN` (lines 1216-1226). -/
def HIBERNIAN : SoundCollection :=
  .mk "Hibernian" ["!eggs", "!hibernianeggs"]
    [createSound "1" 1 250, createSound "2" 1 250]
    none 0

/-- The collection `ZAPP` (lines 1228-1246). -/
def ZAPP : SoundCollection :=
  .mk "zapp" ["!zapp"]
    [createSound "champagne" 1 250, createSound "checkmate" 1 250, createSound "chess" 1 250,
     createSound "exploding" 1 250, createSound "fighting" 1 250, createSound "flag" 1 250,
     createSound "gravity" 1 250, createSound "lower" 1 250, createSound "sexfully" 1 250,
     createSound "sexlexia" 1 250, createSound "woman" 1 250]
    none 0

/-- The collection `ONYXIA` (lines 1247-1255). -/
def ONYXIA : SoundCollection :=
  .mk "onyxia" ["!onyxia"]
    [createSound "aggro" 1 250]
    none 0

/-- The collection `SHAME` (lines 1256-1264). -/
def SHAME : SoundCollection :=
  .mk "shame" ["!shame"]
    [createSound "shame" 1 250]
    none 0

/-- The collection `VICTORY` (lines 1265-1273). -/
def VICTORY : SoundCollection :=
  .mk "custom" ["!victory"]
    [createSound "victory" 1 250]
    none 0

/-- The list `COLLECTIONS` (lines 1277-1386). -/
def COLLECTIONS : List SoundCollection :=
    [
     AIRHORN, KHALED, CENA, ETHAN, COW, LOWETHAN, HIGHETHAN, MULTIETHAN, CENANEW, CAPTAIN, JEFF,
     ETHANCENA, FUSRODAH, BASE, LEEROY, LEEROYFULL, AKBAR, MAD, CODEC, NTHOU, NTHOUFULL, SURPRISE,
     WOMBO, LOSE, SPOOKY, ERRYDAY, EMINEM, DARKNESS, JOHNCENA, YOULOSE, ALLIGATOR, NOTIME,
     PICCOLO, SHIA, MARIO, FFFF, NEUTRAL, UMAD, RICK, FEELSBAD, TWISTED, NIC, ERANU, FMJ, IDEAGAY,
     HAHGAY, SMOKE, OVERWATCH, JABRONI, MUDA, FEVER, COMEWITHME, BRERBRER, COOKIE, PAYLOAD,
     REDDWARF, CHOPPAH, SPACEMARINES, DUKE, WICKEDSICK, WINNING, FUCKED, ADULT, AIUR,
     BROKETHERULES, BUTTER, CHANGE, CHINESEFOOD, DANGERZONE, DINOSAUR, FLUFFY, GROUND, HEDGEHOG,
     HESAYSNO, ITSMINE, JUSTHADSEX, LIKDIS, PANCAKE, PUDDI, CARL, PYLONS, ALWAYS, ANDMYAXE,
     CILLITBANG, COLDISTHEVOID, DISPENSER, FUCKTHEKING, HOSPITAL, KABOOM, LEATHERBELT, MSIXTEEN,
     OSTRICHES, PYTHON, HPC, FOX, CHEERS, CHEERSEARS, BULLETSTORM, MINE, MOVEBITCH, NYAN, ONABOAT,
     HIBERNIAN, ZAPP, ONYXIA, SHAME, VICTORY
    ]

/-- A configuration for examples with the catalog: `exampleConfig` with `COLLECTIONS`. -/
def exampleCatalogConfig : Config :=
  { exampleConfig with COLLECTIONS := COLLECTIONS }

/-- A message for examples with the text `content`, without mentions. -/
def exampleTrigger (content : String) : MessageCreate :=
  { ID := "m", ChannelID := "t", Content := content, Mentions := [], Author := exampleUser }

/-- The plays waiting in the queue of a guild, in order. -/
def World.waiting (w : World) (g : String) : List Play :=
  match w.queues g with
  | some q => q.buf
  | none => []

/-- The plays that a worker of the guild `g` can still receive, in order: those waiting in
the queue of the guild, then those that the other goroutines bring. -/
def World.pending (w : World) (g : String) : List Play :=
  w.waiting g ++ w.script.flatten

/-- A world for examples in which a worker of the guild `"g"` is at work: the play `b`
waits in the queue of the guild and the play `c` arrives at the next access to the
registry. -/
def exampleBusyWorld : World :=
  { exampleWorld with
    queues := fun g => if g = "g" then some ⟨6, [examplePlay (exampleSound "b")]⟩ else none
    script := [[examplePlay (exampleSound "c")]] }

/-- The play that `createPlay` makes in the examples for a trigger without a clip name on
`exampleChained`: the clip `one`, chained with the clip `reverb` of `exampleChain`. -/
def exampleChainPlay : Play :=
  .mk "g" "c" "u" (some (exampleSound "one"))
    (some (.mk "g" "c" "u" (some (exampleSound "reverb")) none false)) false

/-- A world for examples in which another call of `enqueuePlay`, with the play `late` for
the guild `"g"`, reaches its registry section at the third access of this goroutine to
the registry. -/
def exampleLateWorld : World :=
  { exampleWorld with script := [[], [], [examplePlay (exampleSound "late")]] }

/-! ## Theorems: the audio container -/

theorem ioReadFull_cons_cons (lo hi : Byte) (rest : List Byte) (flt : Option GoError) :
    ioReadFull ⟨lo :: hi :: rest, flt⟩ 2 = (.ok [lo, hi], ⟨rest, flt⟩) := by
  simp [ioReadFull]

theorem ioReadFull_append (frame rest : List Byte) (flt : Option GoError) :
    ioReadFull ⟨frame ++ rest, flt⟩ frame.length = (.ok frame, ⟨rest, flt⟩) := by
  unfold ioReadFull
  by_cases h : frame.length = 0
  · have : frame = [] := List.length_eq_zero.mp h
    subst this
    simp
  · simp [h]

theorem int16LE_encode (n : Nat) (h : n < 32768) :
    int16LE [Fin.ofNat (n % 256), Fin.ofNat (n / 256 % 256)] = (n : Int) := by
  have h1 : (Fin.ofNat (n % 256) : Fin 256).val = n % 256 := by
    simp [Fin.ofNat]
  have h2 : (Fin.ofNat (n / 256 % 256) : Fin 256).val = n / 256 := by
    simp [Fin.ofNat]
    omega
  simp only [int16LE, List.getD_cons_zero, List.getD_cons_succ, h1, h2]
  have : n % 256 + 256 * (n / 256) = n := Nat.mod_add_div n 256
  rw [this]
  simp [h]

/-- One complete record with a payload shorter than 32768 bytes is read as one frame. -/
theorem Sound.Load.loop_encodeFrame (frame rest : List Byte) (flt : Option GoError)
    (buffer : List (List Byte)) (h : frame.length < 32768) :
    Sound.Load.loop ⟨encodeFrame frame ++ rest, flt⟩ buffer
      = Sound.Load.loop ⟨rest, flt⟩ (buffer ++ [frame]) := by
  rw [Sound.Load.loop]
  simp only [encodeFrame, List.cons_append]
  split
  · rename_i e f1 heq
    rw [ioReadFull_cons_cons] at heq
    simp at heq
  · rename_i bs file1 heq
    rw [ioReadFull_cons_cons] at heq
    simp only [Prod.mk.injEq, Except.ok.injEq] at heq
    obtain ⟨rfl, rfl⟩ := heq
    simp only [int16LE_encode _ h]
    have hn : ¬ ((frame.length : Int) < 0) := by omega
    simp only [hn, if_false, Int.toNat_ofNat]
    split
    · rename_i e f2 heq2
      rw [int16LE_encode _ h, Int.toNat_ofNat, ioReadFull_append] at heq2
      simp at heq2
    · rename_i InBuf file2 heq2
      rw [int16LE_encode _ h, Int.toNat_ofNat, ioReadFull_append] at heq2
      simp only [Prod.mk.injEq, Except.ok.injEq] at heq2
      obtain ⟨rfl, rfl⟩ := heq2
      rfl

/-- Complete records with payloads shorter than 32768 bytes are read as their frames. -/
theorem Sound.Load.loop_encodeFrames (frames : List (List Byte)) (rest : List Byte)
    (flt : Option GoError) (buffer : List (List Byte))
    (h : ∀ f ∈ frames, f.length < 32768) :
    Sound.Load.loop ⟨encodeFrames frames ++ rest, flt⟩ buffer
      = Sound.Load.loop ⟨rest, flt⟩ (buffer ++ frames) := by
  induction frames generalizing buffer with
  | nil => simp [encodeFrames]
  | cons f fs ih =>
    have hf : f.length < 32768 := h f (List.mem_cons_self _ _)
    have hfs : ∀ g ∈ fs, g.length < 32768 := fun g hg => h g (List.mem_cons_of_mem _ hg)
    simp only [encodeFrames, List.append_assoc]
    rw [Sound.Load.loop_encodeFrame _ _ _ _ hf, ih _ hfs]
    simp

/-- At the end of the file the loop returns without an error. -/
theorem Sound.Load.loop_nil (buffer : List (List Byte)) :
    Sound.Load.loop ⟨[], none⟩ buffer = (buffer, .returned none) := by
  rw [Sound.Load.loop]
  simp [ioReadFull]

/-- A record whose length field has the top bit set makes `make` panic. -/
theorem Sound.Load.loop_negative (lo hi : Byte) (rest : List Byte) (flt : Option GoError)
    (buffer : List (List Byte)) (h : 32768 ≤ lo.val + 256 * hi.val) :
    Sound.Load.loop ⟨lo :: hi :: rest, flt⟩ buffer = (buffer, .panicked) := by
  rw [Sound.Load.loop]
  split
  · rename_i e f1 heq
    rw [ioReadFull_cons_cons] at heq
    simp at heq
  · rename_i bs file1 heq
    rw [ioReadFull_cons_cons] at heq
    simp only [Prod.mk.injEq, Except.ok.injEq] at heq
    obtain ⟨rfl, rfl⟩ := heq
    have hneg : int16LE [lo, hi] < 0 := by
      simp only [int16LE, List.getD_cons_zero, List.getD_cons_succ]
      have := lo.isLt
      have := hi.isLt
      split <;> omega
    simp [hneg]

/-- A record whose payload is cut short by the end of the file ends the loop with the
error of the payload read. -/
theorem Sound.Load.loop_truncated (n : Nat) (tail : List Byte) (buffer : List (List Byte))
    (hn : n < 32768) (ht : tail.length < n) :
    Sound.Load.loop ⟨Fin.ofNat (n % 256) :: Fin.ofNat (n / 256 % 256) :: tail, none⟩ buffer
      = (buffer, .returned (some (if tail = [] then .EOF else .ErrUnexpectedEOF))) := by
  rw [Sound.Load.loop]
  split
  · rename_i e f1 heq
    rw [ioReadFull_cons_cons] at heq
    simp at heq
  · rename_i bs file1 heq
    rw [ioReadFull_cons_cons] at heq
    simp only [Prod.mk.injEq, Except.ok.injEq] at heq
    obtain ⟨rfl, rfl⟩ := heq
    simp only [int16LE_encode _ hn]
    have hneg : ¬ ((n : Int) < 0) := by omega
    simp only [hneg, if_false, Int.toNat_ofNat]
    have hread : ioReadFull ⟨tail, none⟩ n
        = (.error (if tail = [] then .EOF else .ErrUnexpectedEOF), ⟨[], none⟩) := by
      unfold ioReadFull
      have h0 : n ≠ 0 := by omega
      have h1 : ¬ n ≤ tail.length := by omega
      simp [h0, h1, List.isEmpty_iff]
    split
    · rename_i e f2 heq2
      rw [int16LE_encode _ hn, Int.toNat_ofNat, hread] at heq2
      simp only [Prod.mk.injEq, Except.error.injEq] at heq2
      rw [heq2.1]
    · rename_i InBuf file2 heq2
      rw [int16LE_encode _ hn, Int.toNat_ofNat, hread] at heq2
      simp at heq2

/-- C4, as the code has it: for every container that is a sequence of complete records whose
lengths are below 32768 (the length field is read into an `int16`), `Sound.Load` on an
empty buffer returns without an error with the payloads as frames, and encoding the decoded
frames again gives the bytes of the container. -/
theorem Sound.Load_roundtrip (fs : String → Except GoError File) (s : Sound)
    (c : SoundCollection) (frames : List (List Byte))
    (hbuf : s.buffer = [])
    (hlen : ∀ f ∈ frames, f.length < 32768)
    (hfs : fs (s.path c) = .ok ⟨encodeFrames frames, none⟩) :
    Sound.Load fs s c = ({ s with buffer := frames }, .returned none)
      ∧ encodeFrames (Sound.Load fs s c).1.buffer = encodeFrames frames := by
  have hrun : Sound.Load fs s c = ({ s with buffer := frames }, .returned none) := by
    unfold Sound.Load
    rw [hfs]
    have h := Sound.Load.loop_encodeFrames frames [] none [] hlen
    rw [List.append_nil] at h
    simp only [hbuf, h, Sound.Load.loop_nil, List.nil_append]
  exact ⟨hrun, by rw [hrun]⟩

/-- An instance of C4: the round trip on a container of two records, one of them empty. -/
theorem Sound.Load_roundtrip_witness :
    Sound.Load (fun _ => .ok ⟨encodeFrames [[1, 2], []], none⟩) (createSound "default" 1000 250)
        (.mk "airhorn" ["!airhorn"] [] none 0)
      = ({ createSound "default" 1000 250 with buffer := [[1, 2], []] }, .returned none)
    ∧ encodeFrames (Sound.Load (fun _ => .ok ⟨encodeFrames [[1, 2], []], none⟩)
        (createSound "default" 1000 250) (.mk "airhorn" ["!airhorn"] [] none 0)).1.buffer
      = encodeFrames [[1, 2], []] :=
  Sound.Load_roundtrip _ _ _ [[1, 2], []] rfl (by simp) rfl

/-- A first record of 32768 to 65535 payload bytes makes `Sound.Load` panic. -/
theorem Sound.Load_large_frame (s : Sound) (c : SoundCollection) (rest : List (List Byte))
    (frame : List Byte) (h1 : 32768 ≤ frame.length) (h2 : frame.length < 65536) :
    (Sound.Load (fun _ => .ok ⟨encodeFrames (frame :: rest), none⟩) s c).2 = .panicked := by
  simp only [Sound.Load, encodeFrames, encodeFrame, List.cons_append]
  rw [Sound.Load.loop_negative]
  have e1 : (Fin.ofNat (frame.length % 256) : Fin 256).val = frame.length % 256 := by
    simp [Fin.ofNat]
  have e2 : (Fin.ofNat (frame.length / 256 % 256) : Fin 256).val = frame.length / 256 := by
    simp [Fin.ofNat]
    omega
  rw [e1, e2]
  omega

/-- C4 as stated fails: a complete record of 32768 payload bytes makes `Sound.Load` panic
instead of returning the frame. -/
theorem Sound.Load_roundtrip_counterexample :
    (Sound.Load (fun _ => .ok ⟨encodeFrames (List.replicate 32768 0 :: []), none⟩)
        (createSound "default" 1000 250) (.mk "airhorn" ["!airhorn"] [] none 0)).2
      = .panicked :=
  Sound.Load_large_frame _ _ _ (List.replicate 32768 0)
    (by rw [List.length_replicate]) (by rw [List.length_replicate]; decide)

/-- C5, as the code has it: for complete records followed by a record whose payload is cut
short (all declared lengths below 32768), `Sound.Load` returns the error of the payload
read, `io.EOF` when no payload byte is there and `io.ErrUnexpectedEOF` otherwise, and the
frames are exactly the payloads of the complete records. -/
theorem Sound.Load_truncated (fs : String → Except GoError File) (s : Sound)
    (c : SoundCollection) (frames : List (List Byte)) (n : Nat) (tail : List Byte)
    (hbuf : s.buffer = [])
    (hlen : ∀ f ∈ frames, f.length < 32768)
    (hn : n < 32768) (ht : tail.length < n)
    (hfs : fs (s.path c) = .ok ⟨encodeFrames frames
      ++ Fin.ofNat (n % 256) :: Fin.ofNat (n / 256 % 256) :: tail, none⟩) :
    Sound.Load fs s c = ({ s with buffer := frames },
      .returned (some (if tail = [] then .EOF else .ErrUnexpectedEOF))) := by
  unfold Sound.Load
  rw [hfs]
  simp only [hbuf, Sound.Load.loop_encodeFrames frames _ none [] hlen,
    Sound.Load.loop_truncated n tail _ hn ht, List.nil_append]

/-- An instance of C5: one complete record, then a record that declares two bytes and has
one. -/
theorem Sound.Load_truncated_witness :
    Sound.Load (fun _ => .ok ⟨encodeFrames [[7]] ++ [2, 0, 9], none⟩)
        (createSound "default" 1000 250) (.mk "airhorn" ["!airhorn"] [] none 0)
      = ({ createSound "default" 1000 250 with buffer := [[7]] },
          .returned (some .ErrUnexpectedEOF)) :=
  Sound.Load_truncated (fun _ => .ok ⟨encodeFrames [[7]] ++ [2, 0, 9], none⟩)
    (createSound "default" 1000 250) (.mk "airhorn" ["!airhorn"] [] none 0)
    [[7]] 2 [9] rfl (by simp) (by decide) (by decide) rfl

/-- C5 as stated fails: a record that declares one byte and has none makes `Sound.Load`
return `io.EOF` as its error. -/
theorem Sound.Load_truncated_counterexample :
    Sound.Load (fun _ => .ok ⟨[1, 0], none⟩)
        (createSound "default" 1000 250) (.mk "airhorn" ["!airhorn"] [] none 0)
      = (createSound "default" 1000 250, .returned (some .EOF)) := by
  simp [Sound.Load, Sound.Load.loop, ioReadFull, int16LE, createSound]

/-! ## Theorems: the weighted selector -/

theorem wrapInt_of_isInt (x : Int) (h : isInt x) : wrapInt x = x := by
  unfold isInt at h
  unfold wrapInt
  norm_num at h ⊢
  omega

theorem weightSum_cons (x : Sound) (xs : List Sound) :
    weightSum (x :: xs) = x.Weight + weightSum xs := by
  simp [weightSum]

theorem weightSum_nonneg (sounds : List Sound) (h : ∀ x ∈ sounds, 0 ≤ x.Weight) :
    0 ≤ weightSum sounds := by
  induction sounds with
  | nil => simp [weightSum]
  | cons x xs ih =>
    rw [weightSum_cons]
    have h1 := h x (List.mem_cons_self _ _)
    have h2 := ih (fun y hy => h y (List.mem_cons_of_mem _ hy))
    omega

/-- One step of the walk when the running sum does not wrap. -/
theorem SoundCollection.Random.walk_cons (d : Int) (x : Sound) (xs : List Sound) (acc : Int)
    (h : isInt (acc + x.Weight)) :
    SoundCollection.Random.walk d (x :: xs) acc
      = if d < acc + x.Weight then some x
        else SoundCollection.Random.walk d xs (acc + x.Weight) := by
  simp only [SoundCollection.Random.walk, wrapInt_of_isInt _ h]

/-- The walk returns one of the sounds or nothing. -/
theorem SoundCollection.Random.walk_mem (d : Int) (sounds : List Sound) (acc : Int)
    (clip : Sound) (h : SoundCollection.Random.walk d sounds acc = some clip) :
    clip ∈ sounds := by
  induction sounds generalizing acc with
  | nil => simp [SoundCollection.Random.walk] at h
  | cons x xs ih =>
    simp only [SoundCollection.Random.walk] at h
    split at h
    · simp only [Option.some.injEq] at h
      subst h
      exact List.mem_cons_self _ _
    · exact List.mem_cons_of_mem _ (ih _ h)

/-- The walk from a running sum `acc ≤ d` stops at the least index whose cumulative weight
exceeds `d`. -/
theorem SoundCollection.Random.walk_least (d : Int) (sounds : List Sound) (acc : Int)
    (hw : ∀ x ∈ sounds, 0 ≤ x.Weight) (h0 : 0 ≤ acc) (hle : acc ≤ d)
    (hmax : acc + weightSum sounds < 2 ^ 63) (hd : d < acc + weightSum sounds) :
    ∃ i clip, sounds[i]? = some clip
      ∧ SoundCollection.Random.walk d sounds acc = some clip
      ∧ d < acc + weightSum (sounds.take (i + 1))
      ∧ ∀ j, j < i → acc + weightSum (sounds.take (j + 1)) ≤ d := by
  induction sounds generalizing acc with
  | nil =>
    simp [weightSum] at hd
    omega
  | cons x xs ih =>
    have hx : 0 ≤ x.Weight := hw x (List.mem_cons_self _ _)
    have hxs : ∀ y ∈ xs, 0 ≤ y.Weight := fun y hy => hw y (List.mem_cons_of_mem _ hy)
    have hsum := weightSum_nonneg xs hxs
    rw [weightSum_cons] at hmax hd
    have hint : isInt (acc + x.Weight) := by
      unfold isInt
      constructor <;> omega
    rw [SoundCollection.Random.walk_cons _ _ _ _ hint]
    by_cases hlt : d < acc + x.Weight
    · refine ⟨0, x, by simp, by simp [hlt], ?_, ?_⟩
      · simp [weightSum]
        exact hlt
      · intro j hj
        omega
    · obtain ⟨i, clip, hi, hwalk, hlt2, hmin⟩ :=
        ih (acc + x.Weight) hxs (by omega) (by omega) (by omega) (by omega)
      refine ⟨i + 1, clip, by simpa using hi, by simp [hlt, hwalk], ?_, ?_⟩
      · rw [List.take_succ_cons, weightSum_cons]
        omega
      · intro j hj
        cases j with
        | zero =>
          simp [weightSum]
          omega
        | succ k =>
          rw [List.take_succ_cons, weightSum_cons]
          have := hmin k (by omega)
          omega

/-- What `randomRange(0, T)` yields for a total `0 < T`: a draw in `[0, T)`. -/
theorem randomRange_zero (lib : RandLib) (w : World) (T : Int) (hT : 0 < T) (hint : isInt T)
    (d : Int) (w1 : World) (h : randomRange lib w 0 T = (.returned d, w1)) :
    0 ≤ d ∧ d < T := by
  unfold randomRange at h
  simp only [sub_zero, wrapInt_of_isInt _ hint, add_zero] at h
  have hn : ¬ T ≤ 0 := by omega
  simp only [hn, if_false, Prod.mk.injEq, Outcome.returned.injEq] at h
  have hr := lib.Intn_range (lib.Seed (w.now w.ticks)) T hT
  have hr2 : isInt (lib.Intn (lib.Seed (w.now w.ticks)) T).1 := by
    unfold isInt at hint ⊢
    constructor <;> omega
  rw [wrapInt_of_isInt _ hr2] at h
  rw [← h.1]
  exact hr

/-- C6: in a collection with non-negative weights whose total is `soundRange > 0`, when
`randomRange` yields the draw `d`, `Random` returns the clip at the least index `i` such
that the weights of the clips `0..i` sum to more than `d`; the result is not nil. -/
theorem SoundCollection.Random_least (lib : RandLib) (w : World) (s : SoundCollection)
    (d : Int) (w1 : World)
    (hw : ∀ x ∈ s.Sounds, 0 ≤ x.Weight)
    (hT : weightSum s.Sounds = s.soundRange)
    (hpos : 0 < s.soundRange) (hint : isInt s.soundRange)
    (hdraw : randomRange lib w 0 s.soundRange = (.returned d, w1)) :
    ∃ i clip, s.Sounds[i]? = some clip
      ∧ s.Random lib w = (.returned (some clip), w1)
      ∧ d < weightSum (s.Sounds.take (i + 1))
      ∧ ∀ j, j < i → weightSum (s.Sounds.take (j + 1)) ≤ d := by
  obtain ⟨hd0, hdT⟩ := randomRange_zero lib w _ hpos hint d w1 hdraw
  have hmax : (0 : Int) + weightSum s.Sounds < 2 ^ 63 := by
    rw [hT, zero_add]
    exact hint.2
  obtain ⟨i, clip, hi, hwalk, hlt, hmin⟩ :=
    SoundCollection.Random.walk_least d s.Sounds 0 hw (le_refl _) hd0 hmax
      (by rw [hT, zero_add]; exact hdT)
  refine ⟨i, clip, hi, ?_, by simpa using hlt, fun j hj => by simpa using hmin j hj⟩
  simp only [SoundCollection.Random, hdraw, hwalk]

/-- An instance of C6: the collection `KHALED` after loading, with the draw `7 mod 3 = 1`:
`Random` returns the second clip. -/
theorem SoundCollection.Random_least_witness :
    ∃ i clip,
      (SoundCollection.mk "another" ["!anotha", "!anothaone"]
        [createSound "one" 1 250, createSound "one_classic" 1 250, createSound "one_echo" 1 250]
        none 3).Sounds[i]? = some clip
      ∧ (SoundCollection.mk "another" ["!anotha", "!anothaone"]
        [createSound "one" 1 250, createSound "one_classic" 1 250, createSound "one_echo" 1 250]
        none 3).Random exampleRand exampleWorld
          = (.returned (some clip), { exampleWorld with ticks := 1, rng := 8 })
      ∧ (1 : Int) < weightSum ((SoundCollection.mk "another" ["!anotha", "!anothaone"]
        [createSound "one" 1 250, createSound "one_classic" 1 250, createSound "one_echo" 1 250]
        none 3).Sounds.take (i + 1))
      ∧ ∀ j, j < i → weightSum ((SoundCollection.mk "another" ["!anotha", "!anothaone"]
        [createSound "one" 1 250, createSound "one_classic" 1 250, createSound "one_echo" 1 250]
        none 3).Sounds.take (j + 1)) ≤ 1 :=
  SoundCollection.Random_least exampleRand exampleWorld
    (SoundCollection.mk "another" ["!anotha", "!anothaone"]
      [createSound "one" 1 250, createSound "one_classic" 1 250, createSound "one_echo" 1 250]
      none 3)
    1 { exampleWorld with ticks := 1, rng := 8 }
    (by decide) (by decide) (by decide) (by decide) (by rfl)

theorem foldl_emit_OpusSend (vc : Nat) (buffer : List (List Byte)) (w : World) :
    buffer.foldl (fun w buff => w.emit (.OpusSend vc buff)) w
      = { w with trace := w.trace ++ buffer.map (.OpusSend vc) } := by
  induction buffer generalizing w with
  | nil => simp
  | cons b bs ih =>
    rw [List.foldl_cons, ih]
    simp [World.emit]

/-- The middle of `playSound` for a play that has a sound. -/
theorem playSound.stream_some (w : World) (play : Play) (sound : Sound) (vc : Nat)
    (hs : play.Sound = some sound) :
    playSound.stream w play vc
      = ({ w with vcChannel := Function.update w.vcChannel vc play.ChannelID,
                  trace := w.trace ++ streamEvents (w.vcChannel vc) play sound vc },
         .returned ()) := by
  unfold playSound.stream Sound.Play streamEvents
  rw [hs]
  simp only [foldl_emit_OpusSend]
  by_cases h : w.vcChannel vc = play.ChannelID
  · have hup : Function.update w.vcChannel vc play.ChannelID = w.vcChannel := by
      rw [← h]
      exact Function.update_eq_self _ _
    simp [h, hup, World.emit]
  · simp [h, World.emit]

theorem framesSent_append (xs ys : List Event) :
    framesSent (xs ++ ys) = framesSent xs ++ framesSent ys := by
  induction xs with
  | nil => rfl
  | cons e es ih => cases e <;> simp [framesSent, ih]

theorem joinCount_append (xs ys : List Event) :
    joinCount (xs ++ ys) = joinCount xs + joinCount ys := by
  induction xs with
  | nil => simp [joinCount]
  | cons e es ih => cases e <;> simp [joinCount, ih]; omega

theorem framesSent_map_OpusSend (vc : Nat) (buffer : List (List Byte)) :
    framesSent (buffer.map (.OpusSend vc)) = buffer.map (Prod.mk vc) := by
  induction buffer with
  | nil => rfl
  | cons b bs ih => simp [framesSent, ih]

theorem joinCount_map_OpusSend (vc : Nat) (buffer : List (List Byte)) :
    joinCount (buffer.map (.OpusSend vc)) = 0 := by
  induction buffer with
  | nil => rfl
  | cons b bs ih => simp [joinCount, ih]

theorem framesSent_streamEvents (current : String) (play : Play) (sound : Sound) (vc : Nat) :
    framesSent (streamEvents current play sound vc) = sound.buffer.map (Prod.mk vc) := by
  unfold streamEvents
  split <;> simp [framesSent_append, framesSent_map_OpusSend, framesSent]

theorem joinCount_streamEvents (current : String) (play : Play) (sound : Sound) (vc : Nat) :
    joinCount (streamEvents current play sound vc) = 0 := by
  unfold streamEvents
  split <;> simp [joinCount_append, joinCount_map_OpusSend, joinCount]

theorem World.interleave_nil (w : World) (h : w.script = []) : w.interleave = w := by
  simp [World.interleave, h]

theorem World.interleave_cons (w : World) (batch : List Play) (rest : List (List Play))
    (h : w.script = batch :: rest) :
    w.interleave = batch.foldl World.arrive { w with script := rest } := by
  simp [World.interleave, h]

/-- With a successful join `playSound(play, nil)` goes on as with the new connection. -/
theorem playSound_join (fuel : Nat) (w : World) (play : Play)
    (hj : w.joinErr w.joins play.GuildID play.ChannelID = none) :
    playSound (fuel + 1) w play none
      = playSound (fuel + 1)
          { w with joins := w.joins + 1,
                   trace := w.trace
                     ++ [.ChannelVoiceJoin play.GuildID play.ChannelID (.ok w.joins)],
                   vcChannel := Function.update w.vcChannel w.joins play.ChannelID }
          play (some w.joins) := by
  simp only [playSound, ChannelVoiceJoin, hj]

/-- The queue check for a guild `g`, spelled out. -/
theorem playSound.drain_eq
    (recur : World → Play → Option Nat → Option (World × Outcome (Option GoError)))
    (w : World) (play : Play) (sound : Sound) (vc : Nat) (g : String) (hg : play.GuildID = g) :
    playSound.drain recur w play sound vc
      = match w.interleave.queues g with
        | some ⟨cap, next :: rest⟩ =>
          match recur
              { w.interleave with
                queues := Function.update w.interleave.queues g (some ⟨cap, rest⟩) }
              next (some vc) with
          | none => none
          | some (w, .panicked) => some (w, .panicked)
          | some (w, .returned _) => some (w, .returned none)
        | _ => some (playSound.teardown w.interleave play sound vc, .returned none) := by
  subst hg
  rfl

/-- One play without a chain on an open connection: the sound, then the queue check. -/
theorem playSound_single (fuel : Nat) (w : World) (play : Play) (sound : Sound) (vc : Nat)
    (hs : play.Sound = some sound) (hn : play.Next = none) :
    playSound (fuel + 1) w play (some vc)
      = playSound.drain (playSound fuel) (playSound.stream w play vc).1 play sound vc := by
  rw [playSound]
  simp only [hs, hn, playSound.stream_some w play sound vc hs]

/-- A play with a chain on an open connection: the sound, the chained play, then the queue
check. -/
theorem playSound_chained (fuel : Nat) (w : World) (play next : Play) (sound : Sound)
    (vc : Nat) (hs : play.Sound = some sound) (hn : play.Next = some next) :
    playSound (fuel + 1) w play (some vc)
      = match playSound fuel (playSound.stream w play vc).1 next (some vc) with
        | none => none
        | some (w1, .panicked) => some (w1, .panicked)
        | some (w1, .returned _) => playSound.drain (playSound fuel) w1 play sound vc := by
  rw [playSound]
  simp only [hs, hn, playSound.stream_some w play sound vc hs]

/-- What the registry section leaves alone. -/
theorem enqueuePlay.registry_frame (w : World) (guildID : String) (play : Play) :
    (enqueuePlay.registry w guildID play).1.trace = w.trace
      ∧ (enqueuePlay.registry w guildID play).1.script = w.script
      ∧ (enqueuePlay.registry w guildID play).1.spawned = w.spawned
      ∧ (enqueuePlay.registry w guildID play).1.joinErr = w.joinErr
      ∧ (enqueuePlay.registry w guildID play).1.joins = w.joins
      ∧ (enqueuePlay.registry w guildID play).1.vcChannel = w.vcChannel := by
  unfold enqueuePlay.registry
  split
  · split
    · split <;> simp
    · simp
  · simp

/-- What an arrival leaves alone. -/
theorem World.arrive_frame (w : World) (play : Play) :
    (w.arrive play).trace = w.trace
      ∧ (w.arrive play).script = w.script
      ∧ (w.arrive play).joinErr = w.joinErr
      ∧ (w.arrive play).joins = w.joins
      ∧ (w.arrive play).vcChannel = w.vcChannel := by
  have h := enqueuePlay.registry_frame w play.GuildID play
  unfold World.arrive
  split <;> rename_i heq <;> rw [heq] at h <;> simp only at h ⊢ <;>
    exact ⟨h.1, h.2.1, h.2.2.2.1, h.2.2.2.2.1, h.2.2.2.2.2⟩

theorem World.foldl_arrive_frame (batch : List Play) (w : World) :
    (batch.foldl World.arrive w).trace = w.trace
      ∧ (batch.foldl World.arrive w).script = w.script
      ∧ (batch.foldl World.arrive w).joinErr = w.joinErr
      ∧ (batch.foldl World.arrive w).joins = w.joins
      ∧ (batch.foldl World.arrive w).vcChannel = w.vcChannel := by
  induction batch generalizing w with
  | nil => simp
  | cons p ps ih =>
    rw [List.foldl_cons]
    have h1 := ih (w.arrive p)
    have h2 := World.arrive_frame w p
    exact ⟨h1.1.trans h2.1, h1.2.1.trans h2.2.1, h1.2.2.1.trans h2.2.2.1,
      h1.2.2.2.1.trans h2.2.2.2.1, h1.2.2.2.2.trans h2.2.2.2.2⟩

/-- What the turn of the other goroutines leaves alone. -/
theorem World.interleave_frame (w : World) :
    w.interleave.trace = w.trace
      ∧ w.interleave.joinErr = w.joinErr
      ∧ w.interleave.joins = w.joins
      ∧ w.interleave.vcChannel = w.vcChannel := by
  unfold World.interleave
  split
  · simp
  · have h := World.foldl_arrive_frame ‹List Play› { w with script := ‹List (List Play)› }
    exact ⟨h.1, h.2.2.1, h.2.2.2.1, h.2.2.2.2⟩

/-- With a failing join `playSound(play, nil)` lets the other goroutines take their turn,
removes the queue of the guild and returns the error. -/
theorem playSound_join_error (fuel : Nat) (w : World) (play : Play) (err : GoError)
    (hj : w.joinErr w.joins play.GuildID play.ChannelID = some err) :
    playSound (fuel + 1) w play none
      = some ({ (World.interleave { w with
                  joins := w.joins + 1,
                  trace := w.trace
                    ++ [.ChannelVoiceJoin play.GuildID play.ChannelID (.error err)] }) with
                queues := Function.update (World.interleave { w with
                  joins := w.joins + 1,
                  trace := w.trace
                    ++ [.ChannelVoiceJoin play.GuildID play.ChannelID (.error err)] }).queues
                  play.GuildID none },
              .returned (some err)) := by
  simp only [playSound, ChannelVoiceJoin, hj]

/-- An arrival at a queue with room is appended to it. -/
theorem World.arrive_queued (w : World) (play : Play) (g : String) (q : Chan)
    (hg : play.GuildID = g) (hq : w.queues g = some q)
    (h1 : q.buf.length < MAX_QUEUE_SIZE) (h2 : q.buf.length < q.cap) :
    w.arrive play
      = { w with queues := Function.update w.queues g (some ⟨q.cap, q.buf ++ [play]⟩) } := by
  subst hg
  simp only [World.arrive, enqueuePlay.registry, hq, h1, h2, if_true]

/-- An arrival at a queue that holds `MAX_QUEUE_SIZE` plays changes nothing. -/
theorem World.arrive_dropped (w : World) (play : Play) (g : String) (q : Chan)
    (hg : play.GuildID = g) (hq : w.queues g = some q) (h1 : MAX_QUEUE_SIZE ≤ q.buf.length) :
    w.arrive play = w := by
  subst hg
  have h : ¬ q.buf.length < MAX_QUEUE_SIZE := by omega
  simp only [World.arrive, enqueuePlay.registry, hq, h, if_false]

/-- An arrival at a guild without a queue makes the queue and starts a worker of its own. -/
theorem World.arrive_start (w : World) (play : Play) (g : String)
    (hg : play.GuildID = g) (hq : w.queues g = none) :
    w.arrive play
      = { w with queues := Function.update w.queues g (some ⟨MAX_QUEUE_SIZE, []⟩),
                 spawned := w.spawned ++ [play] } := by
  subst hg
  simp only [World.arrive, enqueuePlay.registry, hq]

/-- The end of `playSound` when no other goroutine acts. -/
theorem playSound.teardown_quiet (w : World) (play : Play) (sound : Sound) (vc : Nat)
    (g : String) (hg : play.GuildID = g) (h : w.script = []) :
    playSound.teardown w play sound vc
      = { w with queues := Function.update w.queues g none,
                 trace := w.trace ++ [.Sleep sound.PartDelay, .Disconnect vc] } := by
  subst hg
  have e : (w.emit (.Sleep sound.PartDelay)).interleave = w.emit (.Sleep sound.PartDelay) :=
    World.interleave_nil _ (by simpa [World.emit] using h)
  simp only [playSound.teardown, e]
  simp [World.emit]

theorem Play.size_pos (play : Play) : 1 ≤ play.size := by
  cases play with
  | mk g c u s n f => cases n <;> simp [Play.size]

theorem Play.ok_sound (play : Play) (h : play.ok = true) : ∃ sound, play.Sound = some sound := by
  cases play with
  | mk g c u s n f =>
    cases n with
    | none =>
      simp only [Play.ok] at h
      exact Option.isSome_iff_exists.mp h
    | some next =>
      simp only [Play.ok, Bool.and_eq_true] at h
      exact Option.isSome_iff_exists.mp h.1.1

theorem Play.ok_next (play next : Play) (h : play.ok = true) (hn : play.Next = some next) :
    next.ok = true ∧ next.GuildID = play.GuildID ∧ play.size = next.size + 1 := by
  cases play with
  | mk g c u s n f =>
    simp only [Play.Next] at hn
    subst hn
    simp only [Play.ok, Bool.and_eq_true, decide_eq_true_eq] at h
    exact ⟨h.2, h.1.2, by simp [Play.size]⟩

theorem Play.size_single (play : Play) (hn : play.Next = none) : play.size = 1 := by
  cases play with
  | mk g c u s n f =>
    simp only [Play.Next] at hn
    subst hn
    simp [Play.size]

theorem playCount_cons (p : Play) (ps : List Play) :
    playCount (p :: ps) = p.size + playCount ps := by
  simp [playCount]

theorem playCount_append (ps qs : List Play) :
    playCount (ps ++ qs) = playCount ps + playCount qs := by
  simp [playCount]

/-- C10: when the voice join fails, `playSound` returns the error of the join, the guild
has no registry entry afterwards whatever its queue held, and the only thing asked of the
collaborators is that one join: no frame, no speaking, move or disconnect call, no stats
dispatch and no second join. -/
theorem playSound_join_failure (fuel : Nat) (w : World) (play : Play) (err : GoError)
    (hj : w.joinErr w.joins play.GuildID play.ChannelID = some err) :
    ∃ w1, playSound (fuel + 1) w play none = some (w1, .returned (some err))
      ∧ w1.queues play.GuildID = none
      ∧ w1.trace = w.trace ++ [.ChannelVoiceJoin play.GuildID play.ChannelID (.error err)]
      ∧ w1.joins = w.joins + 1 := by
  rw [playSound_join_error fuel w play err hj]
  refine ⟨_, rfl, ?_, ?_, ?_⟩
  · simp
  · simp [(World.interleave_frame _).1]
  · simp [(World.interleave_frame _).2.2.1]

theorem World.sameProcess_refl (w : World) : w.sameProcess w :=
  ⟨rfl, rfl, rfl, rfl, rfl, rfl, rfl, rfl, rfl⟩

theorem World.sameProcess_trans (w2 w1 w : World) (h2 : w2.sameProcess w1)
    (h1 : w1.sameProcess w) : w2.sameProcess w := by
  unfold World.sameProcess at *
  obtain ⟨a1, a2, a3, a4, a5, a6, a7, a8, a9⟩ := h2
  obtain ⟨b1, b2, b3, b4, b5, b6, b7, b8, b9⟩ := h1
  exact ⟨a1.trans b1, a2.trans b2, a3.trans b3, a4.trans b4, a5.trans b5, a6.trans b6,
    a7.trans b7, a8.trans b8, a9.trans b9⟩

theorem randomRange_sameProcess (lib : RandLib) (w : World) (min max : Int) :
    (randomRange lib w min max).2.sameProcess w := by
  unfold randomRange
  simp only
  split <;> exact ⟨rfl, rfl, rfl, rfl, rfl, rfl, rfl, rfl, rfl⟩

theorem SoundCollection.Random_sameProcess (lib : RandLib) (w : World) (s : SoundCollection) :
    (s.Random lib w).2.sameProcess w := by
  have h := randomRange_sameProcess lib w 0 s.soundRange
  unfold SoundCollection.Random
  split <;> rename_i heq <;> rw [heq] at h <;> exact h

/-- `createPlay` touches the clock and the generator only. -/
theorem createPlay_sameProcess (lib : RandLib) (w : World) (user : User) (guild : Guild)
    (coll : SoundCollection) (sound : Option Sound) :
    (createPlay lib w user guild coll sound).2.sameProcess w := by
  unfold createPlay
  cases hch : getCurrentVoiceChannel w user guild with
  | none => exact World.sameProcess_refl w
  | some channel =>
    cases sound with
    | some s0 =>
      cases hcw : coll.ChainWith with
      | none => exact World.sameProcess_refl w
      | some chain =>
        have h2 := SoundCollection.Random_sameProcess lib w chain
        rcases hr : chain.Random lib w with ⟨o, w2⟩
        rw [hr] at h2
        cases o <;> simp only [hr] <;> exact h2
    | none =>
      have h1 := SoundCollection.Random_sameProcess lib w coll
      rcases hr1 : coll.Random lib w with ⟨o1, w1⟩
      rw [hr1] at h1
      cases o1 with
      | panicked =>
        simp only [hr1]
        exact h1
      | returned r =>
        cases hcw : coll.ChainWith with
        | none =>
          simp only [hr1]
          exact h1
        | some chain =>
          have h2 := SoundCollection.Random_sameProcess lib w1 chain
          rcases hr : chain.Random lib w1 with ⟨o, w2⟩
          rw [hr] at h2
          cases o <;> simp only [hr1, hr] <;> exact World.sameProcess_trans _ _ _ h2 h1

/-- The play that `createPlay` returns is for the guild it was given. -/
theorem createPlay_GuildID (lib : RandLib) (w w1 : World) (user : User) (guild : Guild)
    (coll : SoundCollection) (sound : Option Sound) (play : Play)
    (h : createPlay lib w user guild coll sound = (.returned (some play), w1)) :
    play.GuildID = guild.ID := by
  unfold createPlay at h
  cases hch : getCurrentVoiceChannel w user guild with
  | none =>
    rw [hch] at h
    simp at h
  | some channel =>
    rw [hch] at h
    cases sound with
    | some s0 =>
      cases hcw : coll.ChainWith with
      | none =>
        simp only [hcw, Prod.mk.injEq, Outcome.returned.injEq, Option.some.injEq] at h
        rw [← h.1]
        rfl
      | some chain =>
        rcases hr : chain.Random lib w with ⟨o, w2⟩
        cases o <;> simp only [hcw, hr, Prod.mk.injEq, Outcome.returned.injEq,
          Option.some.injEq, reduceCtorEq, false_and] at h
        rw [← h.1]
        rfl
    | none =>
      rcases hr1 : coll.Random lib w with ⟨o1, w1⟩
      cases o1 with
      | panicked => simp [hr1] at h
      | returned r =>
        cases hcw : coll.ChainWith with
        | none =>
          simp only [hr1, hcw, Prod.mk.injEq, Outcome.returned.injEq, Option.some.injEq] at h
          rw [← h.1]
          rfl
        | some chain =>
          rcases hr : chain.Random lib w1 with ⟨o, w2⟩
          cases o <;> simp only [hr1, hcw, hr, Prod.mk.injEq, Outcome.returned.injEq,
            Option.some.injEq, reduceCtorEq, false_and] at h
          rw [← h.1]
          rfl

/-- C3: when the guild has no entry in the registry, `enqueuePlay` registers an empty queue
of capacity `MAX_QUEUE_SIZE` for it and goes on as `playSound(play, nil)` in that state: the
play is not in the queue, which is empty when the worker starts. -/
theorem enqueuePlay_fast_path (lib : RandLib) (fuel : Nat) (w w1 : World) (user : User)
    (guild : Guild) (coll : SoundCollection) (sound : Option Sound) (play : Play)
    (hcreate : createPlay lib w user guild coll sound = (.returned (some play), w1))
    (hidle : w.queues guild.ID = none) :
    enqueuePlay.registry w1 guild.ID play
        = ({ w1 with queues := Function.update w1.queues guild.ID (some ⟨MAX_QUEUE_SIZE, []⟩) },
           .start)
      ∧ (enqueuePlay.registry w1 guild.ID play).1.queues guild.ID = some ⟨MAX_QUEUE_SIZE, []⟩
      ∧ enqueuePlay lib fuel w user guild coll sound
        = match playSound fuel (enqueuePlay.registry w1 guild.ID play).1 play none with
          | none => none
          | some (w2, .panicked) => some (w2, .panicked)
          | some (w2, .returned _) => some (w2, .returned (some .start)) := by
  have hsame := createPlay_sameProcess lib w user guild coll sound
  rw [hcreate] at hsame
  have hidle1 : w1.queues guild.ID = none := by
    rw [hsame.1]
    exact hidle
  have hreg : enqueuePlay.registry w1 guild.ID play
      = ({ w1 with queues := Function.update w1.queues guild.ID (some ⟨MAX_QUEUE_SIZE, []⟩) },
         .start) := by
    simp only [enqueuePlay.registry, hidle1]
  refine ⟨hreg, ?_, ?_⟩
  · rw [hreg]
    simp
  · simp only [enqueuePlay, hcreate, enqueuePlay.dispatch, hreg]
    cases playSound fuel _ play none with
    | none => rfl
    | some r =>
      obtain ⟨w2, o⟩ := r
      cases o <;> rfl

/-- A request that arrives at a full queue while a worker is at work, at any point before
the next access of the worker to the queues, changes nothing in the run of the worker. -/
theorem playSound_arrival_dropped (g : String) (q : Chan) (play : Play)
    (rest : List (List Play)) (hfull : MAX_QUEUE_SIZE ≤ q.buf.length)
    (hpg : play.GuildID = g) :
    ∀ (fuel : Nat) (w : World) (current : Play) (vc : Option Nat),
      w.queues g = some q → current.ok = true →
      playSound fuel { w with script := [play] :: rest } current vc
        = playSound fuel { w with script := [] :: rest } current vc := by
  have hturn : ∀ w0 : World, w0.queues g = some q →
      World.interleave { w0 with script := [play] :: rest }
        = World.interleave { w0 with script := [] :: rest } := by
    intro w0 h0
    simp only [World.interleave, List.foldl_cons, List.foldl_nil]
    exact World.arrive_dropped _ play g q hpg h0 hfull
  intro fuel
  induction fuel with
  | zero =>
    intro w current vc _ _
    rfl
  | succ f ih =>
    intro w current vc hq hok
    obtain ⟨sound, hs⟩ := Play.ok_sound current hok
    -- on an open connection
    have hopen : ∀ (w0 : World) (c : Nat), w0.queues g = some q →
        playSound (f + 1) { w0 with script := [play] :: rest } current (some c)
          = playSound (f + 1) { w0 with script := [] :: rest } current (some c) := by
      intro w0 c h0
      have hdrain : ∀ w2 : World, w2.queues g = some q →
          playSound.drain (playSound f) { w2 with script := [play] :: rest } current sound c
            = playSound.drain (playSound f) { w2 with script := [] :: rest } current sound c := by
        intro w2 h2
        simp only [playSound.drain, playSound.teardown]
        rw [hturn w2 h2]
      cases hn : current.Next with
      | none =>
        rw [playSound_single f _ current sound c hs hn,
          playSound_single f _ current sound c hs hn,
          playSound.stream_some _ current sound c hs, playSound.stream_some _ current sound c hs]
        exact hdrain
          { w0 with vcChannel := Function.update w0.vcChannel c current.ChannelID,
                    trace := w0.trace ++ streamEvents (w0.vcChannel c) current sound c } h0
      | some next =>
        obtain ⟨hnok, _, _⟩ := Play.ok_next current next hok hn
        rw [playSound_chained f _ current next sound c hs hn,
          playSound_chained f _ current next sound c hs hn,
          playSound.stream_some _ current sound c hs, playSound.stream_some _ current sound c hs]
        have e := ih
          { w0 with vcChannel := Function.update w0.vcChannel c current.ChannelID,
                    trace := w0.trace ++ streamEvents (w0.vcChannel c) current sound c }
          next (some c) h0 hnok
        exact congrArg (fun r =>
          match r with
          | none => none
          | some (w1, Outcome.panicked) => some (w1, Outcome.panicked)
          | some (w1, Outcome.returned _) => playSound.drain (playSound f) w1 current sound c) e
    cases vc with
    | some c => exact hopen w c hq
    | none =>
      cases hj : w.joinErr w.joins current.GuildID current.ChannelID with
      | some err =>
        rw [playSound_join_error f { w with script := [play] :: rest } current err hj,
          playSound_join_error f { w with script := [] :: rest } current err hj]
        have e := hturn
          { w with joins := w.joins + 1,
                   trace := w.trace
                     ++ [.ChannelVoiceJoin current.GuildID current.ChannelID (.error err)] } hq
        simp only at e ⊢
        rw [e]
      | none =>
        rw [playSound_join f { w with script := [play] :: rest } current hj,
          playSound_join f { w with script := [] :: rest } current hj]
        exact hopen
          { w with joins := w.joins + 1,
                   trace := w.trace
                     ++ [.ChannelVoiceJoin current.GuildID current.ChannelID (.ok w.joins)],
                   vcChannel := Function.update w.vcChannel w.joins current.ChannelID }
          w.joins hq

/-- C2: when the queue of the guild holds `MAX_QUEUE_SIZE` plays, `enqueuePlay` returns
without an error and leaves the world as `createPlay` left it, with the registry, the queue
and the trace as before the call; and a worker that is at work on a play when the request
arrives goes on exactly as if it had not arrived, so the request is never streamed. -/
theorem enqueuePlay_drop (lib : RandLib) (fuel : Nat) (w w1 : World) (user : User)
    (guild : Guild) (coll : SoundCollection) (sound : Option Sound) (play : Play) (q : Chan)
    (hcreate : createPlay lib w user guild coll sound = (.returned (some play), w1))
    (hq : w.queues guild.ID = some q) (hfull : q.buf.length = MAX_QUEUE_SIZE) :
    enqueuePlay lib fuel w user guild coll sound = some (w1, .returned (some .dropped))
      ∧ w1.queues = w.queues ∧ w1.trace = w.trace
      ∧ ∀ (fuel1 : Nat) (current : Play) (vc : Option Nat) (rest : List (List Play)),
          current.ok = true →
          playSound fuel1 { w1 with script := [play] :: rest } current vc
            = playSound fuel1 { w1 with script := [] :: rest } current vc := by
  have hsame := createPlay_sameProcess lib w user guild coll sound
  rw [hcreate] at hsame
  have hq1 : w1.queues guild.ID = some q := by
    rw [hsame.1]
    exact hq
  have hplay : play.GuildID = guild.ID :=
    createPlay_GuildID lib w w1 user guild coll sound play hcreate
  have hreg : enqueuePlay.registry w1 guild.ID play = (w1, .dropped) := by
    simp only [enqueuePlay.registry, hq1, hfull, lt_irrefl, if_false]
  refine ⟨?_, hsame.1, hsame.2.1, ?_⟩
  · simp only [enqueuePlay, hcreate, enqueuePlay.dispatch, hreg]
  · intro fuel1 current vc rest hok
    exact playSound_arrival_dropped guild.ID q play rest (by omega) hplay fuel1 w1 current vc
      hq1 hok

/-- A worker on an open connection, with no other goroutine acting, streams its play and
then the plays of the queue in their order, and removes the queue. -/
theorem playSound_queue (g : String) (ps : List Play) :
    ∀ (fuel : Nat) (w : World) (play : Play) (sound : Sound) (vc cap : Nat),
      play.GuildID = g → w.script = [] → w.queues g = some ⟨cap, ps⟩ →
      play.Sound = some sound → play.Next = none →
      (∀ p ∈ ps, p.GuildID = g ∧ p.single) →
      ps.length + 1 ≤ fuel →
      ∃ w1 evs, playSound fuel w play (some vc) = some (w1, .returned none)
        ∧ w1.queues g = none
        ∧ w1.script = []
        ∧ w1.trace = w.trace ++ evs
        ∧ framesSent evs = (sound.buffer ++ ps.flatMap Play.frames).map (Prod.mk vc)
        ∧ joinCount evs = 0 := by
  induction ps with
  | nil =>
    intro fuel w play sound vc cap hg hscript hq hs hn _ hfuel
    obtain ⟨f, rfl⟩ : ∃ f, fuel = f + 1 := ⟨fuel - 1, by omega⟩
    rw [playSound_single f w play sound vc hs hn, playSound.drain_eq _ _ _ _ _ g hg,
      playSound.stream_some w play sound vc hs]
    rw [World.interleave_nil _ (by simpa using hscript)]
    simp only [hq]
    rw [playSound.teardown_quiet _ _ _ _ g hg (by simpa using hscript)]
    refine ⟨_, streamEvents (w.vcChannel vc) play sound vc
      ++ [.Sleep sound.PartDelay, .Disconnect vc], rfl, by simp, by simpa using hscript,
      by simp, ?_, ?_⟩
    · simp [framesSent_append, framesSent_streamEvents, framesSent]
    · simp [joinCount_append, joinCount_streamEvents, joinCount]
  | cons p ps ih =>
    intro fuel w play sound vc cap hg hscript hq hs hn hps hfuel
    obtain ⟨f, rfl⟩ : ∃ f, fuel = f + 1 := ⟨fuel - 1, by omega⟩
    obtain ⟨hpg, hpsome, hpn⟩ := hps p (List.mem_cons_self _ _)
    obtain ⟨psound, hpsound⟩ := Option.isSome_iff_exists.mp hpsome
    rw [playSound_single f w play sound vc hs hn, playSound.drain_eq _ _ _ _ _ g hg,
      playSound.stream_some w play sound vc hs]
    rw [World.interleave_nil _ (by simpa using hscript)]
    simp only [hq]
    obtain ⟨w1, evs, hrun, hnone, hscript1, htrace, hframes, hjoins⟩ :=
      ih f { w with vcChannel := Function.update w.vcChannel vc play.ChannelID,
                    trace := w.trace ++ streamEvents (w.vcChannel vc) play sound vc,
                    queues := Function.update w.queues g (some ⟨cap, ps⟩) }
        p psound vc cap hpg (by simpa using hscript) (by simp) hpsound hpn
        (fun x hx => hps x (List.mem_cons_of_mem _ hx))
        (by simp at hfuel; omega)
    rw [hrun]
    refine ⟨w1, streamEvents (w.vcChannel vc) play sound vc ++ evs, rfl, hnone, hscript1,
      ?_, ?_, ?_⟩
    · rw [htrace]
      simp
    · simp [framesSent_append, framesSent_streamEvents, hframes, Play.frames, hpsound]
    · simp [joinCount_append, joinCount_streamEvents, hjoins]

/-- C1: on a guild without a registry entry, when the play `A` takes the fast path and the
plays `B` and `C` (none of them chained) go through the registry section of `enqueuePlay`
before the queue check that follows `A`, the worker started for `A` sends exactly the
frames of `A`, then of `B`, then of `C`, all on the connection of its one voice join. -/
theorem enqueuePlay_fifo (fuel : Nat) (w : World) (guild : Guild) (A B C : Play)
    (sA sB sC : Sound)
    (hidle : w.queues guild.ID = none)
    (hA : A.GuildID = guild.ID) (hB : B.GuildID = guild.ID) (hC : C.GuildID = guild.ID)
    (hsA : A.Sound = some sA) (hsB : B.Sound = some sB) (hsC : C.Sound = some sC)
    (hnA : A.Next = none) (hnB : B.Next = none) (hnC : C.Next = none)
    (hscript : w.script = [[B, C]])
    (hjoin : w.joinErr w.joins A.GuildID A.ChannelID = none)
    (hfuel : 3 ≤ fuel) :
    ∃ w1 evs, enqueuePlay.dispatch fuel w guild A = some (w1, .returned .start)
      ∧ w1.trace = w.trace ++ evs
      ∧ framesSent evs = (sA.buffer ++ sB.buffer ++ sC.buffer).map (Prod.mk w.joins)
      ∧ joinCount evs = 1 := by
  obtain ⟨f, rfl⟩ : ∃ f, fuel = f + 2 := ⟨fuel - 2, by omega⟩
  simp only [enqueuePlay.dispatch, enqueuePlay.registry, hidle]
  rw [playSound_join (f + 1) _ A (by simpa using hjoin)]
  rw [playSound_single (f + 1) _ A sA _ hsA hnA, playSound.drain_eq _ _ _ _ _ guild.ID hA,
    playSound.stream_some _ A sA _ hsA]
  rw [World.interleave_cons _ [B, C] [] (by simpa using hscript)]
  simp only [List.foldl_cons, List.foldl_nil]
  rw [World.arrive_queued _ B guild.ID ⟨MAX_QUEUE_SIZE, []⟩ hB (by simp)
    (by simp [MAX_QUEUE_SIZE]) (by simp [MAX_QUEUE_SIZE])]
  rw [World.arrive_queued _ C guild.ID ⟨MAX_QUEUE_SIZE, [B]⟩ hC (by simp)
    (by simp [MAX_QUEUE_SIZE]) (by simp [MAX_QUEUE_SIZE])]
  simp only [Function.update_same, Function.update_idem, List.nil_append,
    List.singleton_append]
  obtain ⟨w1, evs, hrun, _, _, htrace, hframes, hjoins⟩ :=
    playSound_queue guild.ID [C] (f + 1)
      { w with queues := Function.update w.queues guild.ID (some ⟨MAX_QUEUE_SIZE, [C]⟩),
               script := [],
               joins := w.joins + 1,
               trace := w.trace
                   ++ [.ChannelVoiceJoin A.GuildID A.ChannelID (.ok w.joins)]
                   ++ streamEvents A.ChannelID A sA w.joins,
               vcChannel := Function.update w.vcChannel w.joins A.ChannelID }
      B sB w.joins MAX_QUEUE_SIZE hB rfl (by simp) hsB hnB
      (by
        intro p hp
        simp only [List.mem_singleton] at hp
        subst hp
        exact ⟨hC, by simp [hsC], hnC⟩)
      (by simp; omega)
  rw [hrun]
  refine ⟨w1, [.ChannelVoiceJoin A.GuildID A.ChannelID (.ok w.joins)]
    ++ streamEvents A.ChannelID A sA w.joins ++ evs, rfl, ?_, ?_, ?_⟩
  · rw [htrace]
    simp
  · simp [framesSent_append, framesSent_streamEvents, hframes, framesSent, Play.frames, hsC]
  · simp [joinCount_append, joinCount_streamEvents, hjoins, joinCount]

/-- An instance of C1: three plays on the idle guild `"g"`, the second and third arrive
while the first is streamed. -/
theorem enqueuePlay_fifo_witness :
    ∃ w1 evs,
      enqueuePlay.dispatch 3
          { exampleWorld with
            script := [[examplePlay (exampleSound "b"), examplePlay (exampleSound "c")]] }
          exampleGuild (examplePlay (exampleSound "a"))
        = some (w1, .returned .start)
      ∧ w1.trace = [] ++ evs
      ∧ framesSent evs
        = ((exampleSound "a").buffer ++ (exampleSound "b").buffer
            ++ (exampleSound "c").buffer).map (Prod.mk 0)
      ∧ joinCount evs = 1 :=
  enqueuePlay_fifo 3
    { exampleWorld with
      script := [[examplePlay (exampleSound "b"), examplePlay (exampleSound "c")]] }
    exampleGuild (examplePlay (exampleSound "a")) (examplePlay (exampleSound "b"))
    (examplePlay (exampleSound "c")) (exampleSound "a") (exampleSound "b") (exampleSound "c")
    rfl rfl rfl rfl rfl rfl rfl rfl rfl rfl rfl rfl (by decide)

/-- An instance of C2: a forced play for the guild `"g"` whose queue is full. -/
theorem enqueuePlay_drop_witness :
    enqueuePlay exampleRand 1 exampleFullWorld exampleUser exampleGuild exampleColl
        (some (exampleSound "default"))
      = some (exampleFullWorld, .returned (some .dropped))
    ∧ exampleFullWorld.queues = exampleFullWorld.queues
    ∧ exampleFullWorld.trace = exampleFullWorld.trace
    ∧ ∀ (fuel1 : Nat) (current : Play) (vc : Option Nat) (rest : List (List Play)),
        current.ok = true →
        playSound fuel1
            { exampleFullWorld with
              script := [.mk "g" "c" "u" (some (exampleSound "default")) none true] :: rest }
            current vc
          = playSound fuel1 { exampleFullWorld with script := [] :: rest } current vc :=
  enqueuePlay_drop exampleRand 1 exampleFullWorld exampleFullWorld exampleUser exampleGuild
    exampleColl (some (exampleSound "default"))
    (.mk "g" "c" "u" (some (exampleSound "default")) none true)
    ⟨6, [examplePlay (exampleSound "q1"), examplePlay (exampleSound "q2"),
      examplePlay (exampleSound "q3"), examplePlay (exampleSound "q4"),
      examplePlay (exampleSound "q5"), examplePlay (exampleSound "q6")]⟩
    rfl rfl rfl

/-- An instance of C3: a forced play for the idle guild `"g"`. -/
theorem enqueuePlay_fast_path_witness :
    enqueuePlay.registry exampleWorld exampleGuild.ID
        (.mk "g" "c" "u" (some (exampleSound "default")) none true)
      = ({ exampleWorld with
           queues := Function.update exampleWorld.queues exampleGuild.ID
             (some ⟨MAX_QUEUE_SIZE, []⟩) }, .start)
    ∧ (enqueuePlay.registry exampleWorld exampleGuild.ID
        (.mk "g" "c" "u" (some (exampleSound "default")) none true)).1.queues exampleGuild.ID
      = some ⟨MAX_QUEUE_SIZE, []⟩
    ∧ enqueuePlay exampleRand 2 exampleWorld exampleUser exampleGuild exampleColl
        (some (exampleSound "default"))
      = match playSound 2 (enqueuePlay.registry exampleWorld exampleGuild.ID
            (.mk "g" "c" "u" (some (exampleSound "default")) none true)).1
            (.mk "g" "c" "u" (some (exampleSound "default")) none true) none with
        | none => none
        | some (w2, .panicked) => some (w2, .panicked)
        | some (w2, .returned _) => some (w2, .returned (some .start)) :=
  enqueuePlay_fast_path exampleRand 2 exampleWorld exampleWorld exampleUser exampleGuild
    exampleColl (some (exampleSound "default"))
    (.mk "g" "c" "u" (some (exampleSound "default")) none true) rfl rfl

/-- An instance of C10: a join that fails while plays wait in the queue of the guild. -/
theorem playSound_join_failure_witness :
    ∃ w1,
      playSound 1 { exampleFullWorld with joinErr := fun _ _ _ => some (.other "timeout") }
          (examplePlay (exampleSound "a")) none
        = some (w1, .returned (some (.other "timeout")))
      ∧ w1.queues "g" = none
      ∧ w1.trace = [] ++ [.ChannelVoiceJoin "g" "c" (.error (.other "timeout"))]
      ∧ w1.joins = 0 + 1 :=
  playSound_join_failure 0
    { exampleFullWorld with joinErr := fun _ _ _ => some (.other "timeout") }
    (examplePlay (exampleSound "a")) (.other "timeout") rfl

/-- A play with one chained play on an open connection, with an empty queue and no other
goroutine acting: the two sounds, one after the other, then the teardown. -/
theorem playSound_pair (fuel : Nat) (w : World) (play next : Play) (first second : Sound)
    (vc cap : Nat) (g : String)
    (hg : play.GuildID = g) (hng : next.GuildID = g)
    (hs : play.Sound = some first) (hn : play.Next = some next)
    (hns : next.Sound = some second) (hnn : next.Next = none)
    (hscript : w.script = []) (hq : w.queues g = some ⟨cap, []⟩) (hfuel : 2 ≤ fuel) :
    ∃ w1 evs, playSound fuel w play (some vc) = some (w1, .returned none)
      ∧ w1.queues g = none
      ∧ w1.trace = w.trace ++ evs
      ∧ framesSent evs = (first.buffer ++ second.buffer).map (Prod.mk vc)
      ∧ joinCount evs = 0 := by
  obtain ⟨f, rfl⟩ : ∃ f, fuel = f + 2 := ⟨fuel - 2, by omega⟩
  rw [playSound_chained (f + 1) w play next first vc hs hn,
    playSound.stream_some w play first vc hs]
  obtain ⟨w0, evs0, hrun, hnone, hscript0, htrace, hframes, hjoins⟩ :=
    playSound_queue g [] (f + 1)
      { w with vcChannel := Function.update w.vcChannel vc play.ChannelID,
               trace := w.trace ++ streamEvents (w.vcChannel vc) play first vc }
      next second vc cap hng (by simpa using hscript) (by simpa using hq) hns hnn
      (by simp) (by simp)
  rw [hrun]
  simp only
  rw [playSound.drain_eq _ _ _ _ _ g hg, World.interleave_nil _ hscript0]
  simp only [hnone]
  rw [playSound.teardown_quiet _ _ _ _ g hg hscript0]
  refine ⟨_, streamEvents (w.vcChannel vc) play first vc ++ evs0
    ++ [.Sleep first.PartDelay, .Disconnect vc], rfl, by simp, ?_, ?_, ?_⟩
  · simp [htrace]
  · simp [framesSent_append, framesSent_streamEvents, hframes, framesSent]
  · simp [joinCount_append, joinCount_streamEvents, hjoins, joinCount]

/-- On a collection on which the selector is defined `Random` returns one of the clips: the
one its walk finds for the draw of the generator as seeded from the clock. -/
theorem SoundCollection.Random_valid (lib : RandLib) (w : World) (s : SoundCollection)
    (hv : s.valid) :
    ∃ clip, s.Random lib w = (.returned (some clip), (s.Random lib w).2)
      ∧ clip ∈ s.Sounds
      ∧ SoundCollection.Random.walk (lib.Intn (lib.Seed (w.now w.ticks)) s.soundRange).1
          s.Sounds 0 = some clip := by
  obtain ⟨hw, hT, hpos, hint⟩ := hv
  have hr := lib.Intn_range (lib.Seed (w.now w.ticks)) s.soundRange hpos
  have hr2 : isInt (lib.Intn (lib.Seed (w.now w.ticks)) s.soundRange).1 := by
    unfold isInt at hint ⊢
    constructor <;> omega
  obtain ⟨i, clip, hi, hwalk, _, _⟩ :=
    SoundCollection.Random.walk_least (lib.Intn (lib.Seed (w.now w.ticks)) s.soundRange).1
      s.Sounds 0 hw (le_refl _) hr.1 (by rw [hT, zero_add]; exact hint.2)
      (by rw [hT, zero_add]; exact hr.2)
  have hn : ¬ s.soundRange ≤ 0 := by omega
  have h1 : (s.Random lib w).1 = .returned (some clip) := by
    simp only [SoundCollection.Random, randomRange, sub_zero, wrapInt_of_isInt _ hint, hn,
      if_false, add_zero, wrapInt_of_isInt _ hr2, hwalk]
  exact ⟨clip, Prod.ext h1 rfl, List.getElem?_mem hi, hwalk⟩

/-- A play with one chained play on a guild without a queue, with no other goroutine
acting and a join that succeeds: one join, the two sounds, nothing else is sent. -/
theorem enqueuePlay.dispatch_pair (fuel : Nat) (w : World) (guild : Guild) (play next : Play)
    (first second : Sound)
    (hg : play.GuildID = guild.ID) (hng : next.GuildID = guild.ID)
    (hs : play.Sound = some first) (hn : play.Next = some next)
    (hns : next.Sound = some second) (hnn : next.Next = none)
    (hidle : w.queues guild.ID = none) (hscript : w.script = [])
    (hjoin : w.joinErr w.joins play.GuildID play.ChannelID = none) (hfuel : 2 ≤ fuel) :
    ∃ w1 evs, enqueuePlay.dispatch fuel w guild play = some (w1, .returned .start)
      ∧ w1.trace = w.trace ++ evs
      ∧ framesSent evs = (first.buffer ++ second.buffer).map (Prod.mk w.joins)
      ∧ joinCount evs = 1 := by
  obtain ⟨f, rfl⟩ : ∃ f, fuel = f + 1 := ⟨fuel - 1, by omega⟩
  simp only [enqueuePlay.dispatch, enqueuePlay.registry, hidle]
  rw [playSound_join f _ play (by simpa using hjoin)]
  obtain ⟨w1, evs, hrun, _, htrace, hframes, hjoins⟩ :=
    playSound_pair (f + 1)
      { w with queues := Function.update w.queues guild.ID (some ⟨MAX_QUEUE_SIZE, []⟩),
               joins := w.joins + 1,
               trace := w.trace
                   ++ [.ChannelVoiceJoin play.GuildID play.ChannelID (.ok w.joins)],
               vcChannel := Function.update w.vcChannel w.joins play.ChannelID }
      play next first second w.joins MAX_QUEUE_SIZE guild.ID hg hng hs hn hns hnn
      (by simpa using hscript) (by simp) hfuel
  rw [hrun]
  refine ⟨w1, [.ChannelVoiceJoin play.GuildID play.ChannelID (.ok w.joins)] ++ evs, rfl,
    ?_, ?_, ?_⟩
  · rw [htrace]
    simp
  · simp [framesSent_append, hframes, framesSent]
  · simp [joinCount_append, hjoins, joinCount]

/-- C8: a trigger on a collection with a chain partner, by a user found in a voice channel,
on a guild without a queue, with no other goroutine acting and a join that succeeds (the
selectors being defined on the collections they are asked): the worker sends all frames of
the selected clip and then all frames of one clip of the partner, namely the one the
selector of the partner returns for a draw of its own, on the connection of its one join,
and sends no other frame. -/
theorem enqueuePlay_chained (lib : RandLib) (fuel : Nat) (w : World) (user : User)
    (guild : Guild) (coll chain : SoundCollection) (sound : Option Sound) (channel : Channel)
    (hchain : coll.ChainWith = some chain)
    (hvoice : getCurrentVoiceChannel w user guild = some channel)
    (hcoll : sound = none → coll.valid) (hvalid : chain.valid)
    (hidle : w.queues guild.ID = none) (hscript : w.script = [])
    (hjoin : w.joinErr w.joins guild.ID channel.ID = none)
    (hfuel : 2 ≤ fuel) :
    ∃ first second wa w1 evs,
      (match sound with
        | some s => first = s ∧ wa = w
        | none => coll.Random lib w = (.returned (some first), wa))
      ∧ (chain.Random lib wa).1 = .returned (some second)
      ∧ second ∈ chain.Sounds
      ∧ SoundCollection.Random.walk
          (lib.Intn (lib.Seed (wa.now wa.ticks)) chain.soundRange).1 chain.Sounds 0 = some second
      ∧ enqueuePlay lib fuel w user guild coll sound = some (w1, .returned (some .start))
      ∧ w1.trace = w.trace ++ evs
      ∧ framesSent evs = (first.buffer ++ second.buffer).map (Prod.mk w.joins)
      ∧ joinCount evs = 1 := by
  -- the run of the pair, from the world the selectors leave
  have hpair : ∀ (first second : Sound) (forced : Bool) (wb : World), wb.sameProcess w →
      ∃ w1 evs,
        enqueuePlay.dispatch fuel wb guild
            (.mk guild.ID channel.ID user.ID (some first)
              (some (.mk guild.ID channel.ID user.ID (some second) none forced)) forced)
          = some (w1, .returned .start)
        ∧ w1.trace = w.trace ++ evs
        ∧ framesSent evs = (first.buffer ++ second.buffer).map (Prod.mk w.joins)
        ∧ joinCount evs = 1 := by
    intro first second forced wb hsame
    obtain ⟨b1, b2, b3, _, b5, b6, _, _, _⟩ := hsame
    have h := enqueuePlay.dispatch_pair fuel wb guild
      (.mk guild.ID channel.ID user.ID (some first)
        (some (.mk guild.ID channel.ID user.ID (some second) none forced)) forced)
      (.mk guild.ID channel.ID user.ID (some second) none forced) first second
      rfl rfl rfl rfl rfl rfl (by rw [b1]; exact hidle) (by rw [b3]; exact hscript)
      (by rw [b5, b6]; exact hjoin) hfuel
    rw [b2, b6] at h
    exact h
  cases sound with
  | some s =>
    obtain ⟨second, hR, hmem, hwalk⟩ := SoundCollection.Random_valid lib w chain hvalid
    obtain ⟨w1, evs, hrun, htrace, hframes, hjoins⟩ :=
      hpair s second true (chain.Random lib w).2 (SoundCollection.Random_sameProcess lib w chain)
    refine ⟨s, second, w, w1, evs, ⟨rfl, rfl⟩, by rw [hR], hmem, hwalk, ?_, htrace, hframes,
      hjoins⟩
    simp only [enqueuePlay, createPlay, hvoice, hchain]
    rw [hR]
    simp only [hrun]
  | none =>
    obtain ⟨first, hR1, _, _⟩ := SoundCollection.Random_valid lib w coll (hcoll rfl)
    obtain ⟨second, hR, hmem, hwalk⟩ :=
      SoundCollection.Random_valid lib (coll.Random lib w).2 chain hvalid
    obtain ⟨w1, evs, hrun, htrace, hframes, hjoins⟩ :=
      hpair first second false (chain.Random lib (coll.Random lib w).2).2
        (World.sameProcess_trans _ _ _
          (SoundCollection.Random_sameProcess lib (coll.Random lib w).2 chain)
          (SoundCollection.Random_sameProcess lib w coll))
    refine ⟨first, second, (coll.Random lib w).2, w1, evs, hR1, by rw [hR], hmem, hwalk, ?_,
      htrace, hframes, hjoins⟩
    simp only [enqueuePlay, createPlay, hvoice, hchain]
    rw [hR1]
    simp only
    rw [hR]
    simp only [hrun]

/-! ## Theorems: every run of the worker ends with the queue removed -/

/-- What an arrival does to the world: it makes a queue, or it is appended to the queue of
its guild, or nothing changes. -/
theorem World.arrive_cases (w : World) (p : Play) :
    (w.queues p.GuildID = none
        ∧ w.arrive p = { w with
            queues := Function.update w.queues p.GuildID (some ⟨MAX_QUEUE_SIZE, []⟩),
            spawned := w.spawned ++ [p] })
      ∨ (∃ q, w.queues p.GuildID = some q
        ∧ w.arrive p
          = { w with queues := Function.update w.queues p.GuildID (some ⟨q.cap, q.buf ++ [p]⟩) })
      ∨ w.arrive p = w := by
  cases hq : w.queues p.GuildID with
  | none => exact Or.inl ⟨rfl, World.arrive_start w p _ rfl hq⟩
  | some q =>
    by_cases h1 : q.buf.length < MAX_QUEUE_SIZE
    · by_cases h2 : q.buf.length < q.cap
      · exact Or.inr (Or.inl ⟨q, rfl, World.arrive_queued w p _ q rfl hq h1 h2⟩)
      · refine Or.inr (Or.inr ?_)
        simp only [World.arrive, enqueuePlay.registry, hq, h1, h2, if_true, if_false]
    · exact Or.inr (Or.inr (World.arrive_dropped w p _ q rfl hq (by omega)))

/-- What an arrival does to the queue of the guild `g`. -/
theorem World.arrive_queue_at (w : World) (p : Play) (g : String) :
    (w.arrive p).queues g = w.queues g
      ∨ (p.GuildID = g ∧ w.queues g = none
        ∧ (w.arrive p).queues g = some ⟨MAX_QUEUE_SIZE, []⟩)
      ∨ (p.GuildID = g ∧ ∃ q, w.queues g = some q
        ∧ (w.arrive p).queues g = some ⟨q.cap, q.buf ++ [p]⟩) := by
  by_cases hpg : p.GuildID = g
  · subst hpg
    rcases World.arrive_cases w p with ⟨hq, e⟩ | ⟨q, hq, e⟩ | e
    · exact Or.inr (Or.inl ⟨rfl, hq, by rw [e]; simp⟩)
    · exact Or.inr (Or.inr ⟨rfl, q, hq, by rw [e]; simp⟩)
    · exact Or.inl (by rw [e])
  · have hne : g ≠ p.GuildID := fun h => hpg h.symm
    refine Or.inl ?_
    rcases World.arrive_cases w p with ⟨_, e⟩ | ⟨q, _, e⟩ | e
    · rw [e]
      simp [Function.update_noteq hne]
    · rw [e]
      simp [Function.update_noteq hne]
    · rw [e]

/-- An arrival keeps the queue of a guild in order and adds at most its plays to it. -/
theorem World.arrive_okQueue (w : World) (p : Play) (g : String) (hp : p.ok = true)
    (hw : w.okQueue g) :
    (w.arrive p).okQueue g ∧ (w.arrive p).queueCount g ≤ w.queueCount g + p.size
      ∧ (w.arrive p).script = w.script := by
  refine ⟨?_, ?_, (World.arrive_frame w p).2.1⟩
  · intro q1 hq1 x hx
    rcases World.arrive_queue_at w p g with e | ⟨_, _, e⟩ | ⟨hpg, q, hq, e⟩
    · rw [e] at hq1
      exact hw q1 hq1 x hx
    · rw [e] at hq1
      simp only [Option.some.injEq] at hq1
      subst hq1
      simp at hx
    · rw [e] at hq1
      simp only [Option.some.injEq] at hq1
      subst hq1
      simp only [List.mem_append, List.mem_singleton] at hx
      rcases hx with hx | rfl
      · exact hw q hq x hx
      · exact ⟨hp, hpg⟩
  · unfold World.queueCount
    rcases World.arrive_queue_at w p g with e | ⟨_, _, e⟩ | ⟨hpg, q, hq, e⟩
    · rw [e]
      omega
    · rw [e]
      simp [playCount]
    · rw [e, hq]
      simp only [playCount_append, playCount_cons]
      simp [playCount]

theorem World.foldl_arrive_okQueue (batch : List Play) (g : String) :
    ∀ w : World, (∀ p ∈ batch, p.ok = true) → w.okQueue g →
      (batch.foldl World.arrive w).okQueue g
        ∧ (batch.foldl World.arrive w).queueCount g ≤ w.queueCount g + playCount batch
        ∧ (batch.foldl World.arrive w).script = w.script := by
  induction batch with
  | nil =>
    intro w _ hw
    exact ⟨hw, by simp [playCount], rfl⟩
  | cons p ps ih =>
    intro w hb hw
    obtain ⟨h1, h2, h3⟩ := World.arrive_okQueue w p g (hb p (List.mem_cons_self _ _)) hw
    obtain ⟨k1, k2, k3⟩ := ih (w.arrive p) (fun x hx => hb x (List.mem_cons_of_mem _ hx)) h1
    rw [List.foldl_cons]
    refine ⟨k1, ?_, k3.trans h3⟩
    rw [playCount_cons]
    omega

/-- The turn of the other goroutines keeps the world in order and does not add to the plays
that are still to come for the guild. -/
theorem World.interleave_ok (w : World) (g : String) (hs : w.okScript) (hq : w.okQueue g) :
    w.interleave.okScript ∧ w.interleave.okQueue g
      ∧ w.interleave.queueCount g + scriptCount w.interleave.script
        ≤ w.queueCount g + scriptCount w.script := by
  unfold World.interleave
  cases hscript : w.script with
  | nil => exact ⟨hs, hq, by rw [hscript]⟩
  | cons batch rest =>
    simp only
    have hb : ∀ p ∈ batch, p.ok = true := fun p hp =>
      hs batch (by rw [hscript]; exact List.mem_cons_self _ _) p hp
    have hq0 : World.okQueue { w with script := rest } g := hq
    obtain ⟨k1, k2, k3⟩ := World.foldl_arrive_okQueue batch g { w with script := rest } hb hq0
    refine ⟨?_, k1, ?_⟩
    · intro b hb1 p hp
      rw [k3] at hb1
      exact hs b (by rw [hscript]; exact List.mem_cons_of_mem _ hb1) p hp
    · rw [k3]
      have e : World.queueCount { w with script := rest } g = w.queueCount g := rfl
      rw [e] at k2
      simp only [scriptCount, List.map_cons, List.sum_cons]
      omega

/-- The turn of the other goroutines uses up the first batch of the script. -/
theorem World.interleave_script (w : World) : w.interleave.script = w.script.tail := by
  unfold World.interleave
  cases hscript : w.script with
  | nil => simp [hscript]
  | cons batch rest =>
    simp only [List.tail_cons]
    exact (World.foldl_arrive_frame batch { w with script := rest }).2.1

theorem scriptCount_tail_le (script : List (List Play)) :
    scriptCount script.tail ≤ scriptCount script := by
  cases script with
  | nil => simp
  | cons b rest => simp [scriptCount]

/-- The end of `playSound`: the queue of the guild is removed, the trace grows by the pause
and the disconnect. -/
theorem playSound.teardown_spec (w : World) (play : Play) (sound : Sound) (vc : Nat)
    (g : String) (hg : play.GuildID = g) (hs : w.okScript) :
    (playSound.teardown w play sound vc).queues g = none
      ∧ (playSound.teardown w play sound vc).okScript
      ∧ scriptCount (playSound.teardown w play sound vc).script ≤ scriptCount w.script
      ∧ (playSound.teardown w play sound vc).trace
        = w.trace ++ [.Sleep sound.PartDelay, .Disconnect vc] := by
  subst hg
  have hscript : (playSound.teardown w play sound vc).script = w.script.tail := by
    simp only [playSound.teardown, World.emit]
    exact World.interleave_script _
  refine ⟨?_, ?_, ?_, ?_⟩
  · simp [playSound.teardown, World.emit]
  · intro b hb p hp
    rw [hscript] at hb
    exact hs b (List.mem_of_mem_tail hb) p hp
  · rw [hscript]
    exact scriptCount_tail_le _
  · simp only [playSound.teardown, World.emit]
    rw [(World.interleave_frame _).1]
    simp

/-- Every run of a worker on an open connection returns, given fuel for the plays at hand:
the chain of its play, the queue of the guild and the arrivals still to come. The queue of
the guild is removed at the end and the worker asks for no join. -/
theorem playSound_run (g : String) :
    ∀ (fuel : Nat) (w : World) (play : Play) (vc : Nat),
      play.GuildID = g → play.ok = true → w.okScript → w.okQueue g →
      play.size + w.queueCount g + scriptCount w.script ≤ fuel →
      ∃ w1 e evs, playSound fuel w play (some vc) = some (w1, .returned e)
        ∧ w1.queues g = none
        ∧ w1.okScript
        ∧ scriptCount w1.script ≤ scriptCount w.script
        ∧ w1.trace = w.trace ++ evs
        ∧ joinCount evs = 0 := by
  intro fuel
  induction fuel with
  | zero =>
    intro w play vc _ _ _ _ hfuel
    have := Play.size_pos play
    omega
  | succ f ih =>
    intro w play vc hg hok hws hwq hfuel
    obtain ⟨sound, hs⟩ := Play.ok_sound play hok
    -- the queue check, from a world in order
    have hdrain : ∀ w0 : World, w0.okScript → w0.okQueue g →
        w0.queueCount g + scriptCount w0.script ≤ f →
        ∃ w1 e evs, playSound.drain (playSound f) w0 play sound vc = some (w1, .returned e)
          ∧ w1.queues g = none
          ∧ w1.okScript
          ∧ scriptCount w1.script ≤ scriptCount w0.script
          ∧ w1.trace = w0.trace ++ evs
          ∧ joinCount evs = 0 := by
      intro w0 h0s h0q h0f
      obtain ⟨his, hiq, hic⟩ := World.interleave_ok w0 g h0s h0q
      have hitrace := (World.interleave_frame w0).1
      rw [playSound.drain_eq _ _ _ _ _ g hg]
      have hteardown : ∃ w1 e evs,
          (some (playSound.teardown w0.interleave play sound vc, Outcome.returned none)
              : Option (World × Outcome (Option GoError))) = some (w1, .returned e)
            ∧ w1.queues g = none
            ∧ w1.okScript
            ∧ scriptCount w1.script ≤ scriptCount w0.script
            ∧ w1.trace = w0.trace ++ evs
            ∧ joinCount evs = 0 := by
        obtain ⟨t1, t2, t3, t4⟩ := playSound.teardown_spec w0.interleave play sound vc g hg his
        refine ⟨_, none, [.Sleep sound.PartDelay, .Disconnect vc], rfl, t1, t2, ?_, ?_, rfl⟩
        · have := scriptCount_tail_le w0.script
          rw [World.interleave_script] at t3
          have := scriptCount_tail_le w0.script.tail
          omega
        · rw [t4, hitrace]
      cases hq : w0.interleave.queues g with
      | none => exact hteardown
      | some q =>
        obtain ⟨cap, buf⟩ := q
        cases buf with
        | nil => exact hteardown
        | cons p rest =>
          simp only
          obtain ⟨hpok, hpg⟩ := hiq _ hq p (List.mem_cons_self _ _)
          have hcount : w0.interleave.queueCount g = p.size + playCount rest := by
            simp only [World.queueCount, hq, playCount_cons]
          obtain ⟨w1, e, evs, hrun, r1, r2, r3, r4, r5⟩ :=
            ih { w0.interleave with
                 queues := Function.update w0.interleave.queues g (some ⟨cap, rest⟩) }
              p vc hpg hpok his
              (by
                intro q1 hq1 x hx
                simp only [Function.update_same, Option.some.injEq] at hq1
                subst hq1
                exact hiq _ hq x (List.mem_cons_of_mem _ hx))
              (by
                simp only [World.queueCount, Function.update_same]
                omega)
          rw [hrun]
          refine ⟨w1, none, evs, rfl, r1, r2, ?_, ?_, r5⟩
          · have h1 : scriptCount w0.interleave.script ≤ scriptCount w0.script := by
              rw [World.interleave_script]
              exact scriptCount_tail_le _
            exact le_trans r3 h1
          · rw [r4]
            simp only [hitrace]
    -- the world after the sound
    have hstream := playSound.stream_some w play sound vc hs
    have hss : (playSound.stream w play vc).1.okScript := by
      rw [hstream]
      exact hws
    have hsq : (playSound.stream w play vc).1.okQueue g := by
      rw [hstream]
      exact hwq
    have hsc : (playSound.stream w play vc).1.queueCount g = w.queueCount g := by
      rw [hstream]
      rfl
    have hsn : (playSound.stream w play vc).1.script = w.script := by
      rw [hstream]
    have hst : (playSound.stream w play vc).1.trace
        = w.trace ++ streamEvents (w.vcChannel vc) play sound vc := by
      rw [hstream]
    cases hn : play.Next with
    | none =>
      rw [playSound_single f w play sound vc hs hn]
      have hsize := Play.size_single play hn
      obtain ⟨w1, e, evs, hrun, r1, r2, r3, r4, r5⟩ :=
        hdrain _ hss hsq (by rw [hsc, hsn]; omega)
      refine ⟨w1, e, streamEvents (w.vcChannel vc) play sound vc ++ evs, hrun, r1, r2, ?_, ?_,
        ?_⟩
      · rw [← hsn]
        exact r3
      · rw [r4, hst]
        simp
      · simp [joinCount_append, joinCount_streamEvents, r5]
    | some next =>
      rw [playSound_chained f w play next sound vc hs hn]
      obtain ⟨hnok, hng, hsize⟩ := Play.ok_next play next hok hn
      obtain ⟨w0, e0, evs0, hrun0, q1, q2, q3, q4, q5⟩ :=
        ih (playSound.stream w play vc).1 next vc (hng.trans hg) hnok hss hsq
          (by rw [hsc, hsn]; omega)
      rw [hrun0]
      simp only
      have hq0 : w0.okQueue g := by
        intro q hq
        rw [q1] at hq
        simp at hq
      have hc0 : w0.queueCount g = 0 := by
        simp only [World.queueCount, q1]
      obtain ⟨w1, e, evs, hrun, r1, r2, r3, r4, r5⟩ :=
        hdrain w0 q2 hq0 (by rw [hc0]; rw [hsn] at q3; have := Play.size_pos next; omega)
      refine ⟨w1, e, streamEvents (w.vcChannel vc) play sound vc ++ evs0 ++ evs, hrun, r1, r2,
        ?_, ?_, ?_⟩
      · rw [hsn] at q3
        omega
      · rw [r4, q4, hst]
        simp
      · simp [joinCount_append, joinCount_streamEvents, r5, q5]

/-- Every run of a worker returns, given fuel for the plays at hand, with the queue of the
guild removed; it asks for one join when it starts without a connection and for none
otherwise. -/
theorem playSound_run_any (g : String) (fuel : Nat) (w : World) (play : Play)
    (vc : Option Nat)
    (hg : play.GuildID = g) (hok : play.ok = true) (hws : w.okScript) (hwq : w.okQueue g)
    (hfuel : play.size + w.queueCount g + scriptCount w.script ≤ fuel) :
    ∃ w1 e evs, playSound fuel w play vc = some (w1, .returned e)
      ∧ w1.queues g = none
      ∧ w1.okScript
      ∧ scriptCount w1.script ≤ scriptCount w.script
      ∧ w1.trace = w.trace ++ evs
      ∧ joinCount evs = (if vc.isSome then 0 else 1) := by
  cases vc with
  | some c =>
    obtain ⟨w1, e, evs, h1, h2, h3, h4, h5, h6⟩ := playSound_run g fuel w play c hg hok hws hwq hfuel
    exact ⟨w1, e, evs, h1, h2, h3, h4, h5, by simp [h6]⟩
  | none =>
    obtain ⟨f, rfl⟩ : ∃ f, fuel = f + 1 := ⟨fuel - 1, by have := Play.size_pos play; omega⟩
    cases hj : w.joinErr w.joins play.GuildID play.ChannelID with
    | some err =>
      rw [playSound_join_error f w play err hj]
      refine ⟨_, some err, [.ChannelVoiceJoin play.GuildID play.ChannelID (.error err)], rfl,
        by rw [← hg]; simp, ?_, ?_, ?_, by simp [joinCount]⟩
      · intro b hb p hp
        have e : b ∈ (World.interleave { w with
            joins := w.joins + 1,
            trace := w.trace
              ++ [.ChannelVoiceJoin play.GuildID play.ChannelID (.error err)] }).script := hb
        rw [World.interleave_script] at e
        exact hws b (List.mem_of_mem_tail e) p hp
      · have e : ∀ x : World, World.script { x with
            queues := Function.update x.queues play.GuildID none } = x.script := fun _ => rfl
        rw [e, World.interleave_script]
        exact scriptCount_tail_le _
      · simp [(World.interleave_frame _).1]
    | none =>
      rw [playSound_join f w play hj]
      obtain ⟨w1, e, evs, h1, h2, h3, h4, h5, h6⟩ :=
        playSound_run g (f + 1)
          { w with joins := w.joins + 1,
                   trace := w.trace
                     ++ [.ChannelVoiceJoin play.GuildID play.ChannelID (.ok w.joins)],
                   vcChannel := Function.update w.vcChannel w.joins play.ChannelID }
          play w.joins hg hok hws hwq hfuel
      refine ⟨w1, e, [.ChannelVoiceJoin play.GuildID play.ChannelID (.ok w.joins)] ++ evs,
        h1, h2, h3, h4, ?_, ?_⟩
      · rw [h5]
        simp
      · simp [joinCount_append, joinCount, h6]

/-- A play on a guild without a queue: `enqueuePlay` makes the queue, the worker runs and
returns with the queue removed, having asked for one join. -/
theorem enqueuePlay.dispatch_idle (fuel : Nat) (w : World) (guild : Guild) (play : Play)
    (hidle : w.queues guild.ID = none)
    (hg : play.GuildID = guild.ID) (hok : play.ok = true) (hws : w.okScript)
    (hfuel : play.size + scriptCount w.script ≤ fuel) :
    enqueuePlay.registry w guild.ID play
        = ({ w with queues := Function.update w.queues guild.ID (some ⟨MAX_QUEUE_SIZE, []⟩) },
           .start)
      ∧ ∃ w1 evs, enqueuePlay.dispatch fuel w guild play = some (w1, .returned .start)
        ∧ w1.queues guild.ID = none
        ∧ w1.okScript
        ∧ scriptCount w1.script ≤ scriptCount w.script
        ∧ w1.trace = w.trace ++ evs
        ∧ joinCount evs = 1 := by
  have hreg : enqueuePlay.registry w guild.ID play
      = ({ w with queues := Function.update w.queues guild.ID (some ⟨MAX_QUEUE_SIZE, []⟩) },
         .start) := by
    simp only [enqueuePlay.registry, hidle]
  refine ⟨hreg, ?_⟩
  obtain ⟨w1, e, evs, h1, h2, h3, h4, h5, h6⟩ :=
    playSound_run_any guild.ID fuel
      { w with queues := Function.update w.queues guild.ID (some ⟨MAX_QUEUE_SIZE, []⟩) }
      play none hg hok hws
      (by
        intro q hq x hx
        simp only [Function.update_same, Option.some.injEq] at hq
        subst hq
        simp at hx)
      (by
        simp only [World.queueCount, Function.update_same, playCount, List.map_nil,
          List.sum_nil]
        omega)
  refine ⟨w1, evs, ?_, h2, h3, h4, h5, by simpa using h6⟩
  simp only [enqueuePlay.dispatch, hreg, h1]

/-- C9: a worker started by `enqueuePlay` on a guild without a queue returns, whatever
arrives meanwhile, and then the registry has no entry for the guild; the next `enqueuePlay`
for the guild takes the branch of the absent entry again: it makes a new empty queue of
capacity `MAX_QUEUE_SIZE` and runs a new worker, which asks for a join of its own. -/
theorem enqueuePlay_teardown (fuel fuel2 : Nat) (w : World) (guild : Guild)
    (play play2 : Play)
    (hidle : w.queues guild.ID = none)
    (hg : play.GuildID = guild.ID) (hok : play.ok = true)
    (hg2 : play2.GuildID = guild.ID) (hok2 : play2.ok = true)
    (hws : w.okScript)
    (hfuel : play.size + scriptCount w.script ≤ fuel)
    (hfuel2 : play2.size + scriptCount w.script ≤ fuel2) :
    ∃ w1, enqueuePlay.dispatch fuel w guild play = some (w1, .returned .start)
      ∧ w1.queues guild.ID = none
      ∧ enqueuePlay.registry w1 guild.ID play2
        = ({ w1 with queues := Function.update w1.queues guild.ID (some ⟨MAX_QUEUE_SIZE, []⟩) },
           .start)
      ∧ ∃ w2 evs, enqueuePlay.dispatch fuel2 w1 guild play2 = some (w2, .returned .start)
        ∧ w2.queues guild.ID = none
        ∧ w2.trace = w1.trace ++ evs
        ∧ joinCount evs = 1 := by
  obtain ⟨_, w1, evs, h1, h2, h3, h4, _, _⟩ :=
    enqueuePlay.dispatch_idle fuel w guild play hidle hg hok hws hfuel
  obtain ⟨hreg, w2, evs2, k1, k2, _, _, k5, k6⟩ :=
    enqueuePlay.dispatch_idle fuel2 w1 guild play2 h2 hg2 hok2 h3 (by omega)
  exact ⟨w1, h1, h2, hreg, w2, evs2, k1, k2, k5, k6⟩

/-- An instance of C8: a trigger without a clip name on a chained collection, on the idle
guild `"g"`. -/
theorem enqueuePlay_chained_witness :
    ∃ first second wa w1 evs,
      exampleChained.Random exampleRand exampleWorld = (.returned (some first), wa)
      ∧ (exampleChain.Random exampleRand wa).1 = .returned (some second)
      ∧ second ∈ exampleChain.Sounds
      ∧ SoundCollection.Random.walk
          (exampleRand.Intn (exampleRand.Seed (wa.now wa.ticks)) exampleChain.soundRange).1
          exampleChain.Sounds 0 = some second
      ∧ enqueuePlay exampleRand 2 exampleWorld exampleUser exampleGuild exampleChained none
        = some (w1, .returned (some .start))
      ∧ w1.trace = exampleWorld.trace ++ evs
      ∧ framesSent evs = (first.buffer ++ second.buffer).map (Prod.mk exampleWorld.joins)
      ∧ joinCount evs = 1 :=
  enqueuePlay_chained exampleRand 2 exampleWorld exampleUser exampleGuild exampleChained
    exampleChain none ⟨"c", "g"⟩ rfl rfl
    (fun _ => ⟨by decide, by decide, by decide, by decide⟩)
    ⟨by decide, by decide, by decide, by decide⟩ rfl rfl rfl (by decide)

/-- An instance of C9: a play on the idle guild `"g"`, a second play that arrives while the
first is streamed, and a third play after the worker has returned. -/
theorem enqueuePlay_teardown_witness :
    ∃ w1,
      enqueuePlay.dispatch 2 { exampleWorld with script := [[examplePlay (exampleSound "b")]] }
          exampleGuild (examplePlay (exampleSound "a"))
        = some (w1, .returned .start)
      ∧ w1.queues exampleGuild.ID = none
      ∧ enqueuePlay.registry w1 exampleGuild.ID (examplePlay (exampleSound "c"))
        = ({ w1 with
             queues := Function.update w1.queues exampleGuild.ID (some ⟨MAX_QUEUE_SIZE, []⟩) },
           .start)
      ∧ ∃ w2 evs,
        enqueuePlay.dispatch 2 w1 exampleGuild (examplePlay (exampleSound "c"))
          = some (w2, .returned .start)
        ∧ w2.queues exampleGuild.ID = none
        ∧ w2.trace = w1.trace ++ evs
        ∧ joinCount evs = 1 :=
  enqueuePlay_teardown 2 2 { exampleWorld with script := [[examplePlay (exampleSound "b")]] }
    exampleGuild (examplePlay (exampleSound "a")) (examplePlay (exampleSound "c"))
    rfl rfl rfl rfl rfl (by unfold World.okScript; decide) (by decide) (by decide)

/-! ## Theorems: the end of the container -/

/-- At the end of the file, or with one byte left, the read of the length field ends the
loop without an error. -/
theorem Sound.Load.loop_short (stray : List Byte) (buffer : List (List Byte))
    (h : stray.length ≤ 1) :
    Sound.Load.loop ⟨stray, none⟩ buffer = (buffer, .returned none) := by
  rw [Sound.Load.loop]
  have hread : ioReadFull ⟨stray, none⟩ 2
      = (.error (if stray.isEmpty then .EOF else .ErrUnexpectedEOF), ⟨[], none⟩) := by
    unfold ioReadFull
    have h1 : ¬ 2 ≤ stray.length := by omega
    simp [h1]
  split
  · rename_i e f1 heq
    rw [hread] at heq
    simp only [Prod.mk.injEq, Except.error.injEq] at heq
    rw [← heq.1]
    split <;> simp
  · rename_i bs f1 heq
    rw [hread] at heq
    simp at heq

/-- C20: for every list of frames each shorter than 32768 bytes, `Sound.Load` on an empty
buffer over the records of the frames, followed by nothing or by one stray byte, returns
without an error and leaves exactly those frames in the buffer, in their order. -/
theorem Sound.Load_clean_end (fs : String → Except GoError File) (s : Sound)
    (c : SoundCollection) (frames : List (List Byte)) (stray : List Byte)
    (hbuf : s.buffer = [])
    (hlen : ∀ f ∈ frames, f.length < 32768)
    (hstray : stray.length ≤ 1)
    (hfs : fs (s.path c) = .ok ⟨encodeFrames frames ++ stray, none⟩) :
    Sound.Load fs s c = ({ s with buffer := frames }, .returned none) := by
  unfold Sound.Load
  rw [hfs]
  simp only [hbuf, Sound.Load.loop_encodeFrames frames stray none [] hlen,
    Sound.Load.loop_short stray _ hstray, List.nil_append]

/-- An instance of C20: an empty frame, a frame of two bytes and one stray byte. -/
theorem Sound.Load_clean_end_witness :
    Sound.Load (fun _ => .ok ⟨encodeFrames [[], [5, 6]] ++ [9], none⟩)
        (createSound "default" 1000 250) (.mk "airhorn" ["!airhorn"] [] none 0)
      = ({ createSound "default" 1000 250 with buffer := [[], [5, 6]] }, .returned none) :=
  Sound.Load_clean_end (fun _ => .ok ⟨encodeFrames [[], [5, 6]] ++ [9], none⟩)
    (createSound "default" 1000 250) (.mk "airhorn" ["!airhorn"] [] none 0)
    [[], [5, 6]] [9] rfl (by simp) (by decide) rfl

/-! ## Theorems: the seed of the selector -/

/-- The draw of `randomRange` is a function of the clock reading at the call and of the
range: the state in which the generator was does not enter. -/
theorem randomRange_clock (lib : RandLib) (w1 w2 : World) (min max : Int)
    (h : w1.now w1.ticks = w2.now w2.ticks) :
    (randomRange lib w1 min max).1 = (randomRange lib w2 min max).1 := by
  unfold randomRange
  simp only [h]
  split <;> rfl

/-- C18, as the code has it: `randomRange` seeds the generator from the clock on every call,
so the clip that `Random` returns depends only on the collection and on the clock reading
at the call: two calls at the same clock reading return the same clip whatever the states
of the generator. -/
theorem SoundCollection.Random_clock (lib : RandLib) (s : SoundCollection) (w1 w2 : World)
    (h : w1.now w1.ticks = w2.now w2.ticks) :
    (s.Random lib w1).1 = (s.Random lib w2).1
      ∧ (randomRange lib w1 0 s.soundRange).1 = (randomRange lib w2 0 s.soundRange).1 := by
  have hdraw := randomRange_clock lib w1 w2 0 s.soundRange h
  refine ⟨?_, hdraw⟩
  unfold SoundCollection.Random
  rcases h1 : randomRange lib w1 0 s.soundRange with ⟨o1, v1⟩
  rcases h2 : randomRange lib w2 0 s.soundRange with ⟨o2, v2⟩
  rw [h1, h2] at hdraw
  simp only at hdraw
  subst hdraw
  cases o1 <;> rfl

/-- An instance of C18: the same clock reading, two states of the generator. -/
theorem SoundCollection.Random_clock_witness :
    (exampleChain.Random exampleRand { exampleWorld with rng := 1 }).1
        = (exampleChain.Random exampleRand { exampleWorld with rng := 2 }).1
      ∧ (randomRange exampleRand { exampleWorld with rng := 1 } 0 exampleChain.soundRange).1
        = (randomRange exampleRand { exampleWorld with rng := 2 } 0 exampleChain.soundRange).1 :=
  SoundCollection.Random_clock exampleRand exampleChain { exampleWorld with rng := 1 }
    { exampleWorld with rng := 2 } rfl

/-- C18 as stated fails: from the same state of the generator, a call when the clock reads
7 and a call when it reads 8 draw differently and return different clips. -/
theorem SoundCollection.Random_clock_counterexample :
    (exampleChain.Random exampleRand { exampleWorld with rng := 5, now := fun _ => 7 }).1
        = .returned (some (exampleSound "reverb"))
      ∧ (exampleChain.Random exampleRand { exampleWorld with rng := 5, now := fun _ => 8 }).1
        = .returned (some (exampleSound "default")) := by
  constructor <;> rfl

/-! ## Theorems: the play that `createPlay` prepares -/

/-- `createPlay` with a clip, for a user found in the voice channel `channel`. -/
theorem createPlay_forced (lib : RandLib) (w : World) (user : User) (guild : Guild)
    (coll : SoundCollection) (s : Sound) (channel : Channel)
    (hvoice : getCurrentVoiceChannel w user guild = some channel) :
    createPlay lib w user guild coll (some s)
      = match coll.ChainWith with
        | none => (.returned (some (.mk guild.ID channel.ID user.ID (some s) none true)), w)
        | some chain =>
          match chain.Random lib w with
          | (.panicked, w2) => (.panicked, w2)
          | (.returned r, w2) =>
            (.returned (some (.mk guild.ID channel.ID user.ID (some s)
              (some (.mk guild.ID channel.ID user.ID r none true)) true)), w2) := by
  simp only [createPlay, hvoice]

/-- `createPlay` without a clip, for a user found in the voice channel `channel`, when the
selector of the collection returns `r`. -/
theorem createPlay_random (lib : RandLib) (w wa : World) (user : User) (guild : Guild)
    (coll : SoundCollection) (r : Option Sound) (channel : Channel)
    (hvoice : getCurrentVoiceChannel w user guild = some channel)
    (hsel : coll.Random lib w = (.returned r, wa)) :
    createPlay lib w user guild coll none
      = match coll.ChainWith with
        | none => (.returned (some (.mk guild.ID channel.ID user.ID r none false)), wa)
        | some chain =>
          match chain.Random lib wa with
          | (.panicked, w2) => (.panicked, w2)
          | (.returned r2, w2) =>
            (.returned (some (.mk guild.ID channel.ID user.ID r
              (some (.mk guild.ID channel.ID user.ID r2 none false)) false)), w2) := by
  simp only [createPlay, hvoice, hsel]

/-- The shape of what `createPlay` returns once the first clip is settled: the play with
that clip and flag, chained or not. -/
theorem createPlay_shape (lib : RandLib) (wa : World) (guild : Guild) (user : User)
    (coll : SoundCollection) (channel : Channel) (first : Option Sound) (forced : Bool)
    (hchain : ∀ chain, coll.ChainWith = some chain → (chain.Random lib wa).1 ≠ .panicked) :
    ∃ play w1,
      (match coll.ChainWith with
        | none =>
          ((.returned (some (.mk guild.ID channel.ID user.ID first none forced)), wa)
            : Outcome (Option Play) × World)
        | some chain =>
          match chain.Random lib wa with
          | (.panicked, w2) => (.panicked, w2)
          | (.returned r2, w2) =>
            (.returned (some (.mk guild.ID channel.ID user.ID first
              (some (.mk guild.ID channel.ID user.ID r2 none forced)) forced)), w2))
        = (.returned (some play), w1)
      ∧ play.Sound = first ∧ play.Forced = forced ∧ play.GuildID = guild.ID
      ∧ play.ChannelID = channel.ID ∧ play.UserID = user.ID
      ∧ (coll.ChainWith = none → play.Next = none)
      ∧ (∀ chain, coll.ChainWith = some chain →
          ∃ next, play.Next = some next ∧ (chain.Random lib wa).1 = .returned next.Sound
            ∧ next.GuildID = guild.ID ∧ next.ChannelID = channel.ID ∧ next.UserID = user.ID
            ∧ next.Forced = forced ∧ next.Next = none) := by
  cases hcw : coll.ChainWith with
  | none =>
    exact ⟨_, _, rfl, rfl, rfl, rfl, rfl, rfl, fun _ => rfl, fun chain h => by simp at h⟩
  | some chain =>
    have hnp := hchain chain hcw
    rcases hr : chain.Random lib wa with ⟨o, w2⟩
    rw [hr] at hnp
    cases o with
    | panicked => exact absurd rfl hnp
    | returned r2 =>
      refine ⟨.mk guild.ID channel.ID user.ID first
          (some (.mk guild.ID channel.ID user.ID r2 none forced)) forced, w2,
        by simp only [hr], rfl, rfl, rfl, rfl, rfl, fun h => by simp at h, ?_⟩
      intro chain1 h1
      simp only [Option.some.injEq] at h1
      subst h1
      rw [hr]
      exact ⟨_, rfl, rfl, rfl, rfl, rfl, rfl, rfl⟩

/-- The loop of `getCurrentVoiceChannel` stops at the first voice state of the user: the
result is what `discord.State.Channel` answers for the channel of that voice state. -/
theorem getCurrentVoiceChannel_first (w : World) (user : User) (guild : Guild)
    (pre post : List VoiceState) (vs : VoiceState)
    (hstates : guild.VoiceStates = pre ++ vs :: post)
    (hpre : ∀ v ∈ pre, v.UserID ≠ user.ID) (hvs : vs.UserID = user.ID) :
    getCurrentVoiceChannel w user guild = w.channels vs.ChannelID := by
  have hnone : pre.find? (fun v => decide (v.UserID = user.ID)) = none := by
    rw [List.find?_eq_none]
    intro v hv
    simpa using hpre v hv
  have hfind : guild.VoiceStates.find? (fun v => decide (v.UserID = user.ID)) = some vs := by
    rw [hstates, List.find?_append, hnone]
    simp [hvs]
  simp only [getCurrentVoiceChannel, hfind]

/-- C12: for a user whose first voice state in `guild.VoiceStates` is `vs` (no voice state
before it is of the user) and whose voice channel `vs.ChannelID` is the channel `channel`
of the state, `createPlay` with a clip returns a play with exactly that clip and
`Forced = true`; with a nil clip it returns a play whose clip is what the selector of the
collection returns and `Forced = false`; in both cases the play has the id of the guild,
the id of that voice channel of the user and the id of the user. (The selectors that are
asked must return: `rand.Intn` panics on a collection without weight.) -/
theorem createPlay_resolution (lib : RandLib) (w : World) (user : User) (guild : Guild)
    (coll : SoundCollection) (pre post : List VoiceState) (vs : VoiceState) (channel : Channel)
    (hstates : guild.VoiceStates = pre ++ vs :: post)
    (hpre : ∀ v ∈ pre, v.UserID ≠ user.ID) (hvs : vs.UserID = user.ID)
    (hchannel : w.channels vs.ChannelID = some channel) :
    getCurrentVoiceChannel w user guild = some channel
    ∧ (∀ s : Sound,
      (∀ chain, coll.ChainWith = some chain → (chain.Random lib w).1 ≠ .panicked) →
      ∃ play w1, createPlay lib w user guild coll (some s) = (.returned (some play), w1)
        ∧ play.Sound = some s ∧ play.Forced = true
        ∧ play.GuildID = guild.ID ∧ play.ChannelID = channel.ID ∧ play.UserID = user.ID)
    ∧ (∀ (r : Option Sound) (wa : World), coll.Random lib w = (.returned r, wa) →
      (∀ chain, coll.ChainWith = some chain → (chain.Random lib wa).1 ≠ .panicked) →
      ∃ play w1, createPlay lib w user guild coll none = (.returned (some play), w1)
        ∧ play.Sound = r ∧ play.Forced = false
        ∧ play.GuildID = guild.ID ∧ play.ChannelID = channel.ID ∧ play.UserID = user.ID) := by
  have hvoice : getCurrentVoiceChannel w user guild = some channel := by
    rw [getCurrentVoiceChannel_first w user guild pre post vs hstates hpre hvs, hchannel]
  refine ⟨hvoice, ?_, ?_⟩
  · intro s hchain
    obtain ⟨play, w1, h, h1, h2, h3, h4, h5, _, _⟩ :=
      createPlay_shape lib w guild user coll channel (some s) true hchain
    exact ⟨play, w1, by rw [createPlay_forced lib w user guild coll s channel hvoice]; exact h,
      h1, h2, h3, h4, h5⟩
  · intro r wa hsel hchain
    obtain ⟨play, w1, h, h1, h2, h3, h4, h5, _, _⟩ :=
      createPlay_shape lib wa guild user coll channel r false hchain
    exact ⟨play, w1,
      by rw [createPlay_random lib w wa user guild coll r channel hvoice hsel]; exact h,
      h1, h2, h3, h4, h5⟩

/-- An instance of C12: a trigger with a clip and a trigger without one, on a collection
without a chain, in a guild where the user `"u"` is in the voice channel `"c"` and another
user, listed first, is in the voice channel `"d"`. -/
theorem createPlay_resolution_witness :
    (∃ play w1,
      createPlay exampleRand exampleWorld exampleUser ⟨"g", [⟨"v", "d"⟩, ⟨"u", "c"⟩]⟩
          exampleColl (some (exampleSound "reverb")) = (.returned (some play), w1)
        ∧ play.Sound = some (exampleSound "reverb") ∧ play.Forced = true
        ∧ play.GuildID = "g" ∧ play.ChannelID = "c" ∧ play.UserID = "u")
    ∧ (∃ play w1,
      createPlay exampleRand exampleWorld exampleUser ⟨"g", [⟨"v", "d"⟩, ⟨"u", "c"⟩]⟩
          exampleColl none = (.returned (some play), w1)
        ∧ play.Sound = some (exampleSound "default") ∧ play.Forced = false
        ∧ play.GuildID = "g" ∧ play.ChannelID = "c" ∧ play.UserID = "u") :=
  ⟨(createPlay_resolution exampleRand exampleWorld exampleUser ⟨"g", [⟨"v", "d"⟩, ⟨"u", "c"⟩]⟩
      exampleColl [⟨"v", "d"⟩] [] ⟨"u", "c"⟩ ⟨"c", "g"⟩ rfl (by decide) rfl rfl).2.1
      (exampleSound "reverb") (fun _ h => nomatch h),
   (createPlay_resolution exampleRand exampleWorld exampleUser ⟨"g", [⟨"v", "d"⟩, ⟨"u", "c"⟩]⟩
      exampleColl [⟨"v", "d"⟩] [] ⟨"u", "c"⟩ ⟨"c", "g"⟩ rfl (by decide) rfl rfl).2.2
      (some (exampleSound "default"))
      { exampleWorld with ticks := 1, rng := 8 } rfl (fun _ h => nomatch h)⟩

/-- C14: for a user found in a voice channel, on a collection with a chain partner on which
the selector is defined, `createPlay` returns a play whose `Next` is a second play with the
guild, channel and user of the first, whose clip is a clip of the partner, whose `Forced`
flag is that of the first and whose own `Next` is nil; on a collection without a chain
partner the play it returns has a nil `Next`. (With a nil clip the selector of the
collection itself must return.) -/
theorem createPlay_chain (lib : RandLib) (w : World) (user : User) (guild : Guild)
    (coll : SoundCollection) (sound : Option Sound) (channel : Channel)
    (hvoice : getCurrentVoiceChannel w user guild = some channel)
    (hfirst : sound = none → (coll.Random lib w).1 ≠ .panicked) :
    (∀ chain, coll.ChainWith = some chain → chain.valid →
      ∃ play next clip w1,
        createPlay lib w user guild coll sound = (.returned (some play), w1)
        ∧ play.Next = some next
        ∧ next.GuildID = play.GuildID ∧ next.ChannelID = play.ChannelID
        ∧ next.UserID = play.UserID
        ∧ next.Sound = some clip ∧ clip ∈ chain.Sounds
        ∧ next.Forced = play.Forced
        ∧ next.Next = none)
    ∧ (coll.ChainWith = none →
      ∃ play w1, createPlay lib w user guild coll sound = (.returned (some play), w1)
        ∧ play.Next = none) := by
  -- the first clip and the world it leaves
  have hsettled : ∃ (first : Option Sound) (forced : Bool) (wa : World),
      createPlay lib w user guild coll sound
        = match coll.ChainWith with
          | none => (.returned (some (.mk guild.ID channel.ID user.ID first none forced)), wa)
          | some chain =>
            match chain.Random lib wa with
            | (.panicked, w2) => (.panicked, w2)
            | (.returned r2, w2) =>
              (.returned (some (.mk guild.ID channel.ID user.ID first
                (some (.mk guild.ID channel.ID user.ID r2 none forced)) forced)), w2) := by
    cases sound with
    | some s => exact ⟨some s, true, w, createPlay_forced lib w user guild coll s channel hvoice⟩
    | none =>
      have hnp := hfirst rfl
      rcases hr : coll.Random lib w with ⟨o, wa⟩
      rw [hr] at hnp
      cases o with
      | panicked => exact absurd rfl hnp
      | returned r =>
        exact ⟨r, false, wa, createPlay_random lib w wa user guild coll r channel hvoice hr⟩
  obtain ⟨first, forced, wa, hcreate⟩ := hsettled
  constructor
  · intro chain hcw hvalid
    obtain ⟨clip, hR, hmem, _⟩ := SoundCollection.Random_valid lib wa chain hvalid
    obtain ⟨play, w1, h, _, h2, h3, h4, h5, _, hnext⟩ :=
      createPlay_shape lib wa guild user coll channel first forced
        (by
          intro chain1 h1
          rw [hcw] at h1
          simp only [Option.some.injEq] at h1
          subst h1
          rw [hR]
          simp)
    obtain ⟨next, n1, n2, n3, n4, n5, n6, n7⟩ := hnext chain hcw
    rw [hR] at n2
    simp only [Outcome.returned.injEq] at n2
    exact ⟨play, next, clip, w1, hcreate.trans h, n1, n3.trans h3.symm, n4.trans h4.symm,
      n5.trans h5.symm, n2.symm, hmem, n6.trans h2.symm, n7⟩
  · intro hcw
    obtain ⟨play, w1, h, _, _, _, _, _, hnone, _⟩ :=
      createPlay_shape lib wa guild user coll channel first forced
        (by
          intro chain1 h1
          rw [hcw] at h1
          simp at h1)
    exact ⟨play, w1, hcreate.trans h, hnone hcw⟩

/-- An instance of C14: a trigger without a clip on a chained collection and a trigger with
a clip on a collection without a chain. -/
theorem createPlay_chain_witness :
    (∃ play next clip w1,
      createPlay exampleRand exampleWorld exampleUser exampleGuild exampleChained none
          = (.returned (some play), w1)
        ∧ play.Next = some next
        ∧ next.GuildID = play.GuildID ∧ next.ChannelID = play.ChannelID
        ∧ next.UserID = play.UserID
        ∧ next.Sound = some clip ∧ clip ∈ exampleChain.Sounds
        ∧ next.Forced = play.Forced
        ∧ next.Next = none)
    ∧ (∃ play w1,
      createPlay exampleRand exampleWorld exampleUser exampleGuild exampleColl
          (some (exampleSound "default")) = (.returned (some play), w1)
        ∧ play.Next = none) :=
  ⟨(createPlay_chain exampleRand exampleWorld exampleUser exampleGuild exampleChained none
      ⟨"c", "g"⟩ rfl (fun _ => by decide)).1 exampleChain rfl
      ⟨by decide, by decide, by decide, by decide⟩,
   (createPlay_chain exampleRand exampleWorld exampleUser exampleGuild exampleColl
      (some (exampleSound "default")) ⟨"c", "g"⟩ rfl (fun h => nomatch h)).2 rfl⟩

/-! ## Theorems: loading a collection -/

/-- `Sound.Load` on an empty buffer over a container of complete records. -/
theorem Sound.Load_complete (fs : String → Except GoError File) (s : Sound)
    (c : SoundCollection) (frames : List (List Byte))
    (hbuf : s.buffer = [])
    (hlen : ∀ f ∈ frames, f.length < 32768)
    (hfs : fs (s.path c) = .ok ⟨encodeFrames frames, none⟩) :
    Sound.Load fs s c = ({ s with buffer := frames }, .returned none) := by
  unfold Sound.Load
  rw [hfs]
  have h := Sound.Load.loop_encodeFrames frames [] none [] hlen
  rw [List.append_nil] at h
  simp only [hbuf, h, Sound.Load.loop_nil, List.nil_append]

/-- `Sound.Load` changes the buffer of the sound only. -/
theorem Sound.Load_fields (fs : String → Except GoError File) (s : Sound)
    (c : SoundCollection) :
    (Sound.Load fs s c).1.Name = s.Name ∧ (Sound.Load fs s c).1.Weight = s.Weight
      ∧ (Sound.Load fs s c).1.PartDelay = s.PartDelay := by
  unfold Sound.Load
  split <;> exact ⟨rfl, rfl, rfl⟩

/-- The loop of `SoundCollection.Load` when no `Sound.Load` panics: every sound is put
through `Sound.Load` and stays in its place, and every weight is added. -/
theorem SoundCollection.Load.loop_spec (fs : String → Except GoError File)
    (sc : SoundCollection) (sounds : List Sound) :
    ∀ r : Int, (∀ s ∈ sounds, (Sound.Load fs s sc).2 ≠ .panicked) →
      SoundCollection.Load.loop fs sc sounds r
        = .returned (sounds.map (fun s => (Sound.Load fs s sc).1),
            sounds.foldl (fun r s => wrapInt (r + s.Weight)) r) := by
  induction sounds with
  | nil =>
    intro r _
    rfl
  | cons x xs ih =>
    intro r h
    have hx := h x (List.mem_cons_self _ _)
    have hxs := ih (wrapInt (r + x.Weight)) (fun s hs => h s (List.mem_cons_of_mem _ hs))
    rcases hl : Sound.Load fs x sc with ⟨x1, o⟩
    rw [hl] at hx
    cases o with
    | panicked => exact absurd rfl hx
    | returned e =>
      simp only [SoundCollection.Load.loop, hl, hxs, List.map_cons, List.foldl_cons]

/-- The sum that `SoundCollection.Load` computes is the sum of the weights when that sum is
a Go `int`. -/
theorem foldl_wrapInt_weights (sounds : List Sound) :
    ∀ r : Int, (∀ s ∈ sounds, 0 ≤ s.Weight) → 0 ≤ r → r + weightSum sounds < 2 ^ 63 →
      sounds.foldl (fun r s => wrapInt (r + s.Weight)) r = r + weightSum sounds := by
  induction sounds with
  | nil =>
    intro r _ _ _
    simp [weightSum]
  | cons x xs ih =>
    intro r hw h0 hmax
    have hx := hw x (List.mem_cons_self _ _)
    have hxs : ∀ s ∈ xs, 0 ≤ s.Weight := fun s hs => hw s (List.mem_cons_of_mem _ hs)
    have hsum := weightSum_nonneg xs hxs
    rw [weightSum_cons] at hmax
    have hint : isInt (r + x.Weight) := by
      unfold isInt
      constructor <;> omega
    rw [List.foldl_cons, wrapInt_of_isInt _ hint, ih (r + x.Weight) hxs (by omega) (by omega),
      weightSum_cons]
    ring

/-- The walk of `Random` returns the clip in whose interval the draw lies. -/
theorem SoundCollection.Random.walk_at (d : Int) (pre post : List Sound) (x : Sound) :
    ∀ acc : Int, (∀ s ∈ pre ++ x :: post, 0 ≤ s.Weight) → 0 ≤ acc →
      acc + weightSum (pre ++ x :: post) < 2 ^ 63 →
      acc + weightSum pre ≤ d → d < acc + weightSum pre + x.Weight →
      SoundCollection.Random.walk d (pre ++ x :: post) acc = some x := by
  induction pre with
  | nil =>
    intro acc hw h0 hmax hle hlt
    have hx := hw x (by simp)
    have hpost : 0 ≤ weightSum post :=
      weightSum_nonneg post (fun s hs => hw s (by simp [hs]))
    simp only [List.nil_append, weightSum_cons] at hmax
    simp only [weightSum, List.map_nil, List.sum_nil, add_zero] at hlt
    have hint : isInt (acc + x.Weight) := by
      unfold isInt
      constructor <;> omega
    rw [List.nil_append, SoundCollection.Random.walk_cons _ _ _ _ hint, if_pos hlt]
  | cons y ys ih =>
    intro acc hw h0 hmax hle hlt
    have hy := hw y (by simp)
    have hrest : ∀ s ∈ ys ++ x :: post, 0 ≤ s.Weight := fun s hs =>
      hw s (by simp only [List.cons_append, List.mem_cons]; exact Or.inr hs)
    have hsum := weightSum_nonneg _ hrest
    have hys : 0 ≤ weightSum ys :=
      weightSum_nonneg ys (fun s hs => hrest s (by simp [hs]))
    simp only [List.cons_append, weightSum_cons] at hmax hle hlt
    have hint : isInt (acc + y.Weight) := by
      unfold isInt
      constructor <;> omega
    have hnot : ¬ d < acc + y.Weight := by omega
    rw [List.cons_append, SoundCollection.Random.walk_cons _ _ _ _ hint, if_neg hnot]
    exact ih (acc + y.Weight) hrest (by omega) (by omega) (by omega) (by omega)

theorem weightSum_append (xs ys : List Sound) :
    weightSum (xs ++ ys) = weightSum xs + weightSum ys := by
  simp [weightSum]

theorem weightSum_map_load (fs : String → Except GoError File) (sc : SoundCollection)
    (sounds : List Sound) :
    weightSum (sounds.map (fun s => (Sound.Load fs s sc).1)) = weightSum sounds := by
  induction sounds with
  | nil => rfl
  | cons x xs ih =>
    rw [List.map_cons, weightSum_cons, weightSum_cons, ih, (Sound.Load_fields fs x sc).2.1]

/-- `SoundCollection.Load` on a collection in which `Sound.Load` fails with an error for the
clip `bad` and reads a container of complete records for every other clip. -/
theorem SoundCollection.Load_spec (fs : String → Except GoError File)
    (sc : SoundCollection) (pre post : List Sound) (bad : Sound) (err : GoError)
    (frames : Sound → List (List Byte))
    (hsounds : sc.Sounds = pre ++ bad :: post)
    (hbad : (Sound.Load fs bad sc).2 = .returned (some err))
    (hgood : ∀ s ∈ pre ++ post, s.buffer = [] ∧ (∀ f ∈ frames s, f.length < 32768)
      ∧ fs (s.path sc) = .ok ⟨encodeFrames (frames s), none⟩)
    (hw : ∀ s ∈ sc.Sounds, 0 ≤ s.Weight)
    (hrange : sc.soundRange = 0) (hint : isInt (weightSum sc.Sounds)) :
    ∃ sc1, sc.Load fs = .returned sc1
      ∧ sc1 = .mk sc.Prefix sc.Commands
          (pre.map (fun s => { s with buffer := frames s })
            ++ (Sound.Load fs bad sc).1 :: post.map (fun s => { s with buffer := frames s }))
          sc.ChainWith (weightSum pre + bad.Weight + weightSum post)
      ∧ sc1.Sounds = pre.map (fun s => { s with buffer := frames s })
          ++ (Sound.Load fs bad sc).1 :: post.map (fun s => { s with buffer := frames s })
      ∧ (Sound.Load fs bad sc).1.Name = bad.Name
      ∧ (Sound.Load fs bad sc).1.Weight = bad.Weight
      ∧ sc1.soundRange = weightSum pre + bad.Weight + weightSum post
      ∧ (∀ d : Int, weightSum pre ≤ d → d < weightSum pre + bad.Weight →
          SoundCollection.Random.walk d sc1.Sounds 0 = some (Sound.Load fs bad sc).1)
      ∧ (∀ (i : Nat) (x : Sound), sc1.Sounds[i]? = some x →
          ∀ d : Int, weightSum (sc1.Sounds.take i) ≤ d →
            d < weightSum (sc1.Sounds.take i) + x.Weight →
            SoundCollection.Random.walk d sc1.Sounds 0 = some x) := by
  -- no `Sound.Load` panics
  have hgoodLoad : ∀ s ∈ pre ++ post,
      Sound.Load fs s sc = ({ s with buffer := frames s }, .returned none) := by
    intro s hs
    obtain ⟨h1, h2, h3⟩ := hgood s hs
    exact Sound.Load_complete fs s sc (frames s) h1 h2 h3
  have hnp : ∀ s ∈ sc.Sounds, (Sound.Load fs s sc).2 ≠ .panicked := by
    intro s hs
    rw [hsounds] at hs
    simp only [List.mem_append, List.mem_cons] at hs
    rcases hs with hs | rfl | hs
    · rw [hgoodLoad s (by simp [hs])]
      simp
    · rw [hbad]
      simp
    · rw [hgoodLoad s (by simp [hs])]
      simp
  have hloop := SoundCollection.Load.loop_spec fs sc sc.Sounds sc.soundRange hnp
  have hsum : sc.Sounds.foldl (fun r s => wrapInt (r + s.Weight)) sc.soundRange
      = weightSum sc.Sounds := by
    rw [hrange, foldl_wrapInt_weights sc.Sounds 0 hw (le_refl _) (by rw [zero_add]; exact hint.2),
      zero_add]
  rw [hsum] at hloop
  -- the sounds after loading
  have hmap : sc.Sounds.map (fun s => (Sound.Load fs s sc).1)
      = pre.map (fun s => { s with buffer := frames s })
        ++ (Sound.Load fs bad sc).1 :: post.map (fun s => { s with buffer := frames s }) := by
    rw [hsounds, List.map_append, List.map_cons]
    congr 1
    · apply List.map_congr_left
      intro s hs
      rw [hgoodLoad s (by simp [hs])]
    · congr 1
      apply List.map_congr_left
      intro s hs
      rw [hgoodLoad s (by simp [hs])]
  have hfields := Sound.Load_fields fs bad sc
  have htotal : weightSum sc.Sounds = weightSum pre + bad.Weight + weightSum post := by
    rw [hsounds, weightSum_append, weightSum_cons]
    ring
  -- the selector on the loaded sounds
  have hw1 : ∀ s ∈ sc.Sounds.map (fun s => (Sound.Load fs s sc).1), 0 ≤ s.Weight := by
    intro s hs
    obtain ⟨s0, hs0, rfl⟩ := List.mem_map.mp hs
    rw [(Sound.Load_fields fs s0 sc).2.1]
    exact hw s0 hs0
  have hsel : ∀ (i : Nat) (x : Sound),
      (sc.Sounds.map (fun s => (Sound.Load fs s sc).1))[i]? = some x →
      ∀ d : Int, weightSum ((sc.Sounds.map (fun s => (Sound.Load fs s sc).1)).take i) ≤ d →
        d < weightSum ((sc.Sounds.map (fun s => (Sound.Load fs s sc).1)).take i) + x.Weight →
        SoundCollection.Random.walk d (sc.Sounds.map (fun s => (Sound.Load fs s sc).1)) 0
          = some x := by
    intro i x hi d hle hlt
    have hlen : i < (sc.Sounds.map (fun s => (Sound.Load fs s sc).1)).length := by
      rcases Nat.lt_or_ge i (sc.Sounds.map (fun s => (Sound.Load fs s sc).1)).length with h | h
      · exact h
      · rw [List.getElem?_eq_none h] at hi
        simp at hi
    have hget : (sc.Sounds.map (fun s => (Sound.Load fs s sc).1))[i] = x := by
      rw [List.getElem?_eq_getElem hlen] at hi
      simpa using hi
    have hsplit : sc.Sounds.map (fun s => (Sound.Load fs s sc).1)
        = (sc.Sounds.map (fun s => (Sound.Load fs s sc).1)).take i
          ++ x :: (sc.Sounds.map (fun s => (Sound.Load fs s sc).1)).drop (i + 1) := by
      conv_lhs => rw [← List.take_append_drop i (sc.Sounds.map (fun s => (Sound.Load fs s sc).1))]
      rw [List.drop_eq_getElem_cons hlen, hget]
    rw [hsplit]
    apply SoundCollection.Random.walk_at
    · rw [← hsplit]
      exact hw1
    · exact le_refl _
    · rw [← hsplit, weightSum_map_load, zero_add]
      exact hint.2
    · rw [zero_add]
      exact hle
    · rw [zero_add]
      exact hlt
  refine ⟨.mk sc.Prefix sc.Commands (sc.Sounds.map (fun s => (Sound.Load fs s sc).1))
      sc.ChainWith (weightSum sc.Sounds), ?_, ?_, hmap, hfields.1, hfields.2.1, htotal, ?_,
      hsel⟩
  · simp only [SoundCollection.Load, hloop]
  · rw [hmap, htotal]
  · intro d hle hlt
    have hlen : (pre.map (fun s : Sound => ({ s with buffer := frames s } : Sound))).length
        = pre.length := List.length_map _ _
    have htake : weightSum ((sc.Sounds.map (fun s => (Sound.Load fs s sc).1)).take pre.length)
        = weightSum pre := by
      rw [← List.map_take, weightSum_map_load, hsounds, List.take_left']
      rfl
    apply hsel pre.length
    · change (sc.Sounds.map (fun s => (Sound.Load fs s sc).1))[pre.length]? = _
      rw [hmap, List.getElem?_append_right (by rw [hlen]), hlen]
      simp
    · change weightSum ((sc.Sounds.map (fun s => (Sound.Load fs s sc).1)).take pre.length) ≤ d
      rw [htake]
      exact hle
    · change d < weightSum ((sc.Sounds.map (fun s => (Sound.Load fs s sc).1)).take pre.length)
        + _
      rw [htake, hfields.2.1]
      exact hlt

/-- C16, as the code has it: when the container of one clip cannot be opened or read,
`SoundCollection.Load` does not skip the clip. It stays in its place in the collection with
the frames read before the failure, its weight is part of `soundRange`, and the selector
returns it for the draws of its interval; every other clip is loaded with its full frame
sequence, and every clip of the collection is returned for the draws of its interval. -/
theorem SoundCollection.Load_failure (fs : String → Except GoError File)
    (sc : SoundCollection) (pre post : List Sound) (bad : Sound) (err : GoError)
    (frames : Sound → List (List Byte))
    (hsounds : sc.Sounds = pre ++ bad :: post)
    (hbad : (Sound.Load fs bad sc).2 = .returned (some err))
    (hgood : ∀ s ∈ pre ++ post, s.buffer = [] ∧ (∀ f ∈ frames s, f.length < 32768)
      ∧ fs (s.path sc) = .ok ⟨encodeFrames (frames s), none⟩)
    (hw : ∀ s ∈ sc.Sounds, 0 ≤ s.Weight)
    (hrange : sc.soundRange = 0) (hint : isInt (weightSum sc.Sounds)) :
    ∃ sc1, sc.Load fs = .returned sc1
      ∧ sc1.Sounds = pre.map (fun s => { s with buffer := frames s })
          ++ (Sound.Load fs bad sc).1 :: post.map (fun s => { s with buffer := frames s })
      ∧ (Sound.Load fs bad sc).1.Name = bad.Name
      ∧ (Sound.Load fs bad sc).1.Weight = bad.Weight
      ∧ sc1.soundRange = weightSum pre + bad.Weight + weightSum post
      ∧ (∀ d : Int, weightSum pre ≤ d → d < weightSum pre + bad.Weight →
          SoundCollection.Random.walk d sc1.Sounds 0 = some (Sound.Load fs bad sc).1)
      ∧ (∀ (i : Nat) (x : Sound), sc1.Sounds[i]? = some x →
          ∀ d : Int, weightSum (sc1.Sounds.take i) ≤ d →
            d < weightSum (sc1.Sounds.take i) + x.Weight →
            SoundCollection.Random.walk d sc1.Sounds 0 = some x) := by
  obtain ⟨sc1, h1, _, h3, h4, h5, h6, h7, h8⟩ :=
    SoundCollection.Load_spec fs sc pre post bad err frames hsounds hbad hgood hw hrange hint
  exact ⟨sc1, h1, h3, h4, h5, h6, h7, h8⟩

/-- The clips of `exampleUnloaded` other than `a` have a container with the frame `[1]`. -/
theorem exampleFiles_good :
    ∀ s ∈ ([] : List Sound) ++ [createSound "b" 1 250],
      s.buffer = [] ∧ (∀ f ∈ (fun _ : Sound => ([[1]] : List (List Byte))) s, f.length < 32768)
        ∧ exampleFiles (s.path exampleUnloaded)
          = .ok ⟨encodeFrames ((fun _ : Sound => ([[1]] : List (List Byte))) s), none⟩ := by
  intro s hs
  simp only [List.nil_append, List.mem_singleton] at hs
  subst hs
  exact ⟨rfl, by simp, rfl⟩

/-- An instance of C16: the container of the first of two clips is missing. -/
theorem SoundCollection.Load_failure_witness :
    ∃ sc1, exampleUnloaded.Load exampleFiles = .returned sc1
      ∧ sc1.Sounds = ([] : List Sound).map (fun s => { s with buffer := [[1]] })
          ++ (Sound.Load exampleFiles (createSound "a" 1 250) exampleUnloaded).1
            :: [createSound "b" 1 250].map (fun s => { s with buffer := [[1]] })
      ∧ (Sound.Load exampleFiles (createSound "a" 1 250) exampleUnloaded).1.Name
        = (createSound "a" 1 250).Name
      ∧ (Sound.Load exampleFiles (createSound "a" 1 250) exampleUnloaded).1.Weight
        = (createSound "a" 1 250).Weight
      ∧ sc1.soundRange
        = weightSum [] + (createSound "a" 1 250).Weight + weightSum [createSound "b" 1 250]
      ∧ (∀ d : Int, weightSum [] ≤ d → d < weightSum [] + (createSound "a" 1 250).Weight →
          SoundCollection.Random.walk d sc1.Sounds 0
            = some (Sound.Load exampleFiles (createSound "a" 1 250) exampleUnloaded).1)
      ∧ (∀ (i : Nat) (x : Sound), sc1.Sounds[i]? = some x →
          ∀ d : Int, weightSum (sc1.Sounds.take i) ≤ d →
            d < weightSum (sc1.Sounds.take i) + x.Weight →
            SoundCollection.Random.walk d sc1.Sounds 0 = some x) :=
  SoundCollection.Load_failure exampleFiles exampleUnloaded [] [createSound "b" 1 250]
    (createSound "a" 1 250) (.other "no such file") (fun _ => [[1]]) rfl rfl
    exampleFiles_good (by decide) rfl (by decide)

/-- C16 as stated fails: the container of the clip `a` cannot be opened, and after
`SoundCollection.Load` the clip is still in the collection, its weight 1 is part of the
total 2, and the selector returns it for the draw 0. -/
theorem SoundCollection.Load_failure_counterexample :
    exampleUnloaded.Load exampleFiles
        = .returned (.mk "x" ["!x"]
            [createSound "a" 1 250, { createSound "b" 1 250 with buffer := [[1]] }] none 2)
      ∧ SoundCollection.Random.walk 0
          [createSound "a" 1 250, { createSound "b" 1 250 with buffer := [[1]] }] 0
        = some (createSound "a" 1 250) := by
  obtain ⟨sc1, h1, h2, _⟩ :=
    SoundCollection.Load_spec exampleFiles exampleUnloaded [] [createSound "b" 1 250]
      (createSound "a" 1 250) (.other "no such file") (fun _ => [[1]]) rfl rfl
      exampleFiles_good (by decide) rfl (by decide)
  constructor
  · rw [h1, h2]
    rfl
  · decide

/-! ## Theorems: the end of a chained play -/

/-- C11 at a chained play: the trigger `!anotha` without a clip name on the idle guild
`"g"`, with no other request. The worker (`playSound` called with `vc = nil`, the join
succeeds) streams the clip `one` and, through the call `playSound(play.Next, vc)`, the clip
`reverb`; that inner call finds the queue empty, pauses, removes the queue and
disconnects, and after it has returned the outer call finds no queue, pauses, removes the
queue and disconnects once more: the trace has two `Disconnect` calls on the one
connection and two pauses of the clip delay. -/
theorem playSound_chained_disconnect :
    ∃ w1,
      enqueuePlay exampleRand 3 exampleWorld exampleUser exampleGuild exampleChained none
        = some (w1, .returned (some .start))
      ∧ w1.trace =
        [.ChannelVoiceJoin "g" "c" (.ok 0),
         .trackSoundStats (.mk "g" "c" "u" (some (exampleSound "one"))
           (some (.mk "g" "c" "u" (some (exampleSound "reverb")) none false)) false),
         .Sleep 32, .Speaking 0 true, .OpusSend 0 [1, 2], .OpusSend 0 [3], .Speaking 0 false,
         .trackSoundStats (.mk "g" "c" "u" (some (exampleSound "reverb")) none false),
         .Sleep 32, .Speaking 0 true, .OpusSend 0 [1, 2], .OpusSend 0 [3], .Speaking 0 false,
         .Sleep 250, .Disconnect 0,
         .Sleep 250, .Disconnect 0]
      ∧ disconnectCount w1.trace = 2
      ∧ w1.queues "g" = none :=
  ⟨_, rfl, rfl, rfl, rfl⟩

/-! ## Theorems: the stats dispatch of each play -/

theorem statsLog_append (xs ys : List Event) :
    statsLog (xs ++ ys) = statsLog xs ++ statsLog ys := by
  induction xs with
  | nil => rfl
  | cons e es ih => cases e <;> simp [statsLog, ih]

theorem statsLog_map_OpusSend (vc : Nat) (buffer : List (List Byte)) :
    statsLog (buffer.map (.OpusSend vc)) = buffer.map .inr := by
  induction buffer with
  | nil => rfl
  | cons b bs ih => simp [statsLog, ih]

/-- The log of the middle of `playSound`: the dispatch for the play, then its frames. -/
theorem statsLog_streamEvents (current : String) (play : Play) (sound : Sound) (vc : Nat)
    (hs : play.Sound = some sound) :
    statsLog (streamEvents current play sound vc) = play.block := by
  unfold streamEvents Play.block Play.frames
  rw [hs]
  split <;> simp [statsLog_append, statsLog_map_OpusSend, statsLog]

theorem Play.chain_single (play : Play) (hn : play.Next = none) : play.chain = [play] := by
  obtain ⟨g, c, u, s, n, f⟩ := play
  cases n with
  | none => rfl
  | some n => simp [Play.Next] at hn

theorem Play.chain_next (play next : Play) (hn : play.Next = some next) :
    play.chain = play :: next.chain := by
  obtain ⟨g, c, u, s, n, f⟩ := play
  cases n with
  | none => simp [Play.Next] at hn
  | some n =>
    simp only [Play.Next, Option.some.injEq] at hn
    subst hn
    rfl

/-- The trace after the end of `playSound`. -/
theorem playSound.teardown_trace (w : World) (play : Play) (sound : Sound) (vc : Nat) :
    (playSound.teardown w play sound vc).trace
      = w.trace ++ [.Sleep sound.PartDelay, .Disconnect vc] := by
  have h := (World.interleave_frame (w.emit (.Sleep sound.PartDelay))).1
  simp only [playSound.teardown, World.emit] at h ⊢
  rw [h]
  simp

/-- The log of a run of the worker on an open connection that returns: block after block,
first the plays of the chain of its play, then the plays it took from the queue. -/
theorem playSound_log :
    ∀ (fuel : Nat) (w : World) (play : Play) (vc : Nat) (w1 : World) (e : Option GoError),
      playSound fuel w play (some vc) = some (w1, .returned e) →
      ∃ evs plays, w1.trace = w.trace ++ evs
        ∧ statsLog evs = ((play.chain ++ plays).map Play.block).flatten := by
  intro fuel
  induction fuel with
  | zero =>
    intro w play vc w1 e h
    simp [playSound] at h
  | succ f ih =>
    intro w play vc w1 e h
    cases hs : play.Sound with
    | none =>
      rw [playSound] at h
      simp [hs] at h
    | some sound =>
      have hstream := playSound.stream_some w play sound vc hs
      -- the queue check, from a world whose trace is known
      have hdrain : ∀ (w0 w2 : World) (e2 : Option GoError),
          playSound.drain (playSound f) w0 play sound vc = some (w2, .returned e2) →
          ∃ (evs : List Event) (plays : List Play), w2.trace = w0.trace ++ evs
            ∧ statsLog evs = (plays.map Play.block).flatten := by
        intro w0 w2 e2 h2
        rw [playSound.drain_eq _ _ _ _ _ play.GuildID rfl] at h2
        have hi := (World.interleave_frame w0).1
        have hteardown :
            (some (playSound.teardown w0.interleave play sound vc, Outcome.returned none)
              : Option (World × Outcome (Option GoError))) = some (w2, .returned e2) →
            ∃ (evs : List Event) (plays : List Play), w2.trace = w0.trace ++ evs
              ∧ statsLog evs = (plays.map Play.block).flatten := by
          intro h3
          simp only [Option.some.injEq, Prod.mk.injEq] at h3
          refine ⟨[.Sleep sound.PartDelay, .Disconnect vc], [], ?_, rfl⟩
          rw [← h3.1, playSound.teardown_trace, hi]
        cases hq : w0.interleave.queues play.GuildID with
        | none =>
          rw [hq] at h2
          exact hteardown h2
        | some q =>
          obtain ⟨cap, buf⟩ := q
          cases buf with
          | nil =>
            rw [hq] at h2
            exact hteardown h2
          | cons p rest =>
            rw [hq] at h2
            simp only at h2
            cases hr : playSound f { w0.interleave with
                queues := Function.update w0.interleave.queues play.GuildID (some ⟨cap, rest⟩) }
                p (some vc) with
            | none => simp [hr] at h2
            | some r =>
              obtain ⟨w3, o⟩ := r
              cases o with
              | panicked => simp [hr] at h2
              | returned e3 =>
                simp only [hr, Option.some.injEq, Prod.mk.injEq] at h2
                obtain ⟨evs, plays, ht, hl⟩ := ih _ p vc w3 e3 hr
                refine ⟨evs, p.chain ++ plays, ?_, hl⟩
                rw [← h2.1, ht]
                simp only [hi]
      cases hn : play.Next with
      | none =>
        rw [playSound_single f w play sound vc hs hn, hstream] at h
        obtain ⟨evs, plays, ht, hl⟩ := hdrain _ w1 e h
        refine ⟨streamEvents (w.vcChannel vc) play sound vc ++ evs, plays, ?_, ?_⟩
        · rw [ht]
          simp
        · rw [statsLog_append, statsLog_streamEvents _ _ _ _ hs, hl,
            Play.chain_single play hn]
          simp
      | some next =>
        rw [playSound_chained f w play next sound vc hs hn, hstream] at h
        cases hr : playSound f { w with
            vcChannel := Function.update w.vcChannel vc play.ChannelID,
            trace := w.trace ++ streamEvents (w.vcChannel vc) play sound vc } next (some vc) with
        | none => simp [hr] at h
        | some r =>
          obtain ⟨w3, o⟩ := r
          cases o with
          | panicked => simp [hr] at h
          | returned e3 =>
            simp only [hr] at h
            obtain ⟨evs1, plays1, ht1, hl1⟩ := ih _ next vc w3 e3 hr
            obtain ⟨evs2, plays2, ht2, hl2⟩ := hdrain w3 w1 e h
            refine ⟨streamEvents (w.vcChannel vc) play sound vc ++ evs1 ++ evs2,
              plays1 ++ plays2, ?_, ?_⟩
            · rw [ht2, ht1]
              simp
            · rw [statsLog_append, statsLog_append, statsLog_streamEvents _ _ _ _ hs, hl1, hl2,
                Play.chain_next play next hn]
              simp

/-! ## Theorems: the queues stay within their capacity -/

/-- Setting one entry of the registry to a queue within its capacity, or to none. -/
theorem World.bounded_update (w : World) (g : String) (v : Option Chan) (hw : w.bounded)
    (hv : ∀ q, v = some q → q.cap = MAX_QUEUE_SIZE ∧ q.buf.length ≤ MAX_QUEUE_SIZE) :
    World.bounded { w with queues := Function.update w.queues g v } := by
  intro g1 q1 h1
  by_cases hg : g1 = g
  · subst hg
    simp only [Function.update_same] at h1
    exact hv q1 h1
  · simp only [Function.update_noteq hg] at h1
    exact hw g1 q1 h1

/-- The registry section keeps the queues within their capacity and its send finds room. -/
theorem enqueuePlay.registry_bounded (w : World) (g : String) (play : Play)
    (hw : w.bounded) :
    (enqueuePlay.registry w g play).1.bounded ∧ (enqueuePlay.registry w g play).2 ≠ .blocked := by
  unfold enqueuePlay.registry
  cases hq : w.queues g with
  | none =>
    refine ⟨World.bounded_update w g _ hw ?_, by simp⟩
    intro q h
    simp only [Option.some.injEq] at h
    subst h
    exact ⟨rfl, by simp⟩
  | some q =>
    obtain ⟨hcap, hlen⟩ := hw g q hq
    by_cases hlt : q.buf.length < MAX_QUEUE_SIZE
    · have hroom : q.buf.length < q.cap := by omega
      simp only [hlt, hroom, if_true]
      refine ⟨World.bounded_update w g _ hw ?_, by simp⟩
      intro q1 h
      simp only [Option.some.injEq] at h
      subst h
      exact ⟨hcap, by simp; omega⟩
    · simp only [hlt, if_false]
      exact ⟨hw, by simp⟩

theorem World.arrive_bounded (w : World) (play : Play) (hw : w.bounded) :
    (w.arrive play).bounded := by
  have h := (enqueuePlay.registry_bounded w play.GuildID play hw).1
  unfold World.arrive
  split
  · rename_i w1 heq
    rw [heq] at h
    exact h
  · rename_i w1 a hne heq
    rw [heq] at h
    exact h

theorem World.foldl_arrive_bounded (batch : List Play) :
    ∀ w : World, w.bounded → (batch.foldl World.arrive w).bounded := by
  induction batch with
  | nil => exact fun _ h => h
  | cons p ps ih => exact fun w h => ih _ (World.arrive_bounded w p h)

theorem World.interleave_bounded (w : World) (hw : w.bounded) : w.interleave.bounded := by
  unfold World.interleave
  split
  · exact hw
  · exact World.foldl_arrive_bounded _ _ hw

theorem World.step_bounded (w : World) (s : RegistryStep) (hw : w.bounded) :
    (w.step s).bounded := by
  cases s with
  | enqueue g play => exact (enqueuePlay.registry_bounded w g play hw).1
  | dequeue g =>
    simp only [World.step]
    split
    · rename_i cap next rest hq
      refine World.bounded_update w g _ hw ?_
      intro q h
      simp only [Option.some.injEq] at h
      subst h
      have := hw g _ hq
      exact ⟨this.1, by have := this.2; simp at this ⊢; omega⟩
    · exact hw
  | delete g => exact World.bounded_update w g none hw (fun _ h => nomatch h)

theorem World.foldl_step_bounded (steps : List RegistryStep) :
    ∀ w : World, w.bounded → (steps.foldl World.step w).bounded := by
  induction steps with
  | nil => exact fun _ h => h
  | cons s ss ih => exact fun w h => ih _ (World.step_bounded w s h)

/-- The invariant reads the registry only. -/
theorem World.bounded_of_queues (w w1 : World) (h : w1.queues = w.queues) (hw : w.bounded) :
    w1.bounded := by
  intro g q hq
  rw [h] at hq
  exact hw g q hq

/-- The middle of `playSound` leaves the registry alone. -/
theorem playSound.stream_queues (w : World) (play : Play) (vc : Nat) :
    (playSound.stream w play vc).1.queues = w.queues := by
  unfold playSound.stream Sound.Play
  cases play.Sound with
  | none => split <;> rfl
  | some sound =>
    simp only [foldl_emit_OpusSend]
    split <;> rfl

theorem playSound.teardown_bounded (w : World) (play : Play) (sound : Sound) (vc : Nat)
    (hw : w.bounded) : (playSound.teardown w play sound vc).bounded := by
  have h1 : (w.emit (.Sleep sound.PartDelay)).interleave.bounded :=
    World.interleave_bounded _ (World.bounded_of_queues w _ rfl hw)
  have h2 := World.bounded_update _ play.GuildID none h1 (fun _ h => nomatch h)
  exact World.bounded_of_queues _ _ rfl h2

/-- Every run of the worker that ends leaves the queues within their capacity. -/
theorem playSound_bounded :
    ∀ (fuel : Nat) (w : World) (play : Play) (vc : Option Nat) (w1 : World)
      (o : Outcome (Option GoError)),
      w.bounded → playSound fuel w play vc = some (w1, o) → w1.bounded := by
  intro fuel
  induction fuel with
  | zero =>
    intro w play vc w1 o _ h
    simp [playSound] at h
  | succ f ih =>
    -- on an open connection
    have hopen : ∀ (w : World) (play : Play) (c : Nat) (w1 : World)
        (o : Outcome (Option GoError)),
        w.bounded → playSound (f + 1) w play (some c) = some (w1, o) → w1.bounded := by
      intro w play c w1 o hw h
      have hsb : (playSound.stream w play c).1.bounded :=
        World.bounded_of_queues w _ (playSound.stream_queues w play c) hw
      have hdrain : ∀ (w0 w2 : World) (sound : Sound) (o2 : Outcome (Option GoError)),
          w0.bounded → playSound.drain (playSound f) w0 play sound c = some (w2, o2) →
          w2.bounded := by
        intro w0 w2 sound o2 h0 h2
        rw [playSound.drain_eq _ _ _ _ _ play.GuildID rfl] at h2
        have hi := World.interleave_bounded w0 h0
        have hteardown :
            (some (playSound.teardown w0.interleave play sound c, Outcome.returned none)
              : Option (World × Outcome (Option GoError))) = some (w2, o2) → w2.bounded := by
          intro h3
          simp only [Option.some.injEq, Prod.mk.injEq] at h3
          rw [← h3.1]
          exact playSound.teardown_bounded _ play sound c hi
        cases hq : w0.interleave.queues play.GuildID with
        | none =>
          rw [hq] at h2
          exact hteardown h2
        | some q =>
          obtain ⟨cap, buf⟩ := q
          cases buf with
          | nil =>
            rw [hq] at h2
            exact hteardown h2
          | cons p rest =>
            rw [hq] at h2
            simp only at h2
            have hb := World.step_bounded w0.interleave (.dequeue play.GuildID) hi
            simp only [World.step, hq] at hb
            cases hr : playSound f { w0.interleave with
                queues := Function.update w0.interleave.queues play.GuildID (some ⟨cap, rest⟩) }
                p (some c) with
            | none => simp [hr] at h2
            | some r =>
              obtain ⟨w3, o3⟩ := r
              have h3 := ih _ p (some c) w3 o3 hb hr
              cases o3 with
              | panicked =>
                simp only [hr, Option.some.injEq, Prod.mk.injEq] at h2
                rw [← h2.1]
                exact h3
              | returned e3 =>
                simp only [hr, Option.some.injEq, Prod.mk.injEq] at h2
                rw [← h2.1]
                exact h3
      cases hs : play.Sound with
      | none =>
        rw [playSound] at h
        simp only [hs] at h
        generalize playSound.stream w play c = r at h hsb
        obtain ⟨w2, o2⟩ := r
        cases o2 <;> simp only [Option.some.injEq, Prod.mk.injEq] at h <;>
          (rw [← h.1]; exact hsb)
      | some sound =>
        cases hn : play.Next with
        | none =>
          rw [playSound_single f w play sound c hs hn] at h
          exact hdrain _ w1 sound o hsb h
        | some next =>
          rw [playSound_chained f w play next sound c hs hn] at h
          cases hr : playSound f (playSound.stream w play c).1 next (some c) with
          | none => simp [hr] at h
          | some r =>
            obtain ⟨w3, o3⟩ := r
            have h3 := ih _ next (some c) w3 o3 hsb hr
            cases o3 with
            | panicked =>
              simp only [hr, Option.some.injEq, Prod.mk.injEq] at h
              rw [← h.1]
              exact h3
            | returned e3 =>
              simp only [hr] at h
              exact hdrain w3 w1 sound o h3 h
    intro w play vc w1 o hw h
    cases vc with
    | some c => exact hopen w play c w1 o hw h
    | none =>
      cases hj : w.joinErr w.joins play.GuildID play.ChannelID with
      | some err =>
        rw [playSound_join_error f w play err hj] at h
        simp only [Option.some.injEq, Prod.mk.injEq] at h
        rw [← h.1]
        exact World.bounded_update _ play.GuildID none
          (World.interleave_bounded _ (World.bounded_of_queues w _ rfl hw))
          (fun _ h => nomatch h)
      | none =>
        rw [playSound_join f w play hj] at h
        refine hopen _ play w.joins w1 o ?_ h
        exact World.bounded_of_queues w _ rfl hw

/-- A call of `enqueuePlay` that ends leaves the queues within their capacity, and its send
has found room. -/
theorem enqueuePlay_bounded_call (lib : RandLib) (fuel : Nat) (w : World) (user : User)
    (guild : Guild) (coll : SoundCollection) (sound : Option Sound) (w1 : World)
    (o : Outcome (Option Admission)) (hw : w.bounded)
    (h : enqueuePlay lib fuel w user guild coll sound = some (w1, o)) :
    w1.bounded ∧ o ≠ .returned (some .blocked) := by
  have hsame := createPlay_sameProcess lib w user guild coll sound
  unfold enqueuePlay at h
  generalize createPlay lib w user guild coll sound = r at h hsame
  obtain ⟨oc, wa⟩ := r
  have hwa : wa.bounded := World.bounded_of_queues w wa hsame.1 hw
  cases oc with
  | panicked =>
    simp only [Option.some.injEq, Prod.mk.injEq] at h
    rw [← h.1, ← h.2]
    exact ⟨hwa, by simp⟩
  | returned created =>
    cases created with
    | none =>
      simp only [Option.some.injEq, Prod.mk.injEq] at h
      rw [← h.1, ← h.2]
      exact ⟨hwa, by simp⟩
    | some play =>
      simp only at h
      obtain ⟨hb, hnb⟩ := enqueuePlay.registry_bounded wa guild.ID play hwa
      unfold enqueuePlay.dispatch at h
      generalize enqueuePlay.registry wa guild.ID play = rr at h hb hnb
      obtain ⟨wb, a⟩ := rr
      cases a with
      | start =>
        simp only at h
        cases hr : playSound fuel wb play none with
        | none => simp [hr] at h
        | some r2 =>
          obtain ⟨wc, oc⟩ := r2
          have hc := playSound_bounded fuel wb play none wc oc hb hr
          cases oc <;> simp only [hr, Option.some.injEq, Prod.mk.injEq] at h <;>
            (rw [← h.1, ← h.2]; exact ⟨hc, by simp⟩)
      | queued =>
        simp only [Option.some.injEq, Prod.mk.injEq] at h
        rw [← h.1, ← h.2]
        exact ⟨hb, by simp⟩
      | dropped =>
        simp only [Option.some.injEq, Prod.mk.injEq] at h
        rw [← h.1, ← h.2]
        exact ⟨hb, by simp⟩
      | blocked => exact absurd rfl hnb

/-- C17: in every state that the registry reaches from the empty one through calls of the
registry section of `enqueuePlay` and through the steps of the workers (a play taken from
a queue, a queue deleted at the end of a worker or after a failed join), every queue has
the capacity `MAX_QUEUE_SIZE = 6` and holds at most 6 plays, and the send of `enqueuePlay`
finds room: it does not block. The same holds after every whole call of `enqueuePlay` and
after every run of a worker from such a state. -/
theorem enqueuePlay_bounded (w0 : World) (steps : List RegistryStep)
    (h0 : ∀ g, w0.queues g = none) :
    (steps.foldl World.step w0).bounded
      ∧ MAX_QUEUE_SIZE = 6
      ∧ (∀ g play, (enqueuePlay.registry (steps.foldl World.step w0) g play).2 ≠ .blocked)
      ∧ (∀ lib fuel user guild coll sound w1 o,
          enqueuePlay lib fuel (steps.foldl World.step w0) user guild coll sound = some (w1, o) →
          w1.bounded ∧ o ≠ .returned (some .blocked))
      ∧ (∀ fuel play vc w1 o,
          playSound fuel (steps.foldl World.step w0) play vc = some (w1, o) → w1.bounded) := by
  have hw0 : w0.bounded := by
    intro g q hq
    rw [h0 g] at hq
    exact nomatch hq
  have hw := World.foldl_step_bounded steps w0 hw0
  exact ⟨hw, rfl, fun g play => (enqueuePlay.registry_bounded _ g play hw).2,
    fun lib fuel user guild coll sound w1 o h =>
      enqueuePlay_bounded_call lib fuel _ user guild coll sound w1 o hw h,
    fun fuel play vc w1 o h => playSound_bounded fuel _ play vc w1 o hw h⟩

/-- An instance of C17: seven plays for the guild `"g"`, one taken by the worker, the queue
deleted and a play for the guild `"h"`. -/
theorem enqueuePlay_bounded_witness :
    (([.enqueue "g" (examplePlay (exampleSound "a")), .enqueue "g" (examplePlay (exampleSound "b")),
        .enqueue "g" (examplePlay (exampleSound "c")), .enqueue "g" (examplePlay (exampleSound "d")),
        .enqueue "g" (examplePlay (exampleSound "e")), .enqueue "g" (examplePlay (exampleSound "f")),
        .enqueue "g" (examplePlay (exampleSound "g")), .enqueue "g" (examplePlay (exampleSound "h")),
        .dequeue "g", .delete "g", .enqueue "h" (examplePlay (exampleSound "a"))]
        : List RegistryStep).foldl World.step exampleWorld).bounded
      ∧ MAX_QUEUE_SIZE = 6
      ∧ (∀ g play, (enqueuePlay.registry
          (([.enqueue "g" (examplePlay (exampleSound "a")), .enqueue "g" (examplePlay (exampleSound "b")),
            .enqueue "g" (examplePlay (exampleSound "c")), .enqueue "g" (examplePlay (exampleSound "d")),
            .enqueue "g" (examplePlay (exampleSound "e")), .enqueue "g" (examplePlay (exampleSound "f")),
            .enqueue "g" (examplePlay (exampleSound "g")), .enqueue "g" (examplePlay (exampleSound "h")),
            .dequeue "g", .delete "g", .enqueue "h" (examplePlay (exampleSound "a"))]
            : List RegistryStep).foldl World.step exampleWorld) g play).2 ≠ .blocked) :=
  have h := enqueuePlay_bounded exampleWorld
    [.enqueue "g" (examplePlay (exampleSound "a")), .enqueue "g" (examplePlay (exampleSound "b")),
      .enqueue "g" (examplePlay (exampleSound "c")), .enqueue "g" (examplePlay (exampleSound "d")),
      .enqueue "g" (examplePlay (exampleSound "e")), .enqueue "g" (examplePlay (exampleSound "f")),
      .enqueue "g" (examplePlay (exampleSound "g")), .enqueue "g" (examplePlay (exampleSound "h")),
      .dequeue "g", .delete "g", .enqueue "h" (examplePlay (exampleSound "a"))]
    (fun _ => rfl)
  ⟨h.1, h.2.1, h.2.2.1⟩

/-! ## Theorems: a clip name that the collection does not have -/

/-- The search for a name that no clip has leaves `sound` nil. -/
theorem onMessageCreate.sound_none (name : String) (sounds : List Sound)
    (h : ∀ s ∈ sounds, s.Name ≠ name) : onMessageCreate.sound name sounds none = none := by
  induction sounds with
  | nil => rfl
  | cons s rest ih =>
    have hs : ¬ name = s.Name := fun e => h s (List.mem_cons_self _ _) e.symm
    simp only [onMessageCreate.sound, hs, if_false]
    exact ih (fun x hx => h x (List.mem_cons_of_mem _ hx))

/-- The loop over the collections asks for nothing when the first collection that has the
command has no clip of the name. -/
theorem onMessageCreate.loop_reject (m : MessageCreate) (guild : Guild) (command name : String)
    (rest : List String) (coll : SoundCollection) :
    ∀ colls : List SoundCollection,
      colls.find? (fun c => scontains command c.Commands) = some coll →
      (∀ s ∈ coll.Sounds, s.Name ≠ name) →
      onMessageCreate.loop m guild command (name :: rest) colls = [] := by
  intro colls
  induction colls with
  | nil => intro h; simp at h
  | cons c cs ih =>
    intro hfind hname
    by_cases hc : scontains command c.Commands = true
    · simp only [List.find?_cons, hc, Option.some.injEq] at hfind
      subst hfind
      simp only [onMessageCreate.loop, hc, if_true, onMessageCreate.sound_none name _ hname]
    · simp only [Bool.not_eq_true] at hc
      simp only [List.find?_cons, hc] at hfind
      simp only [onMessageCreate.loop, hc, Bool.false_eq_true, if_false]
      exact ih hfind hname

/-- C13: a message that is not a control message of the owner, whose first word is a
command of a collection (the first collection in `COLLECTIONS` that has it) and whose
second word is the name of no clip of that collection: the handler returns, it does not
start `enqueuePlay` and does not delete the message; all it may ask for is the command
list, when the command is `!listcommands`. The loop over the collections itself asks for
nothing. So no play is created, and the registry and the transport, which the handler
reaches through `enqueuePlay` only, are left alone. -/
theorem onMessageCreate_selection_failure (cfg : Config) (lib : TextLib) (w : World)
    (m : MessageCreate) (command name : String) (rest : List String) (coll : SoundCollection)
    (hparts : onMessageCreate.parts cfg lib m = command :: name :: rest)
    (hcoll : cfg.COLLECTIONS.find? (fun c => scontains command c.Commands) = some coll)
    (hname : ∀ s ∈ coll.Sounds, s.Name ≠ name)
    (htrigger : ¬ (0 < m.Mentions.length ∧ m.Author.ID = cfg.OWNER)) :
    ∃ actions, onMessageCreate cfg lib w m = .returned actions
      ∧ (∀ user guild c sound, HandlerAction.goEnqueuePlay user guild c sound ∉ actions)
      ∧ (∀ a ∈ actions, ∃ channel content, a = .ChannelMessageSend channel content)
      ∧ (command ≠ "!listcommands" → actions = [])
      ∧ (∀ guild, onMessageCreate.loop m guild command (name :: rest) cfg.COLLECTIONS = []) := by
  have hloop := fun guild =>
    onMessageCreate.loop_reject m guild command name rest coll cfg.COLLECTIONS hcoll hname
  have hnil : ∃ actions, (Outcome.returned [] : Outcome (List HandlerAction)) = .returned actions
      ∧ (∀ user guild c sound, HandlerAction.goEnqueuePlay user guild c sound ∉ actions)
      ∧ (∀ a ∈ actions, ∃ channel content, a = .ChannelMessageSend channel content)
      ∧ (command ≠ "!listcommands" → actions = [])
      ∧ (∀ guild, onMessageCreate.loop m guild command (name :: rest) cfg.COLLECTIONS = []) :=
    ⟨[], rfl, by simp, by simp, fun _ => rfl, hloop⟩
  have hctl : ¬ (0 < m.Mentions.length ∧ m.Author.ID = cfg.OWNER
      ∧ 0 < (command :: name :: rest).length) := fun h => htrigger ⟨h.1, h.2.1⟩
  unfold onMessageCreate
  simp only [hparts]
  split
  · exact hnil
  · split
    · exact hnil
    · split
      · exact hnil
      · rename_i guild _
        split
        · exact hnil
        · simp only [hloop guild, List.append_nil]
          by_cases hl : command = "!listcommands"
          · simp only [hl, if_true]
            exact ⟨_, rfl, by simp, by simp, fun h => absurd rfl h, fun g => hl ▸ hloop g⟩
          · simp only [hl, if_false]
            exact ⟨[], rfl, by simp, by simp, fun _ => rfl, hloop⟩

/-- An instance of C13: the message `!AIRHORN nope` for the collection `exampleColl`, whose
one clip is `default`. -/
theorem onMessageCreate_selection_failure_witness :
    ∃ actions,
      onMessageCreate exampleConfig exampleText exampleWorld exampleMessage = .returned actions
      ∧ (∀ user guild c sound, HandlerAction.goEnqueuePlay user guild c sound ∉ actions)
      ∧ (∀ a ∈ actions, ∃ channel content, a = .ChannelMessageSend channel content)
      ∧ ("!airhorn" ≠ "!listcommands" → actions = [])
      ∧ (∀ guild, onMessageCreate.loop exampleMessage guild "!airhorn" ("nope" :: [])
          exampleConfig.COLLECTIONS = []) :=
  onMessageCreate_selection_failure exampleConfig exampleText exampleWorld exampleMessage
    "!airhorn" "nope" [] exampleColl rfl rfl (by decide) (by decide)

/-! ## Theorems: the selector on the catalog -/

set_option maxRecDepth 100000 in
/-- The catalog as shipped: every collection of `COLLECTIONS` starts with `soundRange`
zero and has a clip, every clip has a weight of at least one, and the weights of a
collection add up to a Go `int`. -/
theorem COLLECTIONS_weights :
    ∀ coll ∈ COLLECTIONS, coll.soundRange = 0 ∧ 0 < coll.Sounds.length
      ∧ (∀ s ∈ coll.Sounds, 1 ≤ s.Weight) ∧ weightSum coll.Sounds < 2 ^ 63 := by
  decide

/-- When the loop of `SoundCollection.Load` returns, every sound has been put through
`Sound.Load` and every weight has been added. -/
theorem SoundCollection.Load.loop_returned (fs : String → Except GoError File)
    (sc : SoundCollection) (sounds : List Sound) :
    ∀ (r : Int) (out : List Sound × Int),
      SoundCollection.Load.loop fs sc sounds r = .returned out →
      out = (sounds.map (fun s => (Sound.Load fs s sc).1),
        sounds.foldl (fun r s => wrapInt (r + s.Weight)) r) := by
  induction sounds with
  | nil =>
    intro r out h
    simp only [SoundCollection.Load.loop, Outcome.returned.injEq] at h
    rw [← h]
    rfl
  | cons x xs ih =>
    intro r out h
    rcases hl : Sound.Load fs x sc with ⟨x1, o⟩
    cases o with
    | panicked => simp [SoundCollection.Load.loop, hl] at h
    | returned e =>
      simp only [SoundCollection.Load.loop, hl] at h
      cases hr : SoundCollection.Load.loop fs sc xs (wrapInt (r + x.Weight)) with
      | panicked => simp [hr] at h
      | returned out1 =>
        have h1 := ih _ out1 hr
        simp only [hr, Outcome.returned.injEq] at h
        rw [← h, h1]
        simp [hl]

/-- A list of clips that is not empty, each of a weight of at least one, has a positive
sum of weights. -/
theorem weightSum_pos (sounds : List Sound) (hne : 0 < sounds.length)
    (hw : ∀ s ∈ sounds, 1 ≤ s.Weight) : 0 < weightSum sounds := by
  cases sounds with
  | nil => simp at hne
  | cons x xs =>
    have hx := hw x (List.mem_cons_self _ _)
    have hxs := weightSum_nonneg xs
      (fun s hs => le_trans (by decide) (hw s (List.mem_cons_of_mem _ hs)))
    rw [weightSum_cons]
    omega

/-- What `SoundCollection.Load` returns on a collection that starts with `soundRange`
zero: the clips after their `Sound.Load`, and the sum of the weights when it is a Go
`int`. -/
theorem SoundCollection.Load_returned (fs : String → Except GoError File)
    (sc loaded : SoundCollection) (h0 : sc.soundRange = 0)
    (hw : ∀ s ∈ sc.Sounds, 0 ≤ s.Weight) (hint : weightSum sc.Sounds < 2 ^ 63)
    (h : sc.Load fs = .returned loaded) :
    loaded.Sounds = sc.Sounds.map (fun s => (Sound.Load fs s sc).1)
      ∧ loaded.soundRange = weightSum sc.Sounds
      ∧ weightSum loaded.Sounds = weightSum sc.Sounds := by
  unfold SoundCollection.Load at h
  cases hr : SoundCollection.Load.loop fs sc sc.Sounds sc.soundRange with
  | panicked => simp [hr] at h
  | returned out =>
    have h1 := SoundCollection.Load.loop_returned fs sc sc.Sounds _ out hr
    simp only [hr, Outcome.returned.injEq] at h
    have hfold := foldl_wrapInt_weights sc.Sounds 0 hw (le_refl _) (by rw [zero_add]; exact hint)
    rw [zero_add] at hfold
    rw [← h, h1, h0, hfold]
    exact ⟨rfl, rfl, weightSum_map_load fs sc sc.Sounds⟩

/-- The selector on a loaded collection whose clips have a weight of at least one: the
range of the draw is positive, the draw is made, and every draw finds a clip. -/
theorem SoundCollection.Random_loaded (fs : String → Except GoError File)
    (sc loaded : SoundCollection) (h0 : sc.soundRange = 0) (hne : 0 < sc.Sounds.length)
    (hw : ∀ s ∈ sc.Sounds, 1 ≤ s.Weight) (hint : weightSum sc.Sounds < 2 ^ 63)
    (h : sc.Load fs = .returned loaded) :
    loaded.soundRange = weightSum sc.Sounds
      ∧ loaded.soundRange = weightSum loaded.Sounds
      ∧ 0 < loaded.soundRange
      ∧ (∀ (lib : RandLib) (w : World), ∃ d w1,
          randomRange lib w 0 loaded.soundRange = (.returned d, w1)
            ∧ 0 ≤ d ∧ d < loaded.soundRange)
      ∧ (∀ (lib : RandLib) (w : World), ∃ clip,
          (loaded.Random lib w).1 = .returned (some clip) ∧ clip ∈ loaded.Sounds)
      ∧ (∀ d : Int, 0 ≤ d → d < loaded.soundRange → ∃ clip,
          SoundCollection.Random.walk d loaded.Sounds 0 = some clip
            ∧ clip ∈ loaded.Sounds) := by
  have hw0 : ∀ s ∈ sc.Sounds, 0 ≤ s.Weight := fun s hs => le_trans (by decide) (hw s hs)
  obtain ⟨hsounds, hrange, hsum⟩ := SoundCollection.Load_returned fs sc loaded h0 hw0 hint h
  have hpos : 0 < loaded.soundRange := by
    rw [hrange]
    exact weightSum_pos sc.Sounds hne hw
  have hisInt : isInt loaded.soundRange := by
    unfold isInt
    rw [hrange] at hpos ⊢
    exact ⟨by omega, hint⟩
  have hw1 : ∀ x ∈ loaded.Sounds, 0 ≤ x.Weight := by
    intro x hx
    rw [hsounds, List.mem_map] at hx
    obtain ⟨s, hs, rfl⟩ := hx
    rw [(Sound.Load_fields fs s sc).2.1]
    exact hw0 s hs
  have hvalid : loaded.valid := ⟨hw1, by rw [hsum, hrange], hpos, hisInt⟩
  refine ⟨hrange, by rw [hsum, hrange], hpos, ?_, ?_, ?_⟩
  · intro lib w
    have hn : ¬ wrapInt (loaded.soundRange - 0) ≤ 0 := by
      rw [sub_zero, wrapInt_of_isInt _ hisInt]
      omega
    have heq : randomRange lib w 0 loaded.soundRange
        = ((randomRange lib w 0 loaded.soundRange).1, (randomRange lib w 0 loaded.soundRange).2) :=
      rfl
    have hret : ∃ d, (randomRange lib w 0 loaded.soundRange).1 = .returned d := by
      unfold randomRange
      simp only [hn, if_false]
      exact ⟨_, rfl⟩
    obtain ⟨d, hd⟩ := hret
    rw [hd] at heq
    exact ⟨d, _, heq, randomRange_zero lib w _ hpos hisInt d _ heq⟩
  · intro lib w
    obtain ⟨clip, hr, hmem, _⟩ := SoundCollection.Random_valid lib w loaded hvalid
    exact ⟨clip, by rw [hr], hmem⟩
  · intro d hd0 hd
    obtain ⟨i, clip, _, hwalk, _, _⟩ :=
      SoundCollection.Random.walk_least d loaded.Sounds 0 hw1 (le_refl _) hd0
        (by rw [zero_add, hsum]; exact hint) (by rw [zero_add, hsum, ← hrange]; exact hd)
    exact ⟨clip, hwalk, SoundCollection.Random.walk_mem d _ 0 clip hwalk⟩

/-- C22: every clip of every collection in `COLLECTIONS` has a weight of at least one.
`SoundCollection.Load`, run once on such a collection, returns unless a `Sound.Load`
panics, and after it `soundRange` is the sum of the weights of the clips and positive,
the draw `randomRange(0, soundRange)` is made and lies in the range, and `Random` returns
a clip of the collection, not nil: the walk finds a clip for every draw of the range. -/
theorem SoundCollection.Random_total (coll : SoundCollection) (hmem : coll ∈ COLLECTIONS)
    (fs : String → Except GoError File) :
    (∀ s ∈ coll.Sounds, 1 ≤ s.Weight)
      ∧ ((∀ s ∈ coll.Sounds, (Sound.Load fs s coll).2 ≠ .panicked) →
          ∃ loaded, coll.Load fs = .returned loaded)
      ∧ ∀ loaded, coll.Load fs = .returned loaded →
        loaded.soundRange = weightSum coll.Sounds
          ∧ loaded.soundRange = weightSum loaded.Sounds
          ∧ 0 < loaded.soundRange
          ∧ (∀ (lib : RandLib) (w : World), ∃ d w1,
              randomRange lib w 0 loaded.soundRange = (.returned d, w1)
                ∧ 0 ≤ d ∧ d < loaded.soundRange)
          ∧ (∀ (lib : RandLib) (w : World), ∃ clip,
              (loaded.Random lib w).1 = .returned (some clip) ∧ clip ∈ loaded.Sounds)
          ∧ (∀ d : Int, 0 ≤ d → d < loaded.soundRange → ∃ clip,
              SoundCollection.Random.walk d loaded.Sounds 0 = some clip
                ∧ clip ∈ loaded.Sounds) := by
  obtain ⟨h0, hne, hw, hint⟩ := COLLECTIONS_weights coll hmem
  refine ⟨hw, ?_, fun loaded h => SoundCollection.Random_loaded fs coll loaded h0 hne hw hint h⟩
  intro hload
  unfold SoundCollection.Load
  rw [SoundCollection.Load.loop_spec fs coll coll.Sounds coll.soundRange hload]
  exact ⟨_, rfl⟩

/-- With the containers of `exampleFiles` no `Sound.Load` of a clip of `AIRHORN` panics. -/
theorem exampleFiles_AIRHORN :
    ∀ s ∈ AIRHORN.Sounds, (Sound.Load exampleFiles s AIRHORN).2 ≠ .panicked := by
  intro s hs
  have hload : ∀ x : Sound, x.buffer = [] →
      exampleFiles (x.path AIRHORN) = .ok ⟨encodeFrames [[1]], none⟩ →
      (Sound.Load exampleFiles x AIRHORN).2 ≠ .panicked := by
    intro x hb hf
    rw [Sound.Load_complete exampleFiles x AIRHORN [[1]] hb (by simp) hf]
    simp
  simp only [AIRHORN, SoundCollection.Sounds, List.mem_cons, List.mem_singleton,
    List.not_mem_nil, or_false] at hs
  rcases hs with h | h | h | h | h | h | h | h | h | h | h | h | h | h <;>
    (subst h; exact hload _ rfl rfl)

/-- An instance of C22: the collection `AIRHORN`, loaded from containers of one frame. -/
theorem SoundCollection.Random_total_witness :
    (∀ s ∈ AIRHORN.Sounds, 1 ≤ s.Weight)
      ∧ ∃ loaded, AIRHORN.Load exampleFiles = .returned loaded
        ∧ loaded.soundRange = weightSum AIRHORN.Sounds
        ∧ loaded.soundRange = weightSum loaded.Sounds
        ∧ 0 < loaded.soundRange
        ∧ (∀ (lib : RandLib) (w : World), ∃ d w1,
            randomRange lib w 0 loaded.soundRange = (.returned d, w1)
              ∧ 0 ≤ d ∧ d < loaded.soundRange)
        ∧ (∀ (lib : RandLib) (w : World), ∃ clip,
            (loaded.Random lib w).1 = .returned (some clip) ∧ clip ∈ loaded.Sounds)
        ∧ (∀ d : Int, 0 ≤ d → d < loaded.soundRange → ∃ clip,
            SoundCollection.Random.walk d loaded.Sounds 0 = some clip
              ∧ clip ∈ loaded.Sounds) :=
  have h := SoundCollection.Random_total AIRHORN (List.mem_cons_self _ _) exampleFiles
  have hl := h.2.1 exampleFiles_AIRHORN
  ⟨h.1, hl.choose, hl.choose_spec, h.2.2 hl.choose hl.choose_spec⟩

/-! ## Theorems: the names of the catalog -/

/-- C21 at the clips `Whatthedick2` and `Whatthedick` of `BULLETSTORM`: the handler puts
the message in lower case before it splits it, so for the message
`!bulletstorm Whatthedick2` the second word is `whatthedick2`, which is the name of no
clip of the collection: the search leaves `sound` nil and the handler returns without
`enqueuePlay`. The same holds for `Whatthedick`; the message `!bulletstorm heavenly`, whose
clip has a name in lower case, starts `enqueuePlay` with that clip. -/
theorem onMessageCreate_uppercase_name :
    createSound "Whatthedick2" 1 250 ∈ BULLETSTORM.Sounds
      ∧ createSound "Whatthedick" 1 250 ∈ BULLETSTORM.Sounds
      ∧ BULLETSTORM ∈ COLLECTIONS
      ∧ onMessageCreate.parts exampleCatalogConfig exampleText
          (exampleTrigger "!bulletstorm Whatthedick2") = ["!bulletstorm", "whatthedick2"]
      ∧ onMessageCreate.sound "whatthedick2" BULLETSTORM.Sounds none = none
      ∧ onMessageCreate exampleCatalogConfig exampleText exampleWorld
          (exampleTrigger "!bulletstorm Whatthedick2") = .returned []
      ∧ onMessageCreate exampleCatalogConfig exampleText exampleWorld
          (exampleTrigger "!bulletstorm Whatthedick") = .returned []
      ∧ onMessageCreate exampleCatalogConfig exampleText exampleWorld
          (exampleTrigger "!bulletstorm heavenly")
        = .returned [.goEnqueuePlay exampleUser exampleGuild BULLETSTORM
            (some (createSound "heavenly" 1 250)), .ChannelMessageDelete "t" "m"] := by
  refine ⟨?_, ?_, ?_, rfl, rfl, rfl, rfl, rfl⟩
  · simp [BULLETSTORM, SoundCollection.Sounds]
  · simp [BULLETSTORM, SoundCollection.Sounds]
  · simp [COLLECTIONS]

/-! ## Theorems: the plays that a worker streams -/

/-- An arrival leaves the plays waiting for a guild as they are or is appended to them. -/
theorem World.arrive_waiting (w : World) (p : Play) (g : String) :
    (w.arrive p).waiting g = w.waiting g ∨ (w.arrive p).waiting g = w.waiting g ++ [p] := by
  rcases World.arrive_queue_at w p g with e | ⟨_, hq, e⟩ | ⟨_, q, hq, e⟩
  · exact Or.inl (by simp only [World.waiting, e])
  · exact Or.inl (by simp only [World.waiting, e, hq])
  · exact Or.inr (by simp only [World.waiting, e, hq])

theorem World.foldl_arrive_waiting (batch : List Play) (g : String) :
    ∀ w : World, List.Sublist ((batch.foldl World.arrive w).waiting g) (w.waiting g ++ batch) := by
  induction batch with
  | nil =>
    intro w
    simp
  | cons p ps ih =>
    intro w
    rw [List.foldl_cons]
    refine (ih (w.arrive p)).trans ?_
    rcases World.arrive_waiting w p g with e | e
    · rw [e]
      exact List.Sublist.append (List.Sublist.refl _) (List.sublist_cons_self p ps)
    · rw [e, List.append_assoc, List.singleton_append]

/-- The turn of the other goroutines adds nothing to the plays that a worker of the guild
can still receive, and keeps their order. -/
theorem World.interleave_pending (w : World) (g : String) :
    List.Sublist (w.interleave.pending g) (w.pending g) := by
  unfold World.interleave
  cases hscript : w.script with
  | nil =>
    simp only
    exact List.Sublist.refl _
  | cons batch rest =>
    simp only
    have h1 := World.foldl_arrive_waiting batch g { w with script := rest }
    have h2 := (World.foldl_arrive_frame batch { w with script := rest }).2.1
    unfold World.pending
    rw [h2, hscript, List.flatten_cons, ← List.append_assoc]
    exact List.Sublist.append h1 (List.Sublist.refl _)

theorem playSound.teardown_script (w : World) (play : Play) (sound : Sound) (vc : Nat) :
    (playSound.teardown w play sound vc).script = w.script.tail := by
  simp only [playSound.teardown, World.emit]
  exact World.interleave_script _

theorem script_tail_sublist (script : List (List Play)) :
    List.Sublist script.tail.flatten script.flatten := by
  cases script with
  | nil => simp
  | cons b rest =>
    simp only [List.tail_cons, List.flatten_cons]
    exact List.sublist_append_right b rest.flatten

/-- The log of a run of the worker of the guild `g` on an open connection that returns:
block after block, first the plays of the chain of its play, then the plays `roots`
that it received from the queue, each with its chain. The plays received are plays that
waited in the queue or that the other goroutines brought, each taken once and in their
order; what is left of the script comes after them. -/
theorem playSound_roots (g : String) :
    ∀ (fuel : Nat) (w : World) (play : Play) (vc : Nat) (w1 : World) (e : Option GoError),
      play.GuildID = g → play.ok = true → w.okScript → w.okQueue g →
      playSound fuel w play (some vc) = some (w1, .returned e) →
      ∃ (evs : List Event) (roots : List Play), w1.trace = w.trace ++ evs
        ∧ statsLog evs
          = ((play.chain ++ (roots.map Play.chain).flatten).map Play.block).flatten
        ∧ w1.okScript ∧ w1.queues g = none
        ∧ List.Sublist (roots ++ w1.script.flatten) (w.pending g) := by
  intro fuel
  induction fuel with
  | zero =>
    intro w play vc w1 e _ _ _ _ h
    simp [playSound] at h
  | succ f ih =>
    intro w play vc w1 e hg hok hws hwq h
    obtain ⟨sound, hs⟩ := Play.ok_sound play hok
    have hstream := playSound.stream_some w play sound vc hs
    -- the queue check, from a world in order
    have hdrain : ∀ (w0 w2 : World) (e2 : Option GoError), w0.okScript → w0.okQueue g →
        playSound.drain (playSound f) w0 play sound vc = some (w2, .returned e2) →
        ∃ (evs : List Event) (roots : List Play), w2.trace = w0.trace ++ evs
          ∧ statsLog evs = (((roots.map Play.chain).flatten).map Play.block).flatten
          ∧ w2.okScript ∧ w2.queues g = none
          ∧ List.Sublist (roots ++ w2.script.flatten) (w0.pending g) := by
      intro w0 w2 e2 h0s h0q h2
      rw [playSound.drain_eq _ _ _ _ _ g hg] at h2
      obtain ⟨his, hiq, _⟩ := World.interleave_ok w0 g h0s h0q
      have hi := (World.interleave_frame w0).1
      have hip := World.interleave_pending w0 g
      have hteardown :
          (some (playSound.teardown w0.interleave play sound vc, Outcome.returned none)
            : Option (World × Outcome (Option GoError))) = some (w2, .returned e2) →
          ∃ (evs : List Event) (roots : List Play), w2.trace = w0.trace ++ evs
            ∧ statsLog evs = (((roots.map Play.chain).flatten).map Play.block).flatten
            ∧ w2.okScript ∧ w2.queues g = none
            ∧ List.Sublist (roots ++ w2.script.flatten) (w0.pending g) := by
        intro h3
        simp only [Option.some.injEq, Prod.mk.injEq] at h3
        obtain ⟨t1, t2, _, _⟩ := playSound.teardown_spec w0.interleave play sound vc g hg his
        refine ⟨[.Sleep sound.PartDelay, .Disconnect vc], [], ?_, rfl, ?_, ?_, ?_⟩
        · rw [← h3.1, playSound.teardown_trace, hi]
        · rw [← h3.1]
          exact t2
        · rw [← h3.1]
          exact t1
        · rw [← h3.1, playSound.teardown_script, List.nil_append]
          refine List.Sublist.trans ?_ hip
          exact (script_tail_sublist _).trans (List.sublist_append_right _ _)
      cases hq : w0.interleave.queues g with
      | none =>
        rw [hq] at h2
        exact hteardown h2
      | some q =>
        obtain ⟨cap, buf⟩ := q
        cases buf with
        | nil =>
          rw [hq] at h2
          exact hteardown h2
        | cons p rest =>
          rw [hq] at h2
          simp only at h2
          obtain ⟨hpok, hpg⟩ := hiq _ hq p (List.mem_cons_self _ _)
          cases hr : playSound f { w0.interleave with
              queues := Function.update w0.interleave.queues g (some ⟨cap, rest⟩) }
              p (some vc) with
          | none => simp [hr] at h2
          | some r =>
            obtain ⟨w3, o⟩ := r
            cases o with
            | panicked => simp [hr] at h2
            | returned e3 =>
              simp only [hr, Option.some.injEq, Prod.mk.injEq] at h2
              obtain ⟨evs, roots, ht, hl, r1, r2, r3⟩ :=
                ih { w0.interleave with
                     queues := Function.update w0.interleave.queues g (some ⟨cap, rest⟩) }
                  p vc w3 e3 hpg hpok his
                  (by
                    intro q1 hq1 x hx
                    simp only [Function.update_same, Option.some.injEq] at hq1
                    subst hq1
                    exact hiq _ hq x (List.mem_cons_of_mem _ hx))
                  hr
              refine ⟨evs, p :: roots, ?_, ?_, ?_, ?_, ?_⟩
              · rw [← h2.1, ht]
                simp only [hi]
              · rw [hl]
                simp
              · rw [← h2.1]
                exact r1
              · rw [← h2.1]
                exact r2
              · rw [← h2.1]
                refine List.Sublist.trans ?_ hip
                have hpend : w0.interleave.pending g = p :: (rest ++ w0.interleave.script.flatten) := by
                  simp only [World.pending, World.waiting, hq, List.cons_append]
                rw [hpend, List.cons_append]
                refine List.Sublist.cons₂ p ?_
                simpa only [World.pending, World.waiting, Function.update_same] using r3
    have hss : World.okScript { w with
        vcChannel := Function.update w.vcChannel vc play.ChannelID,
        trace := w.trace ++ streamEvents (w.vcChannel vc) play sound vc } := hws
    have hsq : World.okQueue { w with
        vcChannel := Function.update w.vcChannel vc play.ChannelID,
        trace := w.trace ++ streamEvents (w.vcChannel vc) play sound vc } g := hwq
    cases hn : play.Next with
    | none =>
      rw [playSound_single f w play sound vc hs hn, hstream] at h
      obtain ⟨evs, roots, ht, hl, r1, r2, r3⟩ := hdrain _ w1 e hss hsq h
      refine ⟨streamEvents (w.vcChannel vc) play sound vc ++ evs, roots, ?_, ?_, r1, r2, r3⟩
      · rw [ht]
        simp
      · rw [statsLog_append, statsLog_streamEvents _ _ _ _ hs, hl, Play.chain_single play hn]
        simp
    | some next =>
      rw [playSound_chained f w play next sound vc hs hn, hstream] at h
      obtain ⟨hnok, hng, _⟩ := Play.ok_next play next hok hn
      cases hr : playSound f { w with
          vcChannel := Function.update w.vcChannel vc play.ChannelID,
          trace := w.trace ++ streamEvents (w.vcChannel vc) play sound vc } next (some vc) with
      | none => simp [hr] at h
      | some r =>
        obtain ⟨w3, o⟩ := r
        cases o with
        | panicked => simp [hr] at h
        | returned e3 =>
          simp only [hr] at h
          obtain ⟨evs1, roots1, ht1, hl1, q1, q2, q3⟩ :=
            ih _ next vc w3 e3 (hng.trans hg) hnok hss hsq hr
          have hq3 : w3.okQueue g := by
            intro q hq
            rw [q2] at hq
            simp at hq
          obtain ⟨evs2, roots2, ht2, hl2, r1, r2, r3⟩ := hdrain w3 w1 e q1 hq3 h
          refine ⟨streamEvents (w.vcChannel vc) play sound vc ++ evs1 ++ evs2,
            roots1 ++ roots2, ?_, ?_, r1, r2, ?_⟩
          · rw [ht2, ht1]
            simp
          · rw [statsLog_append, statsLog_append, statsLog_streamEvents _ _ _ _ hs, hl1, hl2,
              Play.chain_next play next hn]
            simp
          · have hw3 : w3.pending g = w3.script.flatten := by
              simp only [World.pending, World.waiting, q2, List.nil_append]
            rw [hw3] at r3
            rw [List.append_assoc]
            exact (List.Sublist.append (List.Sublist.refl roots1) r3).trans q3

theorem exampleBusyWorld_okQueue : exampleBusyWorld.okQueue "g" := by
  intro q hq p hp
  have hq1 : q = ⟨6, [examplePlay (exampleSound "b")]⟩ := by
    simp only [exampleBusyWorld, if_true, Option.some.injEq] at hq
    exact hq.symm
  subst hq1
  simp only [List.mem_singleton] at hp
  subst hp
  exact ⟨rfl, rfl⟩

/-- C15: a worker started for a play on a guild, with fuel for the plays at hand, returns,
and when the join succeeds the stats dispatches and the frames of its trace are, in order,
one block for each play that it streams: one stats dispatch, carrying the play (guild,
channel, user, clip and forced flag), and then the frames of that play. The plays streamed
are the plays of the chain of the first play and then, each with its chain, the plays
`roots` received from the queue; these are plays that waited in the queue of the guild or
that other calls of `enqueuePlay` brought, each taken once and in their order of arrival.
When the join fails there is no stats dispatch, and a request that finds the queue of the
guild full leaves the world, and with it the trace, as it was. -/
theorem playSound_stats (g : String) (fuel : Nat) (w : World) (play : Play)
    (hg : play.GuildID = g) :
    (play.ok = true → w.okScript → w.okQueue g →
      play.size + w.queueCount g + scriptCount w.script ≤ fuel →
      w.joinErr w.joins play.GuildID play.ChannelID = none →
      ∃ w1 e evs roots, playSound fuel w play none = some (w1, .returned e)
        ∧ w1.trace = w.trace ++ evs
        ∧ statsLog evs
          = ((play.chain ++ (roots.map Play.chain).flatten).map Play.block).flatten
        ∧ List.Sublist roots (w.pending g))
    ∧ (∀ err, 0 < fuel → w.joinErr w.joins play.GuildID play.ChannelID = some err →
      ∃ w1 evs, playSound fuel w play none = some (w1, .returned (some err))
        ∧ w1.trace = w.trace ++ evs
        ∧ statsLog evs = [])
    ∧ (∀ (guild : Guild) (q : Chan), guild.ID = g → w.queues g = some q →
      q.buf.length = MAX_QUEUE_SIZE →
      enqueuePlay.dispatch fuel w guild play = some (w, .returned .dropped)) := by
  refine ⟨?_, ?_, ?_⟩
  · intro hok hws hwq hfuel hj
    obtain ⟨w1, e, _, hrun, _, _, _, _, _⟩ :=
      playSound_run_any g fuel w play none hg hok hws hwq hfuel
    obtain ⟨f, rfl⟩ : ∃ f, fuel = f + 1 := ⟨fuel - 1, by have := Play.size_pos play; omega⟩
    have hrun1 := hrun
    rw [playSound_join f w play hj] at hrun1
    have hroots := fun hA hB => playSound_roots g _ _ play w.joins w1 e hg hok hA hB hrun1
    obtain ⟨evs, roots, ht, hl, _, _, hsub⟩ := hroots hws hwq
    refine ⟨w1, e, .ChannelVoiceJoin play.GuildID play.ChannelID (.ok w.joins) :: evs, roots,
      hrun, ?_, ?_, ?_⟩
    · rw [ht]
      simp
    · simp only [statsLog]
      exact hl
    · exact (List.sublist_append_left roots _).trans hsub
  · intro err hfuel hj
    obtain ⟨f, rfl⟩ : ∃ f, fuel = f + 1 := ⟨fuel - 1, by omega⟩
    rw [playSound_join_error f w play err hj]
    refine ⟨_, [.ChannelVoiceJoin play.GuildID play.ChannelID (.error err)], rfl, ?_, rfl⟩
    simp only
    rw [(World.interleave_frame _).1]
  · intro guild q hgid hq hfull
    have hlen : ¬ q.buf.length < MAX_QUEUE_SIZE := by omega
    simp only [enqueuePlay.dispatch, enqueuePlay.registry, hgid, hq, hlen, if_false]

/-- An instance of C15: the play `a` on the guild `"g"` while the play `b` waits in the
queue and the play `c` arrives (the log of that run has the dispatch for `a`, for `b` and
for `c`, each before its two frames), the play `a` when the transport refuses the join,
and the play `a` on a full queue. -/
theorem playSound_stats_witness :
    (∃ w1 e evs roots,
      playSound 3 exampleBusyWorld (examplePlay (exampleSound "a")) none
          = some (w1, .returned e)
        ∧ w1.trace = exampleBusyWorld.trace ++ evs
        ∧ statsLog evs
          = (((examplePlay (exampleSound "a")).chain
              ++ (roots.map Play.chain).flatten).map Play.block).flatten
        ∧ List.Sublist roots (exampleBusyWorld.pending "g"))
    ∧ (playSound 3 exampleBusyWorld (examplePlay (exampleSound "a")) none).map
        (fun r => statsLog r.1.trace)
      = some [.inl (examplePlay (exampleSound "a")), .inr [1, 2], .inr [3],
          .inl (examplePlay (exampleSound "b")), .inr [1, 2], .inr [3],
          .inl (examplePlay (exampleSound "c")), .inr [1, 2], .inr [3]]
    ∧ (∃ w1 evs,
      playSound 2 { exampleWorld with joinErr := fun _ _ _ => some (.other "refused") }
          (examplePlay (exampleSound "a")) none = some (w1, .returned (some (.other "refused")))
        ∧ w1.trace = ({ exampleWorld with
            joinErr := fun _ _ _ => some (.other "refused") } : World).trace ++ evs
        ∧ statsLog evs = [])
    ∧ enqueuePlay.dispatch 2 exampleFullWorld exampleGuild (examplePlay (exampleSound "a"))
        = some (exampleFullWorld, .returned .dropped) :=
  ⟨(playSound_stats "g" 3 exampleBusyWorld (examplePlay (exampleSound "a")) rfl).1 rfl
      (by unfold World.okScript; decide) exampleBusyWorld_okQueue (by decide) rfl,
   rfl,
   (playSound_stats "g" 2 { exampleWorld with joinErr := fun _ _ _ => some (.other "refused") }
      (examplePlay (exampleSound "a")) rfl).2.1 (.other "refused") (by decide) rfl,
   (playSound_stats "g" 2 exampleFullWorld (examplePlay (exampleSound "a")) rfl).2.2
      exampleGuild _ rfl rfl rfl⟩

/-! ## Theorems: two workers for one guild -/

/-- C19 at a chained play: the trigger `!anotha` without a clip name on the idle guild
`"g"`, and a second trigger for the guild whose `enqueuePlay` reaches the registry after
the call `playSound(play.Next, vc)` of the worker has returned. That inner call has
deleted the queue of the guild and disconnected (`wA`: no queue, one `Disconnect`, no
other worker yet), but the worker goes on: at its own queue check the second call finds
no queue, makes one and starts a worker of its own (`spawned`), and the first worker then
pauses, deletes the queue that the second worker has just made and disconnects the
connection of the guild again (`w1`). Two workers of the guild are live at once, and the
registry entry of the second is removed by the first. -/
theorem playSound_second_worker :
    ∃ wc wj wA w1,
      createPlay exampleRand exampleLateWorld exampleUser exampleGuild exampleChained none
        = (.returned (some exampleChainPlay), wc)
      ∧ ChannelVoiceJoin (enqueuePlay.registry wc "g" exampleChainPlay).1 "g" "c" = (wj, .ok 0)
      ∧ playSound 2 (playSound.stream wj exampleChainPlay 0).1
          (.mk "g" "c" "u" (some (exampleSound "reverb")) none false) (some 0)
        = some (wA, .returned none)
      ∧ wA.queues "g" = none ∧ wA.spawned = [] ∧ disconnectCount wA.trace = 1
      ∧ wA.script = [[examplePlay (exampleSound "late")]]
      ∧ playSound.drain (playSound 2) wA exampleChainPlay (exampleSound "one") 0
        = some (w1, .returned none)
      ∧ w1.spawned = [examplePlay (exampleSound "late")]
      ∧ w1.trace = wA.trace ++ [.Sleep 250, .Disconnect 0]
      ∧ w1.queues "g" = none
      ∧ disconnectCount w1.trace = 2
      ∧ enqueuePlay exampleRand 3 exampleLateWorld exampleUser exampleGuild exampleChained none
        = some (w1, .returned (some .start)) :=
  ⟨_, _, _, _, rfl, rfl, rfl, rfl, rfl, rfl, rfl, rfl, rfl, rfl, rfl, rfl, rfl⟩

end Airhorn
